import Mathlib

/-!
# NexShell kernel: the embedded document renderer (`kernel/GUI.c`)

A shallow embedding of the style parser, the cascade, the script recogniser
and the `render_html` traversal, followed by theorems about them.

Conventions of the embedding.

* A C string is the list of its bytes before the terminating NUL
  (`List Char`); the NUL itself never occurs in such a list, and
  "`*p == 0`" is "the list is empty".
* An `int` is an `Int`, and every sum, difference, product and negation that
  the code computes in `int` is taken through `wrap32`: the result is the
  exact one brought into the 32 bits of the type, as the machine
  instructions of the i386 target do. A colour channel (`uint8_t`) is a `Nat`
  below 256.
* `char` is a signed 8-bit integer on the i386 target of this kernel, so in a
  comparison such as `*p <= ' '` the bytes `0x80..0xFF` are negative; see `schar`.
* `kmalloc` is taken to succeed.
* Library routines of the kernel that are not part of `GUI.c`
  (`strcmp`, `strncmp`, `strchr`, `strlen`, `strncpy`, `strcpy`, `strcat`) have
  their standard meaning; `str2int` is a parameter of the embedding; the
  graphics calls and `printf` are recorded in traces.
-/

namespace NexShell

/-! ## Data model -/

/-- The colour record `struct graphics_color`: three channels and alpha, where
alpha 255 is the transparent sentinel of the renderer. -/
structure graphics_color where
  r : Nat
  g : Nat
  b : Nat
  a : Nat
deriving DecidableEq

/-- The record `struct render_style` (GUI.c lines 84-106). -/
structure render_style where
  fg : graphics_color
  bg : graphics_color
  font_scale : Int
  width : Int
  height : Int
  padding : Int
  margin : Int
  border_radius : Int
  position_absolute : Int
  top : Int
  right : Int
  display_flex : Int
  justify_center : Int
  align_center : Int
  has_shadow : Int
  display : Int
  white_space : Int
  bold : Int
  italic : Int
  underline : Int
  strike : Int
deriving DecidableEq

/-- One entry of the rule store, `struct css_rule`; the `next` pointer is the
tail of the list holding the rule. -/
structure css_rule where
  selector : List Char
  style : render_style
deriving DecidableEq

/-- The function `init_style`: everything zero, background transparent. -/
def init_style : render_style :=
  { fg := ⟨0, 0, 0, 0⟩, bg := ⟨0, 0, 0, 255⟩, font_scale := 0, width := 0, height := 0,
    padding := 0, margin := 0, border_radius := 0, position_absolute := 0, top := 0,
    right := 0, display_flex := 0, justify_center := 0, align_center := 0,
    has_shadow := 0, display := 0, white_space := 0, bold := 0, italic := 0,
    underline := 0, strike := 0 }

/-- The value that a 32-bit `int` holds when the exact result of an
arithmetic expression is `i`: two's complement wrap-around into the range
from -2147483648 to 2147483647. Wrapping after every operation of a sum,
difference or product gives the same value as wrapping the exact result once
(`wrap32_add_left`, `wrap32_sub_left`, `wrap32_mul_left`, `wrap32_stepwise`),
so an expression is wrapped as a whole. -/
def wrap32 (i : Int) : Int := (i + 2147483648) % 4294967296 - 2147483648

/-- The values that a 32-bit `int` can hold. -/
def fits32 (i : Int) : Prop := -2147483648 ≤ i ∧ i ≤ 2147483647

instance (i : Int) : Decidable (fits32 i) := by
  unfold fits32; infer_instance

/-- The value of a byte read as a signed `char`. -/
def schar (c : Char) : Int :=
  if c.toNat % 256 < 128 then (c.toNat % 256 : Nat) else ((c.toNat % 256 : Nat) : Int) - 256

/-- The test `c <= ' '` on a signed `char`. -/
def le_space (c : Char) : Bool := decide (schar c ≤ 32)

/-! ## Colours -/

/-- The function `parse_hex_digit` (GUI.c lines 123-128). -/
def parse_hex_digit (c : Char) : Nat :=
  if '0' ≤ c ∧ c ≤ '9' then c.toNat - '0'.toNat
  else if 'A' ≤ c ∧ c ≤ 'F' then c.toNat - 'A'.toNat + 10
  else if 'a' ≤ c ∧ c ≤ 'f' then c.toNat - 'a'.toNat + 10
  else 0

/-- One colour channel from two hex digits: `(hi << 4) | lo`, stored in a byte. -/
def hex_pair (hi lo : Char) : Nat :=
  ((parse_hex_digit hi <<< 4) ||| parse_hex_digit lo) % 256

/-- The chain of `strcmp` tests of `parse_css_color` for a string that does
not start with `#` (GUI.c lines 145-161). -/
def named_color (str : List Char) : graphics_color :=
  if str = "red".toList then ⟨255, 0, 0, 0⟩
  else if str = "green".toList then ⟨0, 128, 0, 0⟩
  else if str = "blue".toList then ⟨0, 0, 255, 0⟩
  else if str = "white".toList then ⟨255, 255, 255, 0⟩
  else if str = "black".toList then ⟨0, 0, 0, 0⟩
  else if str = "yellow".toList then ⟨255, 255, 0, 0⟩
  else if str = "cyan".toList then ⟨0, 255, 255, 0⟩
  else if str = "magenta".toList then ⟨255, 0, 255, 0⟩
  else if str = "gray".toList then ⟨128, 128, 128, 0⟩
  else if str = "orange".toList then ⟨255, 165, 0, 0⟩
  else if str = "purple".toList then ⟨128, 0, 128, 0⟩
  else if str = "teal".toList then ⟨0, 128, 128, 0⟩
  else if str = "navy".toList then ⟨0, 0, 128, 0⟩
  else if str = "maroon".toList then ⟨128, 0, 0, 0⟩
  else if str = "silver".toList then ⟨192, 192, 192, 0⟩
  else if str = "lime".toList then ⟨0, 255, 0, 0⟩
  else if str = "olive".toList then ⟨128, 128, 0, 0⟩
  else ⟨0, 0, 0, 255⟩

/-- The function `parse_css_color` (GUI.c lines 130-163). The first pattern is
`len >= 7`, the second `len >= 4`, the third a `#` string shorter than that. -/
def parse_css_color (str : List Char) : graphics_color :=
  match str with
  | '#' :: d1 :: d2 :: d3 :: d4 :: d5 :: d6 :: _ =>
      ⟨hex_pair d1 d2, hex_pair d3 d4, hex_pair d5 d6, 0⟩
  | '#' :: d1 :: d2 :: d3 :: _ =>
      ⟨hex_pair d1 d1, hex_pair d2 d2, hex_pair d3 d3, 0⟩
  | '#' :: _ => ⟨0, 0, 0, 255⟩
  | _ => named_color str

/-! ## Style blocks -/

/-- The inner loop of `strstr`: does `n` run out while `h` and `n` agree? -/
def strstr_at : List Char → List Char → Bool
  | _, [] => true
  | [], _ :: _ => false
  | h :: hs, n :: ns => if h = n then strstr_at hs ns else false

/-- The `for` loop of `strstr` over the haystack. -/
def strstr_scan (needle : List Char) : List Char → Option (List Char)
  | [] => none
  | h :: hs => if strstr_at (h :: hs) needle then some (h :: hs) else strstr_scan needle hs

/-- The function `strstr` of GUI.c (lines 165-177): the suffix of the
haystack at the first occurrence of the needle, or `none` for the null pointer. -/
def strstr (haystack needle : List Char) : Option (List Char) :=
  if needle = [] then some haystack else strstr_scan needle haystack

/-- The value text of a declaration as `parse_css_block` sees it: leading
spaces skipped, trailing bytes `<= ' '` cut off (GUI.c lines 193-198). -/
def css_value (after_colon : List Char) : List Char :=
  ((after_colon.dropWhile (fun c => c = ' ')).reverse.dropWhile le_space).reverse

/-- The chain of property tests of `parse_css_block` (GUI.c lines 200-232)
for the property text `p` and the trimmed value `val`. `str2int v d` is the
content of `*d` after the call `str2int(v, d)`. -/
def apply_declaration (str2int : List Char → Int → Int) (p val : List Char)
    (s : render_style) : render_style :=
  if p = "color".toList then { s with fg := parse_css_color val }
  else if p = "background-color".toList then { s with bg := parse_css_color val }
  else if p = "width".toList then { s with width := str2int val s.width }
  else if p = "height".toList then
    if (strstr val "vh".toList).isSome then { s with height := -1 }
    else { s with height := str2int val s.height }
  else if p = "padding".toList then { s with padding := str2int val s.padding }
  else if p = "border-radius".toList then
    if (strstr val "%".toList).isSome then { s with border_radius := -1 }
    else { s with border_radius := str2int val s.border_radius }
  else if p = "position".toList then
    if (strstr val "absolute".toList).isSome then { s with position_absolute := 1 } else s
  else if p = "top".toList then { s with top := str2int val s.top }
  else if p = "right".toList then { s with right := str2int val s.right }
  else if p = "display".toList then
    if (strstr val "flex".toList).isSome then { s with display_flex := 1 } else s
  else if p = "justify-content".toList then
    if (strstr val "center".toList).isSome then { s with justify_center := 1 } else s
  else if p = "align-items".toList then
    if (strstr val "center".toList).isSome then { s with align_center := 1 } else s
  else if p = "box-shadow".toList then { s with has_shadow := 1 }
  else if p = "display".toList then
    if (strstr val "none".toList).isSome then { s with display := 2 }
    else if (strstr val "block".toList).isSome then { s with display := 1 }
    else s
  else s

/-- The body of the `while` loop of `parse_css_block` for one segment (the
text up to the next `;`): if it holds a colon, the text before the first
colon is the property and the rest the value (GUI.c lines 190-233). -/
def parse_css_segment (str2int : List Char → Int → Int) (seg : List Char)
    (s : render_style) : render_style :=
  match seg.dropWhile (fun c => c ≠ ':') with
  | [] => s
  | _ :: after_colon =>
      apply_declaration str2int (seg.takeWhile (fun c => c ≠ ':')) (css_value after_colon) s

/-- The `while (*p)` loop of `parse_css_block` (GUI.c lines 186-238). Every
round consumes at least one byte or ends the loop, so `fuel` above the
length of `p` is never used up; `none` is "out of fuel". -/
def parse_css_block_loop (str2int : List Char → Int → Int) :
    Nat → List Char → render_style → Option render_style
  | 0, _, _ => none
  | fuel + 1, p, s =>
    match p with
    | [] => some s
    | _ :: _ =>
      let s1 := parse_css_segment str2int (p.takeWhile (fun c => c ≠ ';')) s
      match p.dropWhile (fun c => c ≠ ';') with
      | [] => some s1
      | _ :: after_end =>
          parse_css_block_loop str2int fuel (after_end.dropWhile (fun c => c = ' ')) s1

/-- The function `parse_css_block` (GUI.c lines 179-239): the block is
copied into a 128-byte buffer, so only its first 127 bytes are read. -/
def parse_css_block (str2int : List Char → Int → Int) (block : List Char)
    (s : render_style) : render_style :=
  (parse_css_block_loop str2int ((block.take 127).length + 1) (block.take 127) s).getD s

/-! ## Style sheets and the cascade -/

/-- The selector as stored: at most 63 bytes, trailing bytes `<= ' '` cut
off (GUI.c lines 253-260). -/
def css_selector (sel : List Char) : List Char :=
  ((sel.take 63).reverse.dropWhile le_space).reverse

/-- The `while (*p)` loop of `parse_css_sheet` (GUI.c lines 243-282); the
store is the list of rules, newest first. `none` is "out of fuel". -/
def parse_css_sheet_loop (str2int : List Char → Int → Int) :
    Nat → List Char → List css_rule → Option (List css_rule)
  | 0, _, _ => none
  | fuel + 1, p, rules =>
    match p.dropWhile le_space with
    | [] => some rules
    | c :: q =>
      let sel := (c :: q).takeWhile (fun c => c ≠ '{')
      match (c :: q).dropWhile (fun c => c ≠ '{') with
      | [] => some rules
      | _ :: after_brace =>
        let block := (after_brace.takeWhile (fun c => c ≠ '}')).take 511
        let rule : css_rule :=
          { selector := css_selector sel,
            style := parse_css_block str2int block init_style }
        match after_brace.dropWhile (fun c => c ≠ '}') with
        | [] => parse_css_sheet_loop str2int fuel [] (rule :: rules)
        | _ :: after_close => parse_css_sheet_loop str2int fuel after_close (rule :: rules)

/-- The function `parse_css_sheet` (GUI.c lines 241-283), as a function
from the store before the call to the store after it. -/
def parse_css_sheet (str2int : List Char → Int → Int) (sheet : List Char)
    (rules : List css_rule) : List css_rule :=
  (parse_css_sheet_loop str2int (sheet.length + 1) sheet rules).getD rules

/-- The test `match` of `get_style_for` (GUI.c lines 288-290); a null `tag`
or `cls` is `none`. -/
def rule_matches (tag cls : Option (List Char)) (r : css_rule) : Bool :=
  (match cls with
   | some c => decide (r.selector.head? = some '.' ∧ r.selector.tail = c)
   | none => false) ||
  (match tag with
   | some t => decide (r.selector = t)
   | none => false)

/-- The merge of one matching rule into the style (GUI.c lines 294-305). -/
def merge_rule (rs s : render_style) : render_style :=
  let s := if rs.bg.a ≠ 255 then { s with bg := rs.bg } else s
  let s := if rs.width ≠ 0 then { s with width := rs.width } else s
  let s := if rs.height ≠ 0 then { s with height := rs.height } else s
  let s := if rs.padding ≠ 0 then { s with padding := rs.padding } else s
  let s := if rs.border_radius ≠ 0 then { s with border_radius := rs.border_radius } else s
  let s := if rs.position_absolute ≠ 0 then { s with position_absolute := 1 } else s
  let s := if rs.top ≠ 0 then { s with top := rs.top } else s
  let s := if rs.right ≠ 0 then { s with right := rs.right } else s
  let s := if rs.display_flex ≠ 0 then { s with display_flex := 1 } else s
  let s := if rs.justify_center ≠ 0 then { s with justify_center := 1 } else s
  let s := if rs.align_center ≠ 0 then { s with align_center := 1 } else s
  let s := if rs.has_shadow ≠ 0 then { s with has_shadow := 1 } else s
  s

/-- The function `get_style_for` (GUI.c lines 285-309), walking the store
from its head. -/
def get_style_for : List css_rule → Option (List Char) → Option (List Char) →
    render_style → render_style
  | [], _, _, s => s
  | r :: rest, tag, cls, s =>
      get_style_for rest tag cls (if rule_matches tag cls r then merge_rule r.style s else s)

/-- A decimal reading of `str2int`, used where a concrete one is needed: a
string of decimal digits is stored as its value, any other string leaves
the target as it was. -/
def str2int_dec (v : List Char) (d : Int) : Int :=
  if v.all (fun c => decide ('0' ≤ c ∧ c ≤ '9')) then
    ((v.foldl (fun (n : Nat) c => 10 * n + (c.toNat - '0'.toNat)) 0 : Nat) : Int)
  else d

/-! ## The script recogniser -/

/-- The `while (*p)` loop of `run_js_script` (GUI.c lines 340-367). The
result is the value returned together with the lines given to `printf`;
`none` is "out of fuel". -/
def run_js_loop : Nat → List Char → List (List Char) → Option (Int × List (List Char))
  | 0, _, _ => none
  | fuel + 1, p, out =>
    match p.dropWhile le_space with
    | [] => some (0, out)
    | c :: q =>
      if "console.log(\x22".toList.isPrefixOf (c :: q) then
        let arg := (c :: q).drop 13
        let buf := (arg.takeWhile (fun c => c ≠ '\x22')).take 127
        run_js_loop fuel ((arg.drop buf.length).dropWhile (fun c => c ≠ ';'))
          (out ++ ["JS: ".toList ++ buf ++ "\n".toList])
      else if "alert(\x22".toList.isPrefixOf (c :: q) then
        let arg := (c :: q).drop 7
        let buf := (arg.takeWhile (fun c => c ≠ '\x22')).take 127
        run_js_loop fuel ((arg.drop buf.length).dropWhile (fun c => c ≠ ';'))
          (out ++ ["JS ALERT: ".toList ++ buf ++ "\n".toList])
      else if "exit()".toList.isPrefixOf (c :: q) then some (1, out)
      else if "goBack()".toList.isPrefixOf (c :: q) then some (1, out)
      else if "onButton()".toList.isPrefixOf (c :: q) then some (1, out)
      else run_js_loop fuel q out

/-- The function `run_js_script` (GUI.c lines 337-369): the value returned
and the lines printed. -/
def run_js_script (script : List Char) : Int × List (List Char) :=
  (run_js_loop (script.length + 1) script []).getD (0, [])

/-! ## Drawing -/

/-- A call on the drawing surface, recorded with its arguments. -/
inductive gfx_call where
  | graphics_bgcolor (c : graphics_color)
  | graphics_fgcolor (c : graphics_color)
  | graphics_clear (x y w h : Int)
  | graphics_rect (x y w h : Int)
  | graphics_line (x y w h : Int)
  | graphics_char (x y : Int) (c : Char)
deriving DecidableEq

/-- The `while (*text)` loop of `draw_text_styled` (GUI.c lines 71-81): the
cursor after the text and the surface calls made; `g` false is the null
surface of a measuring pass. -/
def draw_text_loop (g : Bool) (y : Int) (bold underline strike : Int) :
    List Char → Int → Int × List gfx_call
  | [], x => (x, [])
  | c :: text, x =>
    let here : List gfx_call :=
      if g then
        [gfx_call.graphics_char x y c]
          ++ (if bold ≠ 0 then [gfx_call.graphics_char (wrap32 (x + 1)) y c] else [])
          ++ (if underline ≠ 0 then [gfx_call.graphics_line x (wrap32 (y + 14)) 8 0] else [])
          ++ (if strike ≠ 0 then [gfx_call.graphics_line x (wrap32 (y + 7)) 8 0] else [])
      else []
    let r := draw_text_loop g y bold underline strike text (wrap32 (x + 8))
    (r.1, here ++ r.2)

/-- The function `draw_text_styled` (GUI.c lines 66-82). -/
def draw_text_styled (g : Bool) (x y : Int) (text : List Char) (fg bg : graphics_color)
    (bold italic underline strike : Int) : Int × List gfx_call :=
  let r := draw_text_loop g y bold underline strike text x
  (r.1, (if g then [gfx_call.graphics_fgcolor fg, gfx_call.graphics_bgcolor bg] else []) ++ r.2)

/-- The function `draw_rounded_rect` (GUI.c lines 311-328). -/
def draw_rounded_rect (x y w h r : Int) (c : graphics_color) : List gfx_call :=
  [gfx_call.graphics_fgcolor c,
   gfx_call.graphics_rect (wrap32 (x + r)) y (wrap32 (w - 2 * r)) h,
   gfx_call.graphics_rect x (wrap32 (y + r)) r (wrap32 (h - 2 * r)),
   gfx_call.graphics_rect (wrap32 (x + w - r)) (wrap32 (y + r)) r (wrap32 (h - 2 * r)),
   gfx_call.graphics_rect (wrap32 (x + 2)) (wrap32 (y + 2)) (wrap32 (r - 2)) (wrap32 (r - 2)),
   gfx_call.graphics_rect (wrap32 (x + w - r)) (wrap32 (y + 2)) (wrap32 (r - 2))
     (wrap32 (r - 2)),
   gfx_call.graphics_rect (wrap32 (x + 2)) (wrap32 (y + h - r)) (wrap32 (r - 2))
     (wrap32 (r - 2)),
   gfx_call.graphics_rect (wrap32 (x + w - r)) (wrap32 (y + h - r)) (wrap32 (r - 2))
     (wrap32 (r - 2))]

/-- The function `draw_circle` (GUI.c lines 330-335); `/` of C truncates
toward zero. -/
def draw_circle (x y d : Int) (c : graphics_color) : List gfx_call :=
  [gfx_call.graphics_fgcolor c,
   gfx_call.graphics_rect (wrap32 (x + Int.tdiv d 4)) y (Int.tdiv d 2) d,
   gfx_call.graphics_rect x (wrap32 (y + Int.tdiv d 4)) d (Int.tdiv d 2)]

/-! ## The traversal `render_html` -/

/-- The record `struct dom_node` of `render_html` (GUI.c lines 401-407). Each
text field is the string that the record holds in that array: the bytes from
the start of the array up to the first NUL. The arrays are `tag[32]`,
`cls[32]` and `onclick[64]`, one after the other in the record, so that a
name which `strcpy` writes over the end of `tag` continues in `cls`; see
`stored_tag`. -/
structure dom_node where
  tag : List Char
  cls : List Char
  onclick : List Char
  style : render_style
  x : Int
  y : Int
  w : Int
  h : Int
deriving DecidableEq

/-- What `render_html` reads from outside: `str2int`, the size of the
surface, the pointer globals `ms_mx`, `ms_my`, `ms_left`, and `stack0`, the
content of the array `stack` on entry (it is not initialised). -/
structure render_env where
  str2int : List Char → Int → Int
  screen_w : Int
  screen_h : Int
  ms_mx : Int
  ms_my : Int
  ms_left : Int
  stack0 : Nat → dom_node

/-- A node as `render_html` leaves it at the end of the opening-tag branch,
with the index of its stack entry. This list is a record of the traversal,
not a variable of the C function. -/
structure opened_node where
  sp : Nat
  node : dom_node
deriving DecidableEq

/-- The variables of `render_html` during the loop, the rule store
`css_rules`, and the traces. `pos` is the offset `p - html_content` of the
read cursor: at `pos = length` the cursor is on the terminating NUL, a larger
`pos` is past it. `style_buf` and `script_buf` hold the first `style_idx`
and `script_idx` bytes of the buffers. -/
structure render_state where
  pos : Nat
  in_tag : Int
  in_style : Int
  in_script : Int
  style_buf : List Char
  script_buf : List Char
  hover_detected : Int
  should_exit : Int
  stack : Nat → dom_node
  sp : Nat
  css_rules : List css_rule
  attr_past_end : Bool
  calls : List gfx_call
  printed : List (List Char)
  opened : List opened_node

/-- Assignment to one entry of the array `stack`. -/
def set_node (stack : Nat → dom_node) (i : Nat) (n : dom_node) : Nat → dom_node :=
  fun j => if j = i then n else stack j

/-- Modelled from the spec: `strtolower` is a string routine of the kernel
outside `GUI.c`; the tag name is lowercased (ASCII letters). -/
def strtolower (s : List Char) : List Char := s.map Char.toLower

/-- A chain `!strcmp(tag, a) || !strcmp(tag, b) || ...`. -/
def tag_in (tag : List Char) (names : List String) : Bool :=
  names.any (fun n => decide (tag = n.toList))

/-- The hit test of the interaction check (GUI.c lines 651-652); the sums
`x + w` and `y + h` are `int` sums. -/
def hit_test (px py x y w h : Int) : Bool :=
  decide (px ≥ x) && decide (px < wrap32 (x + w)) && decide (py ≥ y)
    && decide (py < wrap32 (y + h))

/-- The line break of a flow cursor: `if (n.x > 20) { n.x = 20; n.y += 16; }`
(GUI.c lines 458 and 528). -/
def line_break (n : dom_node) : dom_node :=
  if n.x > 20 then { n with x := 20, y := wrap32 (n.y + 16) } else n

/-- The result of the attribute scan: the class and handler text stored in
the node, and whether the scan cursor `attr` stepped over the terminating NUL
(from there on it reads outside the document and the scan is not followed). -/
structure scanned_attrs where
  cls : List Char
  onclick : List Char
  past_end : Bool
deriving DecidableEq

/-- The attribute loop `while (*attr && *attr != '>')` (GUI.c lines 482-495).
`none` is "out of fuel". -/
def scan_attrs : Nat → List Char → List Char → List Char → Option scanned_attrs
  | 0, _, _, _ => none
  | fuel + 1, attr, cls, onclick =>
    match attr with
    | [] => some ⟨cls, onclick, false⟩
    | c :: next =>
      if c = '>' then some ⟨cls, onclick, false⟩
      else if "class=\x22".toList.isPrefixOf attr then
        let v := ((attr.drop 7).takeWhile (fun c => c ≠ '\x22')).take 31
        match (attr.drop 7).drop v.length with
        | [] => some ⟨v, onclick, true⟩
        | _ :: after => scan_attrs fuel after v onclick
      else if "onclick=\x22".toList.isPrefixOf attr then
        let v := ((attr.drop 9).takeWhile (fun c => c ≠ '\x22')).take 63
        match (attr.drop 9).drop v.length with
        | [] => some ⟨cls, v, true⟩
        | _ :: after => scan_attrs fuel after cls v
      else scan_attrs fuel next cls onclick

/-- The string that the array `tag[32]` of a node holds once
`strcpy(node->tag, tag)` has run (GUI.c line 463) and the class text `cls` is
in place: a name shorter than 32 bytes is held as it is; of a longer one (the
local `tag[64]` has up to 63 bytes) the first 32 bytes lie in `tag` and the
rest in `cls`, which the code then overwrites from its first byte, so the
string read from `tag` is these 32 bytes followed by the class text. -/
def stored_tag (tag cls : List Char) : List Char :=
  if tag.length < 32 then tag else tag.take 32 ++ cls

/-- The inherited fields of a new node (GUI.c lines 466-478). -/
def inherit_style (parent : render_style) : render_style :=
  { init_style with
    fg := parent.fg, font_scale := parent.font_scale, bold := parent.bold,
    italic := parent.italic, underline := parent.underline, strike := parent.strike,
    white_space := parent.white_space }

/-- The tag defaults (GUI.c lines 497-510). -/
def tag_defaults (tag : List Char) (s : render_style) : render_style :=
  let s :=
    if tag_in tag ["head", "script", "style", "meta", "link", "title", "template"] then
      { s with display := 2 }
    else if tag_in tag ["div", "p", "h1", "h2", "h3", "h4", "h5", "h6", "ul", "ol", "li",
        "dl", "dt", "dd", "blockquote", "pre", "hr", "header", "footer", "main", "section",
        "article", "aside", "nav", "figure", "figcaption", "details", "summary", "dialog",
        "form", "fieldset", "legend", "table", "tr", "thead", "tbody", "tfoot"] then
      { s with display := 1 }
    else if tag_in tag ["img", "video", "audio", "canvas", "iframe", "embed", "object",
        "input", "button", "select", "textarea", "progress", "meter"] then
      { s with display := 3 }
    else s
  let s := if tag_in tag ["pre"] then { s with white_space := 1 } else s
  let s := if tag_in tag ["b", "strong", "h1", "h2", "h3", "th"] then { s with bold := 1 } else s
  let s := if tag_in tag ["i", "em", "cite", "dfn", "var", "address"] then
      { s with italic := 1 } else s
  let s := if tag_in tag ["u", "ins"] then { s with underline := 1 } else s
  let s := if tag_in tag ["s", "del", "strike"] then { s with strike := 1 } else s
  s

/-- The dimensions of a node (GUI.c lines 518-524). -/
def layout_size (screen_h : Int) (parent node : dom_node) : dom_node :=
  let node :=
    if node.style.height = -1 then { node with h := screen_h }
    else if node.style.height > 0 then { node with h := node.style.height }
    else { node with h := parent.h }
  if node.style.width > 0 then { node with w := node.style.width }
  else { node with w := parent.w }

/-- The position of a node (GUI.c lines 531-548), in `int` arithmetic; `/`
of C truncates toward zero. -/
def layout_position (parent node : dom_node) : dom_node :=
  if node.style.position_absolute ≠ 0 then
    { node with
      x := wrap32 (parent.x + parent.w - node.style.right - node.w),
      y := wrap32 (parent.y + node.style.top) }
  else
    let node :=
      if parent.style.display_flex ≠ 0 ∧ parent.style.justify_center ≠ 0 then
        { node with x := wrap32 (parent.x + Int.tdiv (wrap32 (parent.w - node.w)) 2) }
      else { node with x := wrap32 (parent.x + node.style.margin) }
    if parent.style.display_flex ≠ 0 ∧ parent.style.align_center ≠ 0 then
      { node with y := wrap32 (parent.y + Int.tdiv (wrap32 (parent.h - node.h)) 2) }
    else { node with y := wrap32 (parent.y + node.style.margin) }

/-- The shadow and background of a node (GUI.c lines 553-570). -/
def draw_background (node : dom_node) : List gfx_call :=
  (if node.style.has_shadow ≠ 0 then
    [gfx_call.graphics_fgcolor ⟨200, 200, 200, 0⟩,
     gfx_call.graphics_rect (wrap32 (node.x + 10)) (wrap32 (node.y + 10)) node.w node.h]
   else []) ++
  (if node.style.bg.a ≠ 255 then
    if node.style.border_radius = -1 then draw_circle node.x node.y node.w node.style.bg
    else if node.style.border_radius > 0 then
      draw_rounded_rect node.x node.y node.w node.h node.style.border_radius node.style.bg
    else [gfx_call.graphics_fgcolor node.style.bg,
          gfx_call.graphics_rect node.x node.y node.w node.h]
   else [])

/-- The widget placeholders (GUI.c lines 572-632): the node with its cursor
moved, and the surface calls of a drawing pass. -/
def tag_visuals (screen_w : Int) (draw : Int) (tag : List Char) (node : dom_node) :
    dom_node × List gfx_call :=
  let r : dom_node × List gfx_call := (node, [])
  let r :=
    if tag_in tag ["hr"] then
      ({ r.1 with y := wrap32 (r.1.y + 16) },
       r.2 ++ (if draw ≠ 0 then
          [gfx_call.graphics_fgcolor ⟨128, 128, 128, 0⟩,
           gfx_call.graphics_line 20 (wrap32 (r.1.y + 8)) (wrap32 (screen_w - 40)) 0]
          else []))
    else r
  let r :=
    if tag_in tag ["button"] then
      ({ r.1 with x := wrap32 (r.1.x + 5), y := wrap32 (r.1.y + 4) },
       r.2 ++ (if draw ≠ 0 then
          [gfx_call.graphics_fgcolor ⟨200, 200, 200, 0⟩]
          ++ (if r.1.style.bg.a ≠ 255 then [gfx_call.graphics_fgcolor r.1.style.bg] else [])
          ++ [gfx_call.graphics_rect r.1.x r.1.y 60 20] else []))
    else r
  let r :=
    if tag_in tag ["input", "select", "textarea"] then
      ({ r.1 with x := wrap32 (r.1.x + 110) },
       r.2 ++ (if draw ≠ 0 then
          [gfx_call.graphics_fgcolor ⟨255, 255, 255, 0⟩,
           gfx_call.graphics_rect r.1.x r.1.y 100 20,
           gfx_call.graphics_fgcolor ⟨100, 100, 100, 0⟩,
           gfx_call.graphics_line r.1.x r.1.y 100 0,
           gfx_call.graphics_line r.1.x (wrap32 (r.1.y + 20)) 100 0,
           gfx_call.graphics_line r.1.x r.1.y 0 20,
           gfx_call.graphics_line (wrap32 (r.1.x + 100)) r.1.y 0 20] else []))
    else r
  let r :=
    if tag_in tag ["progress", "meter"] then
      ({ r.1 with x := wrap32 (r.1.x + 110) },
       r.2 ++ (if draw ≠ 0 then
          [gfx_call.graphics_fgcolor ⟨200, 200, 200, 0⟩,
           gfx_call.graphics_rect r.1.x r.1.y 100 16,
           gfx_call.graphics_fgcolor ⟨0, 200, 0, 0⟩,
           gfx_call.graphics_rect r.1.x r.1.y 50 16] else []))
    else r
  let r :=
    if tag_in tag ["img", "video", "canvas", "iframe"] then
      let w : Int := if r.1.style.width > 0 then r.1.style.width else 50
      let h : Int := if r.1.style.height > 0 then r.1.style.height else 50
      ({ r.1 with x := wrap32 (r.1.x + (w + 10)) },
       r.2 ++ (if draw ≠ 0 then
          [gfx_call.graphics_fgcolor ⟨200, 200, 200, 0⟩]
          ++ (if r.1.style.bg.a ≠ 255 then [gfx_call.graphics_fgcolor r.1.style.bg] else [])
          ++ [gfx_call.graphics_rect r.1.x r.1.y w h,
              gfx_call.graphics_fgcolor ⟨0, 0, 0, 0⟩,
              gfx_call.graphics_line r.1.x r.1.y w h,
              gfx_call.graphics_line r.1.x (wrap32 (r.1.y + h)) w (wrap32 (-h))] else []))
    else r
  let r :=
    if tag_in tag ["li"] then
      ({ r.1 with x := wrap32 (r.1.x + 20) },
       r.2 ++ (if draw ≠ 0 then
          [gfx_call.graphics_fgcolor ⟨0, 0, 0, 0⟩,
           gfx_call.graphics_rect (wrap32 (r.1.x + 20 - 12)) (wrap32 (r.1.y + 6)) 4 4]
          else []))
    else r
  let r :=
    if tag_in tag ["blockquote"] then
      ({ r.1 with x := wrap32 (r.1.x + 20) },
       r.2 ++ (if draw ≠ 0 then
          [gfx_call.graphics_fgcolor ⟨150, 150, 150, 0⟩,
           gfx_call.graphics_line (wrap32 (r.1.x + 20 - 10)) r.1.y 0 40] else []))
    else r
  r

/-- The `::after` pseudo-element (GUI.c lines 634-648): the surface calls of
a drawing pass. -/
def draw_pseudo (rules : List css_rule) (draw : Int) (node : dom_node) : List gfx_call :=
  let pstyle := get_style_for rules none (some (node.cls ++ "::after".toList)) init_style
  if pstyle.width > 0 ∧ draw ≠ 0 ∧ pstyle.border_radius = -1 then
    draw_circle (wrap32 (node.x + node.w - pstyle.right - pstyle.width))
      (wrap32 (node.y + pstyle.top))
      pstyle.width pstyle.bg
  else []

/-- The interaction check (GUI.c lines 650-659): the hover flag, the exit
flag and the printed lines after it. -/
def interaction_check (env : render_env) (node : dom_node) (st : render_state) :
    render_state :=
  if hit_test env.ms_mx env.ms_my node.x node.y node.w node.h ∧ node.onclick ≠ [] then
    let st := { st with hover_detected := 1 }
    if env.ms_left ≠ 0 then
      let r := run_js_script node.onclick
      { st with
        printed := st.printed ++ r.2,
        should_exit := if r.1 ≠ 0 then 1 else st.should_exit }
    else st
  else st

/-- A new node with its box, the parent entry after the line break of a block
start, and whether the attribute scan left the document. -/
structure placed_node where
  parent : dom_node
  node : dom_node
  attr_past_end : Bool

/-- The first part of the opening-tag branch (GUI.c lines 461-548), for the new
index `sp`: the node is created in `stack[sp]`, inherits from `stack[sp-1]`, takes
its attributes from the text `p` after the tag name, its tag defaults and its
rules, and is sized and positioned. -/
def place_node (env : render_env) (tag p : List Char) (sp : Nat) (st : render_state) :
    placed_node :=
  let node : dom_node :=
    { st.stack sp with
      tag := stored_tag tag [], cls := [], onclick := [], style := init_style }
  let node :=
    if sp > 0 then { node with style := inherit_style (st.stack (sp - 1)).style } else node
  let attrs := (scan_attrs (p.length + 1) p node.cls node.onclick).getD ⟨[], [], false⟩
  let node :=
    { node with tag := stored_tag tag attrs.cls, cls := attrs.cls, onclick := attrs.onclick }
  let node := { node with style := tag_defaults tag node.style }
  let node :=
    { node with
      style := get_style_for st.css_rules (some tag)
        (if node.cls ≠ [] then some node.cls else none) node.style }
  let node := layout_size env.screen_h (st.stack (sp - 1)) node
  let parent :=
    if node.style.display = 1 then line_break (st.stack (sp - 1)) else st.stack (sp - 1)
  let node := layout_position parent node
  { parent := parent, node := node, attr_past_end := attrs.past_end }

/-- The second part of the opening-tag branch, for a node that is not hidden
(GUI.c lines 552-659): background, widget placeholder, pseudo-element and
interaction check. -/
def show_node (env : render_env) (draw : Int) (tag : List Char) (sp : Nat) (node : dom_node)
    (st : render_state) : render_state :=
  let st := if draw ≠ 0 then { st with calls := st.calls ++ draw_background node } else st
  let v := tag_visuals env.screen_w draw tag node
  let st :=
    { st with
      stack := set_node st.stack sp v.1,
      calls := st.calls ++ v.2 ++ draw_pseudo st.css_rules draw v.1 }
  interaction_check env v.1 st

/-- The opening-tag branch (GUI.c lines 460-662): `tag` is the lowercased tag
name and `p` the text at the read cursor, just after the name. -/
def open_node (env : render_env) (draw : Int) (tag p : List Char) (st : render_state) :
    render_state :=
  let sp := st.sp + 1
  let n := place_node env tag p sp st
  let st :=
    { st with
      sp := sp,
      stack := set_node (set_node st.stack (sp - 1) n.parent) sp n.node,
      attr_past_end := st.attr_past_end || n.attr_past_end }
  let st := if n.node.style.display = 2 then st else show_node env draw tag sp n.node st
  { st with opened := st.opened ++ [⟨sp, st.stack sp⟩] }

/-- The closing-tag branch (GUI.c lines 454-459). -/
def close_node (st : render_state) : render_state :=
  let sp := if st.sp > 0 then st.sp - 1 else st.sp
  let st := { st with sp := sp }
  if (st.stack (sp + 1)).style.display = 1 then
    { st with stack := set_node st.stack sp (line_break (st.stack sp)) }
  else st

/-- The `style` and `script` tags (GUI.c lines 434-452). -/
def style_script_tag (env : render_env) (execute_js : Int) (tag : List Char) (closing : Bool)
    (st : render_state) : render_state :=
  if tag = "style".toList then
    if closing then
      { st with in_style := 0, css_rules := parse_css_sheet env.str2int st.style_buf st.css_rules }
    else { st with in_style := 1, style_buf := [] }
  else if tag = "script".toList then
    if closing then
      { st with
        in_script := 0,
        printed := if execute_js ≠ 0 then st.printed ++ (run_js_script st.script_buf).2
                   else st.printed }
    else { st with in_script := 1, script_buf := [] }
  else st

/-- What the branch `*p == '<'` does once the tag name is read (GUI.c lines
434-662): the `style` and `script` tags, then the closing or the opening of a
node; `p` is the text at the read cursor, just after the name. -/
def tag_body (env : render_env) (execute_js draw : Int) (closing : Bool)
    (tag p : List Char) (st : render_state) : render_state :=
  let st := style_script_tag env execute_js tag closing st
  if closing then close_node st
  else if st.in_style = 0 ∧ st.in_script = 0 then open_node env draw tag p st
  else st

/-- The branch `*p == '<'` of the main loop (GUI.c lines 422-665) together
with the `p++` that ends the round (line 698); `after` is the text that
follows the `<`. -/
def tag_step (env : render_env) (execute_js draw : Int) (after : List Char)
    (st : render_state) : render_state :=
  let closing : Bool := decide (after.head? = some '/')
  let p := if closing then after.tail else after
  let name := (p.takeWhile (fun c => c ≠ '>' ∧ c ≠ ' ')).take 63
  let st := tag_body env execute_js draw closing (strtolower name) (p.drop name.length)
    { st with in_tag := 1 }
  { st with
    in_tag := 0,
    pos := st.pos + 1 + (if closing then 1 else 0) + name.length
            + ((p.drop name.length).takeWhile (fun c => c ≠ '>')).length + 1 }

/-- The word collection loop (GUI.c lines 678-683): the word, the number of
bytes the cursor moved, and the flow cursor of the node after it. -/
def collect_word (white_space : Int) :
    List Char → List Char → Nat → Int → Int → List Char × Nat × Int × Int
  | [], word, n, x, y => (word, n, x, y)
  | c :: p, word, n, x, y =>
    if c = '<' ∨ ¬ (word.length < 255) then (word, n, x, y)
    else if c = '\n' ∧ white_space = 0 then
      collect_word white_space p word (n + 1) (if x > 20 then wrap32 (x + 4) else x) y
    else if c = '\n' ∧ white_space ≠ 0 then
      collect_word white_space p word (n + 1) 20 (wrap32 (y + 16))
    else if c = ' ' ∨ c = '\t' then (word ++ [c], n + 1, x, y)
    else collect_word white_space p (word ++ [c]) (n + 1) x y

/-- The wrap test before a word is placed (GUI.c line 687), in `int`
arithmetic; `wi` is the number of bytes of the word. -/
def wrap_word (screen_w : Int) (wi : Nat) (node : dom_node) : dom_node :=
  if wrap32 (node.x + (wi : Int) * 8) > wrap32 (screen_w - 20) then
    { node with x := 20, y := wrap32 (node.y + 16) }
  else node

/-- The text pass on the node on top of the stack (GUI.c lines 672-688),
from the text `rest` at the read cursor; the cursor is left on the last byte
consumed (`p--`). -/
def text_step (env : render_env) (draw : Int) (rest : List Char) (st : render_state) :
    render_state :=
  let node := st.stack st.sp
  let r := collect_word node.style.white_space rest [] 0 node.x node.y
  let node := { node with x := r.2.2.1, y := r.2.2.2 }
  let node := wrap_word env.screen_w r.1.length node
  let d := draw_text_styled (decide (draw ≠ 0)) node.x node.y r.1 node.style.fg node.style.bg
    node.style.bold node.style.italic node.style.underline node.style.strike
  { st with
    pos := st.pos + r.2.1 - 1,
    stack := set_node st.stack st.sp { node with x := d.1 },
    calls := st.calls ++ d.2 }

/-- The byte under the read cursor. -/
def byte_at (doc : List Char) (pos : Nat) : Char := doc.getD pos (Char.ofNat 0)

/-- The last branch of the main loop (GUI.c lines 670-697) together with the
`p++` that ends the round. -/
def text_or_buffer_step (env : render_env) (doc : List Char) (draw : Int)
    (st : render_state) : render_state :=
  let st :=
    if st.in_tag = 0 ∧ st.in_style = 0 ∧ st.in_script = 0 then
      text_step env draw (doc.drop st.pos) st
    else st
  let st :=
    if st.in_style ≠ 0 ∧ st.style_buf.length < 2047 then
      { st with style_buf := st.style_buf ++ [byte_at doc st.pos] }
    else st
  let st :=
    if st.in_script ≠ 0 ∧ st.script_buf.length < 2047 then
      { st with script_buf := st.script_buf ++ [byte_at doc st.pos] }
    else st
  { st with pos := st.pos + 1 }

/-- One round of the main loop `while (*p)` of `render_html` (GUI.c lines
421-699), entered with the cursor on a byte of the document. -/
def render_step (env : render_env) (doc : List Char) (execute_js draw : Int)
    (st : render_state) : render_state :=
  match doc.drop st.pos with
  | [] => st
  | c :: after =>
    if c = '<' then tag_step env execute_js draw after st
    else if c = '>' then { st with in_tag := 0, pos := st.pos + 1 }
    else if (st.stack st.sp).style.display = 2 ∧ st.in_style = 0 ∧ st.in_script = 0 then
      { st with pos := st.pos + 1 }
    else text_or_buffer_step env doc draw st

/-- The main loop of `render_html`. It ends when the cursor is on the
terminating NUL (`pos = length`); a cursor past the NUL (`pos > length`) reads
outside the document, and the traversal is not followed further. `none` is
"out of fuel". -/
def render_loop (env : render_env) (doc : List Char) (execute_js draw : Int) :
    Nat → render_state → Option render_state
  | 0, _ => none
  | fuel + 1, st =>
    if st.pos < doc.length then render_loop env doc execute_js draw fuel
      (render_step env doc execute_js draw st)
    else some st

/-- The loop that frees the old rules (GUI.c line 376): the store it leaves. -/
def free_rules : List css_rule → List css_rule
  | [] => []
  | _ :: n => free_rules n

/-- The state of `render_html` when the main loop is entered (GUI.c lines
376-419): the old rules are freed, a drawing pass clears the surface, and
the root entry of the stack is the window. -/
def render_init (env : render_env) (rules : List css_rule) (scroll_y draw : Int) :
    render_state :=
  { pos := 0, in_tag := 0, in_style := 0, in_script := 0, style_buf := [], script_buf := [],
    hover_detected := 0, should_exit := 0,
    stack := set_node env.stack0 0
      { env.stack0 0 with
        tag := "window".toList,
        style := { init_style with display := 1, white_space := 0 },
        w := env.screen_w, h := env.screen_h, x := 0, y := wrap32 (-scroll_y),
        onclick := [] },
    sp := 0,
    css_rules := free_rules rules,
    attr_past_end := false,
    calls :=
      if draw ≠ 0 then
        [gfx_call.graphics_bgcolor ⟨255, 255, 255, 0⟩,
         gfx_call.graphics_clear 0 0 env.screen_w env.screen_h]
      else [],
    printed := [],
    opened := [] }

/-- The function `render_html` (GUI.c lines 371-704) on the document `doc`
(the string `html_content`), entered with the rule store `rules`. The value
returned by the C function is the field `should_exit` of the result, the
value stored through `hover_state` is the field `hover_detected`. -/
def render_html (env : render_env) (doc : List Char) (rules : List css_rule)
    (scroll_y execute_js draw : Int) : Option render_state :=
  render_loop env doc execute_js draw (doc.length + 1) (render_init env rules scroll_y draw)

/-! ## Reference notions and sample inputs used in the statements -/

/-- The hexadecimal digits, in either case. -/
def is_hex_digit (c : Char) : Prop := c ∈ "0123456789abcdefABCDEF".toList

instance (c : Char) : Decidable (is_hex_digit c) := by
  unfold is_hex_digit; infer_instance

/-- The value of a hexadecimal digit: its place among `0123456789abcdef`,
the case of a letter ignored. -/
def hex_value (c : Char) : Nat := "0123456789abcdef".toList.indexOf c.toLower

/-- A stack entry with every field zero or empty. -/
def blank_node : dom_node :=
  { tag := [], cls := [], onclick := [], style := init_style, x := 0, y := 0, w := 0, h := 0 }

/-- A surface of 1024 by 768 with the pointer at `(mx, my)`, the primary
button as given, the decimal `str2int`, and a blank stack array. -/
def sample_env (mx my left : Int) : render_env :=
  { str2int := str2int_dec, screen_w := 1024, screen_h := 768,
    ms_mx := mx, ms_my := my, ms_left := left, stack0 := fun _ => blank_node }

/-- The style sheet of the width scenario, as written in the specification. -/
def foo_sheet : List Char := ".foo \x7b width: 50; \x7d".toList

/-- The same rule with the declaration directly after the brace. -/
def foo_sheet_tight : List Char := ".foo \x7bwidth: 50; \x7d".toList

/-- Sixteen opening tags in a row. -/
def sixteen_open_tags : List Char :=
  (String.join (List.replicate 16 "<a>")).toList

/-- A button whose handler text is `exit()`. -/
def exit_button_doc : List Char := "<button onclick=\x22exit()\x22>x</button>".toList

/-- The fields of a style that a declaration can write. -/
inductive style_field where
  | fg
  | bg
  | width
  | height
  | padding
  | border_radius
  | position_absolute
  | top
  | right
  | display_flex
  | justify_center
  | align_center
  | has_shadow
deriving DecidableEq

/-- The style field written by the branch of `apply_declaration` that the
property text selects; `none` for a text that selects no branch. -/
def declaration_target (p : List Char) : Option style_field :=
  if p = "color".toList then some style_field.fg
  else if p = "background-color".toList then some style_field.bg
  else if p = "width".toList then some style_field.width
  else if p = "height".toList then some style_field.height
  else if p = "padding".toList then some style_field.padding
  else if p = "border-radius".toList then some style_field.border_radius
  else if p = "position".toList then some style_field.position_absolute
  else if p = "top".toList then some style_field.top
  else if p = "right".toList then some style_field.right
  else if p = "display".toList then some style_field.display_flex
  else if p = "justify-content".toList then some style_field.justify_center
  else if p = "align-items".toList then some style_field.align_center
  else if p = "box-shadow".toList then some style_field.has_shadow
  else none

/-- The property text that selects the branch writing a field. -/
def field_name : style_field → List Char
  | style_field.fg => "color".toList
  | style_field.bg => "background-color".toList
  | style_field.width => "width".toList
  | style_field.height => "height".toList
  | style_field.padding => "padding".toList
  | style_field.border_radius => "border-radius".toList
  | style_field.position_absolute => "position".toList
  | style_field.top => "top".toList
  | style_field.right => "right".toList
  | style_field.display_flex => "display".toList
  | style_field.justify_center => "justify-content".toList
  | style_field.align_center => "align-items".toList
  | style_field.has_shadow => "box-shadow".toList

/-- The text of a style block made of the declarations `property:value`
(pairs of property text and value text), separated by `;`. -/
def css_block_text : List (List Char × List Char) → List Char
  | [] => []
  | [d] => d.1 ++ ':' :: d.2
  | d :: d2 :: ds => d.1 ++ ':' :: d.2 ++ ';' :: css_block_text (d2 :: ds)

/-- A declaration whose text can stand in such a list: no `:` or `;` inside
the property text, no `;` inside the value text, and the property text does
not begin with a space. -/
def declaration_ok (d : List Char × List Char) : Prop :=
  (∀ c ∈ d.1, c ≠ ':' ∧ c ≠ ';') ∧ (∀ c ∈ d.2, c ≠ ';') ∧ d.1.head? ≠ some ' '

instance (d : List Char × List Char) : Decidable (declaration_ok d) := by
  unfold declaration_ok; infer_instance

/-- Declarations that target pairwise disjoint style fields. -/
def disjoint_targets (ds : List (List Char × List Char)) : Prop :=
  ds.Pairwise (fun a b =>
    declaration_target a.1 = none ∨ declaration_target a.1 ≠ declaration_target b.1)

instance (ds : List (List Char × List Char)) : Decidable (disjoint_targets ds) := by
  unfold disjoint_targets; infer_instance

/-- Three declarations on three properties; their text has 130 bytes. -/
def shadow_block : List (List Char × List Char) :=
  [("box-shadow".toList,
    "0 4px 8px 0 rgba(0,0,0,0.2), 0 6px 20px 0 rgba(0,0,0,0.19), 0 0 2px 0 rgba(0,0,0,0.4)".toList),
   ("background-color".toList, "#336699".toList),
   ("width".toList, "50".toList)]

/-- Two declarations, the first written with a space before the property name. -/
def spaced_block : List (List Char × List Char) :=
  [(" width".toList, "50".toList), ("height".toList, "20".toList)]

/-- Three declarations on three properties, 44 bytes of text. -/
def short_block : List (List Char × List Char) :=
  [("background-color".toList, "#ff0000".toList), ("width".toList, "40".toList),
   ("height".toList, "20".toList)]

/-- The rule that `parse_css_sheet` stores for the text `sel{block}`: the
selector without the whitespace before it, cut and trimmed, and the style
that `parse_css_block` makes of the first 511 bytes of the block. -/
def stored_rule (str2int : List Char → Int → Int) (sel block : List Char) : css_rule :=
  { selector := css_selector (sel.dropWhile le_space),
    style := parse_css_block str2int (block.take 511) init_style }

/-- A store with the one rule `.foo` of width 50. -/
def foo_store : List css_rule := [⟨".foo".toList, { init_style with width := 50 }⟩]

/-- The rule `p` with a red foreground, as `parse_css_sheet` stores it. -/
def red_rule : css_rule := ⟨"p".toList, { init_style with fg := ⟨255, 0, 0, 0⟩ }⟩

/-- The text of a style sheet with the two rules `sel1{block1}` and
`sel2{block2}`, in this order. -/
def two_rule_sheet (sel1 block1 sel2 block2 : List Char) : List Char :=
  sel1 ++ '\x7b' :: block1 ++ '\x7d' :: (sel2 ++ '\x7b' :: block2 ++ ['\x7d'])

/-- The names of the colour table of `parse_css_color` (GUI.c lines 145-161). -/
def named_colors : List String :=
  ["red", "green", "blue", "white", "black", "yellow", "cyan", "magenta", "gray", "orange",
   "purple", "teal", "navy", "maroon", "silver", "lime", "olive"]

/-- One of the named colours of the table. -/
def is_named_color (str : List Char) : Prop := str ∈ named_colors.map String.toList

instance (str : List Char) : Decidable (is_named_color str) := by
  unfold is_named_color; infer_instance

/-- The character `#` followed by exactly three or exactly six hexadecimal
digits. -/
def is_hex_color (str : List Char) : Prop :=
  str.head? = some '#' ∧ (str.tail.length = 3 ∨ str.tail.length = 6)
    ∧ ∀ d ∈ str.tail, is_hex_digit d

instance (str : List Char) : Decidable (is_hex_color str) := by
  unfold is_hex_color; infer_instance

/-- The style sheet of the page embedded in `GUI.c` (lines 35-52): the text
between `<style>` and `</style>` of `html_content`. -/
def page_sheet : List Char :=
  "         body \x7b".toList
  ++ "             background-color: black;".toList
  ++ "             color: white;".toList
  ++ "             font-family: sans-serif;".toList
  ++ "             display: flex;".toList
  ++ "             justify-content: center;".toList
  ++ "             align-items: center;".toList
  ++ "             height: 100vh;".toList
  ++ "             margin: 0;".toList
  ++ "         \x7d".toList
  ++ "         button \x7b".toList
  ++ "             background-color: #444;".toList
  ++ "             color: white;".toList
  ++ "             padding: 10px;".toList
  ++ "             border-radius: 5px;".toList
  ++ "         \x7d".toList
  ++ "     ".toList

/-- The call forms on which `run_js_script` returns 1 (GUI.c lines 358-363). -/
def terminating_forms : List (List Char) :=
  ["exit()".toList, "goBack()".toList, "onButton()".toList]

/-- The call forms after which `run_js_script` prints (GUI.c lines 344, 351). -/
def printing_forms : List (List Char) :=
  ["console.log(\x22".toList, "alert(\x22".toList]

/-- The five literal prefixes that `run_js_script` tests at the cursor. -/
def call_forms : List (List Char) := printing_forms ++ terminating_forms

/-- A document with one opening tag whose name has 40 bytes. -/
def long_tag_doc : List Char := '<' :: List.replicate 40 'a' ++ ['>']

/-- Text of an opening tag in which no attribute begins and the tag does not
end: it holds none of the bytes `c`, `o` and `>`. -/
def attr_gap (l : List Char) : Prop := ∀ x ∈ l, x ≠ 'c' ∧ x ≠ 'o' ∧ x ≠ '>'

instance (l : List Char) : Decidable (attr_gap l) := by
  unfold attr_gap; infer_instance

/-- The text `class="v"`. -/
def class_attr (v : List Char) : List Char := "class=\x22".toList ++ (v ++ ['\x22'])

/-- The text `onclick="v"`. -/
def onclick_attr (v : List Char) : List Char := "onclick=\x22".toList ++ (v ++ ['\x22'])

/-- The text of an opening tag after its name, with two attributes `a1` and
`a2`, the text around them, the closing `>` and what follows it. -/
def two_attr_text (g1 a1 g2 a2 g3 rest : List Char) : List Char :=
  g1 ++ (a1 ++ (g2 ++ (a2 ++ (g3 ++ '>' :: rest))))

/-- A `div` with two class attributes. -/
def two_class_doc : List Char := "<div class=\x22a\x22 class=\x22b\x22>".toList

/-- A `div` with two handler attributes. -/
def two_onclick_doc : List Char := "<div onclick=\x22a()\x22 onclick=\x22b()\x22>".toList

/-- Two styles agree on the fields that no merge line of `get_style_for`
names: foreground, font scale, margin, display kind, whitespace mode and
the four text decorations. -/
def same_unmerged (a b : render_style) : Prop :=
  a.fg = b.fg ∧ a.font_scale = b.font_scale ∧ a.margin = b.margin ∧ a.display = b.display
    ∧ a.white_space = b.white_space ∧ a.bold = b.bold ∧ a.italic = b.italic
    ∧ a.underline = b.underline ∧ a.strike = b.strike

/-- A property text with padding: it begins with a space, a newline or a
tab, or it ends with a space. -/
def padded_name (p : List Char) : Prop :=
  p.head? = some ' ' ∨ p.head? = some '\n' ∨ p.head? = some '\t' ∨ p.getLast? = some ' '

instance (p : List Char) : Decidable (padded_name p) := by
  unfold padded_name; infer_instance

/-- The tags for which `render_html` draws a placeholder and moves the
cursor of the new node (GUI.c lines 573-632). -/
def widget_tags : List String :=
  ["hr", "button", "input", "select", "textarea", "progress", "meter", "img", "video",
   "canvas", "iframe", "li", "blockquote"]

/-- The stack entry of the node that the opening-tag branch creates, as the
branch leaves it. -/
def new_entry (env : render_env) (draw : Int) (tag p : List Char) (st : render_state) :
    dom_node :=
  (open_node env draw tag p st).stack (st.sp + 1)

/-- The stack entry below the new node, its layout parent `stack[sp-1]`, as
the opening-tag branch leaves it. -/
def parent_entry (env : render_env) (draw : Int) (tag p : List Char) (st : render_state) :
    dom_node :=
  (open_node env draw tag p st).stack st.sp

/-- The new node when its position has been computed (GUI.c line 548), before
a placeholder moves its cursor. -/
def placed_entry (env : render_env) (tag p : List Char) (st : render_state) : dom_node :=
  (place_node env tag p (st.sp + 1) st).node

/-- A well-nested document with a style element inside a `div`. -/
def style_in_div_doc : List Char := "<div><style></style><p></p></div>".toList

/-- A well-nested page with its style sheet in the head. -/
def head_style_doc : List Char :=
  "<html><head><style>p\x7bwidth:40\x7d</style></head><body><p>Hi</p></body></html>".toList

/-- A bold element with a style element and an `i` element inside. -/
def bold_style_doc : List Char := "<b><style></style><i>x</i></b>".toList

/-- A state with the record of surface calls emptied. -/
def without_calls (st : render_state) : render_state := { st with calls := [] }

/-- A document in which a style block follows an element of the class it
styles, and is followed by another one. -/
def late_style_doc : List Char :=
  "<p class=\x22a\x22></p><style>.a\x7bwidth:40\x7d</style><p class=\x22a\x22></p>".toList

/-- A button of class `a` with the handler text `exit()`, after a style
block that gives the class the width 2147483647. -/
def wide_button_doc : List Char :=
  "<style>.a\x7bwidth:2147483647\x7d</style><button class=\x22a\x22 onclick=\x22exit()\x22>".toList

/-- An image placeholder of width 2147483630. -/
def wide_img_doc : List Char := "<style>img\x7bwidth:2147483630\x7d</style><img>".toList

/-- An absolutely positioned `div` with `right` and `width` 2147483647. -/
def far_right_doc : List Char :=
  "<style>.a\x7bposition:absolute;right:2147483647;width:2147483647\x7d</style><div class=\x22a\x22>".toList

/-- An absolutely positioned `div` with `top` 2147483640 that holds the text
`abc`. -/
def far_down_doc : List Char :=
  "<style>.a\x7bposition:absolute;top:2147483640\x7d</style><div class=\x22a\x22>abc".toList

/-- The tag read at the cursor behind a `<` (GUI.c lines 427-432): whether it
is a closing tag, and its name, cut at 63 bytes and lowercased. -/
def read_tag (after : List Char) : Bool × List Char :=
  let closing : Bool := decide (after.head? = some '/')
  let p := if closing then after.tail else after
  (closing, strtolower ((p.takeWhile (fun c => c ≠ '>' ∧ c ≠ ' ')).take 63))

/-- The rounds of the main loop in which the opening-tag branch runs (GUI.c
lines 422, 454 and 460): the cursor is on a `<`, the tag is not a closing tag
and, once an opening `style` or `script` tag has set its flag, neither flag
is set. -/
def opens_node (c : Char) (after : List Char) (st : render_state) : Prop :=
  c = '<' ∧ (read_tag after).1 = false ∧ (read_tag after).2 ≠ "style".toList
    ∧ (read_tag after).2 ≠ "script".toList ∧ st.in_style = 0 ∧ st.in_script = 0

instance (c : Char) (after : List Char) (st : render_state) :
    Decidable (opens_node c after st) := by
  unfold opens_node; infer_instance

/-- The state of the main loop of `render_html` after `k` rounds from the
state `st`, or the state in which the loop ended if it ends earlier. -/
def render_rounds (env : render_env) (doc : List Char) (execute_js draw : Int) :
    Nat → render_state → render_state
  | 0, st => st
  | k + 1, st =>
    if st.pos < doc.length then
      render_rounds env doc execute_js draw k (render_step env doc execute_js draw st)
    else st

/-- The state of a traversal after `k` rounds of its main loop. -/
def traversal (env : render_env) (doc : List Char) (rules : List css_rule)
    (scroll_y execute_js draw : Int) (k : Nat) : render_state :=
  render_rounds env doc execute_js draw k (render_init env rules scroll_y draw)

/-- The rounds of the main loop that read a closing `style` tag (GUI.c lines
422-438). -/
def closes_style (doc : List Char) (st : render_state) : Bool :=
  match doc.drop st.pos with
  | c :: after => decide (c = '<' ∧ read_tag after = (true, "style".toList))
  | [] => false

/-! ## Theorems -/

/-! ### Arithmetic of `int` -/

/-- A value that fits in 32 bits is held as it is. -/
theorem wrap32_of_fits (i : Int) (h : fits32 i) : wrap32 i = i := by
  unfold fits32 at h
  unfold wrap32
  omega

/-- What an `int` holds fits in 32 bits. -/
theorem wrap32_fits (i : Int) : fits32 (wrap32 i) := by
  unfold fits32 wrap32
  omega

/-- What an `int` holds differs from the exact value by a multiple of 2^32. -/
theorem wrap32_congr (i : Int) : ∃ k : Int, wrap32 i = i + 4294967296 * k := by
  refine ⟨-((i + 2147483648) / 4294967296), ?_⟩
  unfold wrap32
  omega

theorem wrap32_add_left (a b : Int) : wrap32 (wrap32 a + b) = wrap32 (a + b) := by
  unfold wrap32
  omega

theorem wrap32_add_right (a b : Int) : wrap32 (a + wrap32 b) = wrap32 (a + b) := by
  unfold wrap32
  omega

theorem wrap32_sub_left (a b : Int) : wrap32 (wrap32 a - b) = wrap32 (a - b) := by
  unfold wrap32
  omega

theorem wrap32_sub_right (a b : Int) : wrap32 (a - wrap32 b) = wrap32 (a - b) := by
  unfold wrap32
  omega

theorem wrap32_neg (a : Int) : wrap32 (-wrap32 a) = wrap32 (-a) := by
  unfold wrap32
  omega

theorem wrap32_add_multiple (i m : Int) : wrap32 (i + 4294967296 * m) = wrap32 i := by
  unfold wrap32
  omega

theorem wrap32_mul_left (a b : Int) : wrap32 (wrap32 a * b) = wrap32 (a * b) := by
  obtain ⟨k, hk⟩ := wrap32_congr a
  have e : (a + 4294967296 * k) * b = a * b + 4294967296 * (k * b) := by ring
  rw [hk, e, wrap32_add_multiple]

theorem wrap32_mul_right (a b : Int) : wrap32 (a * wrap32 b) = wrap32 (a * b) := by
  rw [mul_comm, wrap32_mul_left, mul_comm]

/-- The position of an absolute node computed operation by operation, each
result held in an `int`, is the exact value wrapped once. -/
theorem wrap32_stepwise (a b c d : Int) :
    wrap32 (wrap32 (wrap32 (a + b) - c) - d) = wrap32 (a + b - c - d) := by
  unfold wrap32
  omega

/-! ### Hit test -/

theorem hit_test_iff (px py x y w h : Int) :
    hit_test px py x y w h = true
      ↔ (x ≤ px ∧ px < wrap32 (x + w)) ∧ (y ≤ py ∧ py < wrap32 (y + h)) := by
  simp [hit_test, and_assoc]

theorem hit_test_of_fits (px py x y w h : Int) (hw : fits32 (x + w)) (hh : fits32 (y + h)) :
    hit_test px py x y w h = true ↔ (x ≤ px ∧ px < x + w) ∧ (y ≤ py ∧ py < y + h) := by
  rw [hit_test_iff, wrap32_of_fits _ hw, wrap32_of_fits _ hh]

set_option maxRecDepth 100000 in
/-- C2 as stated fails on the code. In `wide_button_doc` the button of width
2147483647 is opened with the box (5, 4, 2147483647, 768) on a surface of 1024
by 768, and the pointer (10, 10) satisfies `5 <= 10 < 5 + 2147483647` and
`4 <= 10 < 4 + 768`; yet the hit test of the code is false there and the
traversal reports no hover: the `int` sum `5 + 2147483647` is -2147483644. -/
theorem hit_test_counterexample :
    (((5 : Int) ≤ 10 ∧ (10 : Int) < 5 + 2147483647) ∧ ((4 : Int) ≤ 10 ∧ (10 : Int) < 4 + 768))
    ∧ hit_test 10 10 5 4 2147483647 768 = false
    ∧ wrap32 (5 + 2147483647) = -2147483644
    ∧ (render_html (sample_env 10 10 0) wide_button_doc [] 0 0 0).map
        (fun r => r.opened.map (fun e => (e.node.x, e.node.y, e.node.w, e.node.h)))
      = some [(5, 4, 2147483647, 768)]
    ∧ (render_html (sample_env 10 10 0) wide_button_doc [] 0 0 0).map
        (fun r => (r.hover_detected, r.opened.map (fun e => e.node.onclick)))
      = some (0, ["exit()".toList]) := by
  refine ⟨by decide, by decide, by decide, by decide, by decide⟩

/-- C2, amended. The hit test of `render_html` holds exactly when
`x <= px < x + w` and `y <= py < y + h` with the sums `x + w` and `y + h` as
the 32-bit `int` of the code holds them; whenever both sums fit in 32 bits
this is `x <= px < x + w` and `y <= py < y + h` as written, upper bounds
exclusive. For the box (10,10,20,20) the pointer (29,29) is inside and the
pointer (30,10) is not. -/
theorem hit_test_half_open (px py x y w h : Int) :
    (hit_test px py x y w h = true
      ↔ (x ≤ px ∧ px < wrap32 (x + w)) ∧ (y ≤ py ∧ py < wrap32 (y + h)))
    ∧ (fits32 (x + w) → fits32 (y + h) →
        (hit_test px py x y w h = true ↔ (x ≤ px ∧ px < x + w) ∧ (y ≤ py ∧ py < y + h)))
    ∧ hit_test 29 29 10 10 20 20 = true
    ∧ hit_test 30 10 10 10 20 20 = false := by
  exact ⟨hit_test_iff px py x y w h, hit_test_of_fits px py x y w h, by decide, by decide⟩

/-- The amended hit test on the box (10,10,20,20), whose sums fit in 32 bits:
the pointer (29,29) passes the test because `10 <= 29 < 30` twice. -/
theorem hit_test_half_open_sample :
    fits32 (10 + 20)
    ∧ (hit_test 29 29 10 10 20 20 = true
        ↔ ((10 : Int) ≤ 29 ∧ (29 : Int) < 10 + 20) ∧ ((10 : Int) ≤ 29 ∧ (29 : Int) < 10 + 20)) :=
  ⟨by decide, (hit_test_half_open 29 29 10 10 20 20).2.1 (by decide) (by decide)⟩

/-! ### Colours -/

theorem parse_hex_digit_eq_hex_value (c : Char) (hc : is_hex_digit c) :
    parse_hex_digit c = hex_value c ∧ hex_value c < 16 := by
  simp only [is_hex_digit, String.toList, List.mem_cons, List.mem_singleton] at hc
  simp only [List.not_mem_nil, or_false] at hc
  rcases hc with h | h | h | h | h | h | h | h | h | h | h | h | h | h | h | h | h | h | h | h | h | h <;>
    subst h <;> decide

theorem shift_or_nibbles : ∀ a < 16, ∀ b < 16, ((a <<< 4) ||| b) % 256 = 16 * a + b := by
  decide

theorem hex_pair_value (hi lo : Char) (h1 : is_hex_digit hi) (h2 : is_hex_digit lo) :
    hex_pair hi lo = 16 * hex_value hi + hex_value lo := by
  obtain ⟨e1, b1⟩ := parse_hex_digit_eq_hex_value hi h1
  obtain ⟨e2, b2⟩ := parse_hex_digit_eq_hex_value lo h2
  unfold hex_pair
  rw [e1, e2]
  exact shift_or_nibbles _ b1 _ b2

/-- C4. For six hexadecimal digits, `parse_css_color` of `#d1d2d3d4d5d6` is
the opaque colour whose channels are `16 * v(d1) + v(d2)`, `16 * v(d3) + v(d4)`
and `16 * v(d5) + v(d6)`. -/
theorem parse_css_color_six_digits (d1 d2 d3 d4 d5 d6 : Char)
    (h1 : is_hex_digit d1) (h2 : is_hex_digit d2) (h3 : is_hex_digit d3)
    (h4 : is_hex_digit d4) (h5 : is_hex_digit d5) (h6 : is_hex_digit d6) :
    parse_css_color ['#', d1, d2, d3, d4, d5, d6] =
      { r := 16 * hex_value d1 + hex_value d2,
        g := 16 * hex_value d3 + hex_value d4,
        b := 16 * hex_value d5 + hex_value d6,
        a := 0 } := by
  simp only [parse_css_color]
  rw [hex_pair_value d1 d2 h1 h2, hex_pair_value d3 d4 h3 h4, hex_pair_value d5 d6 h5 h6]

/-- The colour `#336699` parses to (0x33, 0x66, 0x99), opaque. -/
theorem parse_css_color_336699 :
    parse_css_color "#336699".toList = { r := 0x33, g := 0x66, b := 0x99, a := 0 } :=
  (parse_css_color_six_digits '3' '3' '6' '6' '9' '9'
    (by decide) (by decide) (by decide) (by decide) (by decide) (by decide)).trans (by decide)

/-- C5. For three hexadecimal digits, `parse_css_color` of `#abc` equals that
of `#aabbcc`: every channel is 17 times the value of its digit, and the colour
is opaque. -/
theorem parse_css_color_three_digits (a b c : Char)
    (ha : is_hex_digit a) (hb : is_hex_digit b) (hc : is_hex_digit c) :
    parse_css_color ['#', a, b, c] = parse_css_color ['#', a, a, b, b, c, c]
    ∧ parse_css_color ['#', a, b, c] =
        { r := 17 * hex_value a, g := 17 * hex_value b, b := 17 * hex_value c, a := 0 } := by
  constructor
  · simp only [parse_css_color]
  · simp only [parse_css_color]
    rw [hex_pair_value a a ha ha, hex_pair_value b b hb hb, hex_pair_value c c hc hc]
    congr 1 <;> omega

/-- The colour `#369` parses like `#336699`, to (0x33, 0x66, 0x99), opaque. -/
theorem parse_css_color_369 :
    parse_css_color "#369".toList = parse_css_color "#336699".toList
    ∧ parse_css_color "#369".toList = { r := 0x33, g := 0x66, b := 0x99, a := 0 } :=
  ⟨(parse_css_color_three_digits '3' '6' '9' (by decide) (by decide) (by decide)).1,
   ((parse_css_color_three_digits '3' '6' '9' (by decide) (by decide) (by decide)).2).trans
     (by decide)⟩

/-! ### Word wrap -/

/-- The cursor after a text: it stays for the empty text and is the `int`
sum of the start and 8 per byte otherwise. -/
theorem draw_text_loop_cursor (g : Bool) (y bold underline strike : Int) (text : List Char) :
    ∀ x : Int, (draw_text_loop g y bold underline strike text x).1
      = if text = [] then x else wrap32 (x + 8 * (text.length : Int)) := by
  induction text with
  | nil => intro x; simp [draw_text_loop]
  | cons c text ih =>
    intro x
    simp only [draw_text_loop, ih, List.length_cons]
    rw [if_neg (List.cons_ne_nil _ _)]
    split_ifs with h
    · rw [h]; simp
    · rw [wrap32_add_left]
      congr 1
      push_cast
      ring

theorem draw_text_styled_cursor (g : Bool) (x y : Int) (text : List Char)
    (fg bg : graphics_color) (bold italic underline strike : Int) :
    (draw_text_styled g x y text fg bg bold italic underline strike).1
      = if text = [] then x else wrap32 (x + 8 * (text.length : Int)) := by
  simp only [draw_text_styled, draw_text_loop_cursor]

/-- A collected word has at most 255 bytes. -/
theorem collect_word_length (ws : Int) :
    ∀ (p word : List Char) (n : Nat) (x y : Int), word.length ≤ 255 →
      (collect_word ws p word n x y).1.length ≤ 255 := by
  intro p
  induction p with
  | nil => intro word n x y h; simpa [collect_word] using h
  | cons c p ih =>
    intro word n x y h
    unfold collect_word
    by_cases h1 : c = '<' ∨ ¬ (word.length < 255)
    · rw [if_pos h1]; exact h
    · have hw : (word ++ [c]).length ≤ 255 := by
        have : word.length < 255 := by
          by_contra hc
          exact h1 (Or.inr hc)
        simp only [List.length_append, List.length_singleton]
        omega
      rw [if_neg h1]
      split_ifs <;> first | exact ih _ _ _ _ h | exact hw | exact ih _ _ _ _ hw

set_option maxRecDepth 100000 in
/-- C6 as stated fails on the code. In `wide_img_doc` the image placeholder
leaves the flow cursor at (2147483640, 0) on a surface 1024 wide. For the word
`a` that follows, `x + L = 2147483640 + 8` exceeds `1024 - 20`, so the
cursor should go to (20, 16) and end at 28; the code leaves it on the line
and the cursor ends at (-2147483648, 0): its `int` sum `x + 8` is negative. -/
theorem word_wrap_counterexample :
    (render_html (sample_env 0 0 0) wide_img_doc [] 0 0 0).map
        (fun r => (r.sp, (r.stack r.sp).x, (r.stack r.sp).y)) = some (1, 2147483640, 0)
    ∧ (2147483640 : Int) + 8 * 1 > 1024 - 20
    ∧ (render_html (sample_env 0 0 0) (wide_img_doc ++ ['a']) [] 0 0 0).map
        (fun r => (r.sp, (r.stack r.sp).x, (r.stack r.sp).y)) = some (1, -2147483648, 0)
    ∧ wrap_word 1024 1 { blank_node with x := 2147483640 } = { blank_node with x := 2147483640 } := by
  refine ⟨by decide, by decide, by decide, by decide⟩

/-- C6, amended. In the text pass, with `(x, y)` the flow cursor after the
word has been collected and `L = 8 * wi` its pixel length: the cursor is
moved to `(20, y + 16)` before the word is placed exactly when
`x + L > screen_w - 20`, and the cursor after a word of at least one byte is
the placement `x` plus `L` in both cases (an empty word leaves it), where
`x + L`, `screen_w - 20`, `y + 16` and the placement `x` plus `L` are the
values that the 32-bit `int` of the code holds. Whenever `x + L`,
`screen_w - 20` and `y + 16` fit in 32 bits, the rule holds with the plain
sums, as written. -/
theorem word_wrap_rule (env : render_env) (draw : Int) (rest : List Char)
    (st : render_state) :
    let node := st.stack st.sp
    let r := collect_word node.style.white_space rest [] 0 node.x node.y
    let x := r.2.2.1
    let y := r.2.2.2
    let L : Int := 8 * (r.1.length : Int)
    let placed := wrap_word env.screen_w r.1.length { node with x := x, y := y }
    let after := (text_step env draw rest st).stack st.sp
    ((wrap32 (x + L) > wrap32 (env.screen_w - 20) → placed.x = 20 ∧ placed.y = wrap32 (y + 16))
      ∧ (¬ wrap32 (x + L) > wrap32 (env.screen_w - 20) → placed.x = x ∧ placed.y = y)
      ∧ after.x = (if r.1 = [] then placed.x else wrap32 (placed.x + L))
      ∧ after.y = placed.y)
    ∧ (fits32 (x + L) → fits32 (env.screen_w - 20) → fits32 (y + 16) →
        (x + L > env.screen_w - 20 → placed.x = 20 ∧ placed.y = y + 16)
        ∧ (¬ x + L > env.screen_w - 20 → placed.x = x ∧ placed.y = y)
        ∧ after.x = placed.x + L ∧ after.y = placed.y) := by
  intro node r x y L placed after
  have hL : ((r.1.length : Int) * 8) = L := by simp only [L]; ring
  have hlen : r.1.length ≤ 255 :=
    collect_word_length node.style.white_space rest [] 0 node.x node.y (by decide)
  have h1 : wrap32 (x + L) > wrap32 (env.screen_w - 20) →
      placed.x = 20 ∧ placed.y = wrap32 (y + 16) := by
    intro h
    have h2 : wrap32 (x + (r.1.length : Int) * 8) > wrap32 (env.screen_w - 20) := by
      rw [hL]; exact h
    simp only [placed, wrap_word, if_pos h2, and_self]
  have h2 : ¬ wrap32 (x + L) > wrap32 (env.screen_w - 20) → placed.x = x ∧ placed.y = y := by
    intro h
    have h2 : ¬ wrap32 (x + (r.1.length : Int) * 8) > wrap32 (env.screen_w - 20) := by
      rw [hL]; exact h
    simp only [placed, wrap_word, if_neg h2, and_self]
  have h3 : after.x = (if r.1 = [] then placed.x else wrap32 (placed.x + L)) := by
    simp only [after, text_step, set_node, if_true, draw_text_styled_cursor]
  have h4 : after.y = placed.y := by
    simp only [after, text_step, set_node, if_true]
  refine ⟨⟨h1, h2, h3, h4⟩, ?_⟩
  intro fx fs fy
  rw [wrap32_of_fits _ fx, wrap32_of_fits _ fs] at h1 h2
  rw [wrap32_of_fits _ fy] at h1
  refine ⟨h1, h2, ?_, h4⟩
  rw [h3]
  split_ifs with he
  · have : L = 0 := by simp only [L, he, List.length_nil]; rfl
    rw [this, add_zero]
  · apply wrap32_of_fits
    by_cases hc : x + L > env.screen_w - 20
    · rw [(h1 hc).1]
      have hb : L ≤ 2040 := by simp only [L]; omega
      have hb0 : 0 ≤ L := by simp only [L]; omega
      unfold fits32
      omega
    · rw [(h2 hc).1]
      exact fx

set_option maxRecDepth 100000 in
/-- The amended rule on the word `Hi` at the start of a document, on a
surface 1024 wide: the sums fit in 32 bits, `0 + 16 > 1004` is false, the word
is placed at `x = 0` and the cursor ends at 16. -/
theorem word_wrap_rule_sample :
    (render_html (sample_env 0 0 0) "Hi".toList [] 0 0 0).map
        (fun r => ((r.stack 0).x, (r.stack 0).y)) = some (16, 0)
    ∧ ((text_step (sample_env 0 0 0) 0 "Hi".toList
          (render_init (sample_env 0 0 0) [] 0 0)).stack 0).x
        = (wrap_word 1024 2 { (render_init (sample_env 0 0 0) [] 0 0).stack 0 with
              x := 0, y := 0 }).x + 8 * 2 := by
  refine ⟨by decide, ?_⟩
  exact ((word_wrap_rule (sample_env 0 0 0) 0 "Hi".toList
    (render_init (sample_env 0 0 0) [] 0 0)).2 (by decide) (by decide) (by decide)).2.2.1

/-! ### The rule `.foo { width: 50; }` -/

/-- C1, the code on the style sheet of the claim: with the sheet
`.foo { width: 50; }` the declaration is not recognised, for the property text
starts with the space that follows the brace, and a node of class `foo` keeps
width 0 whatever `str2int` does; with the declaration directly after the brace
the width is 50. -/
theorem foo_rule_width_not_applied (str2int : List Char → Int → Int) :
    (get_style_for (parse_css_sheet str2int foo_sheet []) (some "div".toList)
        (some "foo".toList) init_style).width = 0
    ∧ (get_style_for (parse_css_sheet str2int_dec foo_sheet_tight []) (some "div".toList)
        (some "foo".toList) init_style).width = 50 :=
  ⟨rfl, by decide⟩

/-! ### Capacity of the node stack and end of input -/

/-- C9, the code on sixteen nested opening tags: the stack index reaches 16,
and the sixteenth node is written at index 16, outside the sixteen entries
`stack[0..15]`. -/
theorem node_stack_overrun :
    (render_html (sample_env 0 0 0) sixteen_open_tags [] 0 0 0).map
      (fun r => (r.sp, (r.opened.map (fun o => o.sp)).getLast?)) = some (16, some 16) := by
  decide

/-- C10, the code on documents that end inside a tag: for `<div` (4 bytes)
the read cursor ends at offset 5 and for `<` (1 byte) at offset 2, one past
the terminating NUL. -/
theorem read_cursor_overrun :
    "<div".toList.length = 4
    ∧ (render_html (sample_env 0 0 0) "<div".toList [] 0 0 0).map (fun r => r.pos) = some 5
    ∧ (render_html (sample_env 0 0 0) "<".toList [] 0 0 0).map (fun r => r.pos) = some 2 := by
  decide

/-! ### The main loop: progress and invariants -/

theorem interaction_check_pos (env : render_env) (node : dom_node) (st : render_state) :
    (interaction_check env node st).pos = st.pos := by
  unfold interaction_check
  split_ifs <;> rfl

theorem show_node_pos (env : render_env) (draw : Int) (tag : List Char) (sp : Nat)
    (node : dom_node) (st : render_state) :
    (show_node env draw tag sp node st).pos = st.pos := by
  unfold show_node
  simp only [interaction_check_pos]
  split_ifs <;> rfl

theorem open_node_pos (env : render_env) (draw : Int) (tag p : List Char) (st : render_state) :
    (open_node env draw tag p st).pos = st.pos := by
  unfold open_node
  simp only []
  split_ifs <;> simp only [show_node_pos]

theorem close_node_pos (st : render_state) : (close_node st).pos = st.pos := by
  unfold close_node
  simp only []
  split_ifs <;> rfl

theorem style_script_tag_pos (env : render_env) (execute_js : Int) (tag : List Char)
    (closing : Bool) (st : render_state) :
    (style_script_tag env execute_js tag closing st).pos = st.pos := by
  unfold style_script_tag
  split_ifs <;> rfl

theorem collect_word_count_le (ws : Int) :
    ∀ (p word : List Char) (n : Nat) (x y : Int), n ≤ (collect_word ws p word n x y).2.1 := by
  intro p
  induction p with
  | nil => intro word n x y; simp [collect_word]
  | cons c p ih =>
    intro word n x y
    unfold collect_word
    split_ifs
    all_goals first
      | exact Nat.le_refl n
      | exact Nat.le_succ n
      | exact Nat.le_trans (Nat.le_succ n) (ih _ _ _ _)

theorem collect_word_count_pos (ws : Int) (c : Char) (p : List Char) (x y : Int)
    (hc : c ≠ '<') : 1 ≤ (collect_word ws (c :: p) [] 0 x y).2.1 := by
  unfold collect_word
  have h255 : ([] : List Char).length < 255 := by decide
  split_ifs with h1
  · rcases h1 with h1 | h1
    · exact absurd h1 hc
    · exact absurd h255 h1
  all_goals first
    | exact Nat.le_refl 1
    | exact collect_word_count_le ws p _ 1 _ _

theorem drop_eq_cons_of_lt (doc : List Char) (n : Nat) (h : n < doc.length) :
    ∃ c after, doc.drop n = c :: after := by
  cases hd : doc.drop n with
  | nil =>
    have := congrArg List.length hd
    simp at this
    omega
  | cons c after => exact ⟨c, after, rfl⟩

theorem tag_body_pos (env : render_env) (execute_js draw : Int) (closing : Bool)
    (tag p : List Char) (st : render_state) :
    (tag_body env execute_js draw closing tag p st).pos = st.pos := by
  unfold tag_body
  simp only []
  split_ifs <;> simp only [close_node_pos, open_node_pos, style_script_tag_pos]

theorem tag_step_pos_lt (env : render_env) (execute_js draw : Int) (after : List Char)
    (st : render_state) : st.pos < (tag_step env execute_js draw after st).pos := by
  unfold tag_step
  simp only [tag_body_pos]
  omega

theorem text_or_buffer_step_pos_lt (env : render_env) (doc : List Char) (draw : Int)
    (st : render_state) (c : Char) (after : List Char) (hd : doc.drop st.pos = c :: after)
    (hc : c ≠ '<') : st.pos < (text_or_buffer_step env doc draw st).pos := by
  have h1 := collect_word_count_pos (st.stack st.sp).style.white_space c after
    (st.stack st.sp).x (st.stack st.sp).y hc
  unfold text_or_buffer_step
  simp only []
  split_ifs <;> first
    | omega
    | (simp only [text_step, hd]; omega)

theorem render_step_pos_lt (env : render_env) (doc : List Char) (execute_js draw : Int)
    (st : render_state) (h : st.pos < doc.length) :
    st.pos < (render_step env doc execute_js draw st).pos := by
  obtain ⟨c, after, hd⟩ := drop_eq_cons_of_lt doc st.pos h
  unfold render_step
  rw [hd]
  simp only []
  split_ifs with h1 h2 h3
  · exact tag_step_pos_lt env execute_js draw after st
  · exact Nat.lt_succ_self _
  · exact Nat.lt_succ_self _
  · exact text_or_buffer_step_pos_lt env doc draw st c after hd h1

theorem render_loop_some (env : render_env) (doc : List Char) (execute_js draw : Int) :
    ∀ (fuel : Nat) (st : render_state), doc.length - st.pos < fuel →
      ∃ r, render_loop env doc execute_js draw fuel st = some r := by
  intro fuel
  induction fuel with
  | zero => intro st h; omega
  | succ fuel ih =>
    intro st h
    unfold render_loop
    split_ifs with h1
    · exact ih _ (by have := render_step_pos_lt env doc execute_js draw st h1; omega)
    · exact ⟨st, rfl⟩

theorem render_loop_invariant (env : render_env) (doc : List Char) (execute_js draw : Int)
    (P : render_state → Prop)
    (hstep : ∀ st, st.pos < doc.length → P st → P (render_step env doc execute_js draw st)) :
    ∀ (fuel : Nat) (st r : render_state), P st →
      render_loop env doc execute_js draw fuel st = some r → P r := by
  intro fuel
  induction fuel with
  | zero => intro st r _ h; simp [render_loop] at h
  | succ fuel ih =>
    intro st r hP h
    unfold render_loop at h
    split_ifs at h with h1
    · exact ih _ r (hstep st h1 hP) h
    · cases h; exact hP

/-! ### The exit request -/

theorem run_js_script_exit : run_js_script "exit()".toList = (1, []) := by decide

theorem interaction_check_opened (env : render_env) (node : dom_node) (st : render_state) :
    (interaction_check env node st).opened = st.opened := by
  unfold interaction_check
  split_ifs <;> rfl

theorem interaction_check_stack (env : render_env) (node : dom_node) (st : render_state) :
    (interaction_check env node st).stack = st.stack := by
  unfold interaction_check
  split_ifs <;> rfl

theorem interaction_check_exit_kept (env : render_env) (node : dom_node) (st : render_state)
    (h : st.should_exit = 1) : (interaction_check env node st).should_exit = 1 := by
  unfold interaction_check
  split_ifs <;> simp_all

theorem interaction_check_no_button (env : render_env) (node : dom_node) (st : render_state)
    (h : env.ms_left = 0) : (interaction_check env node st).should_exit = st.should_exit := by
  unfold interaction_check
  split_ifs <;> simp_all

theorem interaction_check_exit (env : render_env) (node : dom_node) (st : render_state)
    (hl : env.ms_left ≠ 0)
    (hh : hit_test env.ms_mx env.ms_my node.x node.y node.w node.h = true)
    (ho : node.onclick = "exit()".toList) :
    (interaction_check env node st).should_exit = 1 := by
  have hne : node.onclick ≠ [] := by rw [ho]; decide
  unfold interaction_check
  rw [if_pos ⟨hh, hne⟩]
  simp only [if_pos hl, ho, run_js_script_exit]
  simp

theorem show_node_opened (env : render_env) (draw : Int) (tag : List Char) (sp : Nat)
    (node : dom_node) (st : render_state) :
    (show_node env draw tag sp node st).opened = st.opened := by
  unfold show_node
  simp only [interaction_check_opened]
  split_ifs <;> rfl

theorem show_node_top (env : render_env) (draw : Int) (tag : List Char) (sp : Nat)
    (node : dom_node) (st : render_state) :
    (show_node env draw tag sp node st).stack sp = (tag_visuals env.screen_w draw tag node).1 := by
  unfold show_node
  simp only [interaction_check_stack, set_node, if_true]

theorem show_node_exit_kept (env : render_env) (draw : Int) (tag : List Char) (sp : Nat)
    (node : dom_node) (st : render_state) (h : st.should_exit = 1) :
    (show_node env draw tag sp node st).should_exit = 1 := by
  unfold show_node
  apply interaction_check_exit_kept
  simp only []
  split_ifs <;> exact h

theorem show_node_no_button (env : render_env) (draw : Int) (tag : List Char) (sp : Nat)
    (node : dom_node) (st : render_state) (h : env.ms_left = 0) :
    (show_node env draw tag sp node st).should_exit = st.should_exit := by
  unfold show_node
  rw [interaction_check_no_button _ _ _ h]
  simp only []
  split_ifs <;> rfl

theorem show_node_exit (env : render_env) (draw : Int) (tag : List Char) (sp : Nat)
    (node : dom_node) (st : render_state) (hl : env.ms_left ≠ 0)
    (ho : ((show_node env draw tag sp node st).stack sp).onclick = "exit()".toList)
    (hh : hit_test env.ms_mx env.ms_my ((show_node env draw tag sp node st).stack sp).x
      ((show_node env draw tag sp node st).stack sp).y
      ((show_node env draw tag sp node st).stack sp).w
      ((show_node env draw tag sp node st).stack sp).h = true) :
    (show_node env draw tag sp node st).should_exit = 1 := by
  rw [show_node_top] at ho hh
  unfold show_node
  exact interaction_check_exit env _ _ hl hh ho

/-- What the opening-tag branch does to the record of opened nodes and to the
exit flag: one node is recorded, and the flag is kept if it was 1, kept if the
button is not held, and 1 if the button is held over a displayed node whose
handler text is `exit()`. -/
theorem open_node_exit (env : render_env) (draw : Int) (tag p : List Char)
    (st : render_state) :
    ∃ e, (open_node env draw tag p st).opened = st.opened ++ [e]
      ∧ (st.should_exit = 1 → (open_node env draw tag p st).should_exit = 1)
      ∧ (env.ms_left = 0 → (open_node env draw tag p st).should_exit = st.should_exit)
      ∧ (env.ms_left ≠ 0 → e.node.style.display ≠ 2 → e.node.onclick = "exit()".toList →
          hit_test env.ms_mx env.ms_my e.node.x e.node.y e.node.w e.node.h = true →
          (open_node env draw tag p st).should_exit = 1) := by
  unfold open_node
  simp only []
  split_ifs with h1
  · refine ⟨_, rfl, fun h => h, fun _ => rfl, ?_⟩
    intro _ hd _ _
    simp only [set_node, if_true] at hd
    exact absurd h1 hd
  · simp only [show_node_opened]
    refine ⟨_, rfl, ?_, ?_, ?_⟩
    · intro h; exact show_node_exit_kept _ _ _ _ _ _ h
    · intro h; exact show_node_no_button _ _ _ _ _ _ h
    · intro hl _ ho hh
      exact show_node_exit _ _ _ _ _ _ hl ho hh

theorem close_node_exit (st : render_state) :
    (close_node st).opened = st.opened ∧ (close_node st).should_exit = st.should_exit := by
  unfold close_node
  simp only []
  split_ifs <;> exact ⟨rfl, rfl⟩

theorem style_script_tag_exit (env : render_env) (execute_js : Int) (tag : List Char)
    (closing : Bool) (st : render_state) :
    (style_script_tag env execute_js tag closing st).opened = st.opened
    ∧ (style_script_tag env execute_js tag closing st).should_exit = st.should_exit := by
  unfold style_script_tag
  split_ifs <;> exact ⟨rfl, rfl⟩

theorem text_or_buffer_step_exit (env : render_env) (doc : List Char) (draw : Int)
    (st : render_state) :
    (text_or_buffer_step env doc draw st).opened = st.opened
    ∧ (text_or_buffer_step env doc draw st).should_exit = st.should_exit := by
  unfold text_or_buffer_step
  simp only []
  split_ifs <;> exact ⟨rfl, rfl⟩

/-- What a round of the loop does to the record of opened nodes and to the
exit flag: either both are kept, or one node is recorded and the flag is kept
if it was 1, kept if the button is not held, and 1 if the button is held over
a displayed node whose handler text is `exit()`. -/
theorem tag_body_exit (env : render_env) (execute_js draw : Int) (closing : Bool)
    (tag p : List Char) (st : render_state) :
    ((tag_body env execute_js draw closing tag p st).opened = st.opened
      ∧ (tag_body env execute_js draw closing tag p st).should_exit = st.should_exit)
    ∨ ∃ e, (tag_body env execute_js draw closing tag p st).opened = st.opened ++ [e]
      ∧ (st.should_exit = 1 → (tag_body env execute_js draw closing tag p st).should_exit = 1)
      ∧ (env.ms_left = 0 →
          (tag_body env execute_js draw closing tag p st).should_exit = st.should_exit)
      ∧ (env.ms_left ≠ 0 → e.node.style.display ≠ 2 → e.node.onclick = "exit()".toList →
          hit_test env.ms_mx env.ms_my e.node.x e.node.y e.node.w e.node.h = true →
          (tag_body env execute_js draw closing tag p st).should_exit = 1) := by
  unfold tag_body
  simp only []
  split_ifs with h4 h5
  · left
    simp only [close_node_exit, style_script_tag_exit, and_self]
  · right
    obtain ⟨e, he, hk, hn, hx⟩ := open_node_exit env draw tag p
      (style_script_tag env execute_js tag closing st)
    simp only [style_script_tag_exit] at he hk hn hx
    exact ⟨e, he, hk, hn, hx⟩
  · left
    simp only [style_script_tag_exit, and_self]

theorem render_step_exit (env : render_env) (doc : List Char) (execute_js draw : Int)
    (st : render_state) :
    ((render_step env doc execute_js draw st).opened = st.opened
      ∧ (render_step env doc execute_js draw st).should_exit = st.should_exit)
    ∨ ∃ e, (render_step env doc execute_js draw st).opened = st.opened ++ [e]
      ∧ (st.should_exit = 1 → (render_step env doc execute_js draw st).should_exit = 1)
      ∧ (env.ms_left = 0 →
          (render_step env doc execute_js draw st).should_exit = st.should_exit)
      ∧ (env.ms_left ≠ 0 → e.node.style.display ≠ 2 → e.node.onclick = "exit()".toList →
          hit_test env.ms_mx env.ms_my e.node.x e.node.y e.node.w e.node.h = true →
          (render_step env doc execute_js draw st).should_exit = 1) := by
  unfold render_step
  split
  · exact Or.inl ⟨rfl, rfl⟩
  · rename_i c after _
    split_ifs with h1 h2 h3
    · unfold tag_step
      simp only []
      exact tag_body_exit env execute_js draw _ _ _ { st with in_tag := 1 }
    · exact Or.inl ⟨rfl, rfl⟩
    · exact Or.inl ⟨rfl, rfl⟩
    · exact Or.inl (text_or_buffer_step_exit env doc draw st)

set_option maxRecDepth 100000 in
/-- C3 as stated fails on the code. In `wide_button_doc`, on a surface of 1024
by 768 with the pointer at (10, 10) and the primary button held, the button is
a displayed node with handler text `exit()` and the box (5, 4, 2147483647,
768), and the pointer is inside that box: `5 <= 10 < 5 + 2147483647` and
`4 <= 10 < 4 + 768`. Yet the traversal returns 0: the `int` sum
`5 + 2147483647` of the hit test is negative. -/
theorem exit_request_counterexample :
    (render_html (sample_env 10 10 1) wide_button_doc [] 0 0 0).map
        (fun r => r.opened.map (fun e => (e.node.style.display, e.node.onclick)))
      = some [(3, "exit()".toList)]
    ∧ (render_html (sample_env 10 10 1) wide_button_doc [] 0 0 0).map
        (fun r => r.opened.map (fun e => (e.node.x, e.node.y, e.node.w, e.node.h)))
      = some [(5, 4, 2147483647, 768)]
    ∧ (((5 : Int) ≤ 10 ∧ (10 : Int) < 5 + 2147483647) ∧ ((4 : Int) ≤ 10 ∧ (10 : Int) < 4 + 768))
    ∧ (sample_env 10 10 1).ms_left = 1
    ∧ (render_html (sample_env 10 10 1) wide_button_doc [] 0 0 0).map
        (fun r => r.should_exit) = some 0 := by
  refine ⟨by decide, by decide, by decide, rfl, by decide⟩

/-- C3, amended. For every document and pointer position `render_html`
returns; when the primary button is not held it returns 0, whatever the
document and its script blocks; when the button is held and some displayed
node with handler text `exit()` passes the hit test of the code with the
pointer, it returns 1. The hit test is `x <= px < x + w` and
`y <= py < y + h` with the sums as 32-bit `int` values: for a node whose sums
`x + w` and `y + h` fit in 32 bits, the pointer being inside its box as
written is enough. -/
theorem exit_request_needs_button (env : render_env) (doc : List Char) (rules : List css_rule)
    (scroll_y execute_js draw : Int) :
    ∃ r, render_html env doc rules scroll_y execute_js draw = some r
      ∧ (env.ms_left = 0 → r.should_exit = 0)
      ∧ (env.ms_left ≠ 0 → ∀ e ∈ r.opened, e.node.style.display ≠ 2 →
          e.node.onclick = "exit()".toList →
          hit_test env.ms_mx env.ms_my e.node.x e.node.y e.node.w e.node.h = true →
          r.should_exit = 1)
      ∧ (env.ms_left ≠ 0 → ∀ e ∈ r.opened, e.node.style.display ≠ 2 →
          e.node.onclick = "exit()".toList →
          fits32 (e.node.x + e.node.w) → fits32 (e.node.y + e.node.h) →
          (e.node.x ≤ env.ms_mx ∧ env.ms_mx < e.node.x + e.node.w) →
          (e.node.y ≤ env.ms_my ∧ env.ms_my < e.node.y + e.node.h) →
          r.should_exit = 1) := by
  obtain ⟨r, hr⟩ := render_loop_some env doc execute_js draw (doc.length + 1)
    (render_init env rules scroll_y draw) (by omega)
  have main : (env.ms_left = 0 → r.should_exit = 0)
      ∧ (env.ms_left ≠ 0 → ∀ e ∈ r.opened, e.node.style.display ≠ 2 →
          e.node.onclick = "exit()".toList →
          hit_test env.ms_mx env.ms_my e.node.x e.node.y e.node.w e.node.h = true →
          r.should_exit = 1) := by
    refine render_loop_invariant env doc execute_js draw
      (fun st => (env.ms_left = 0 → st.should_exit = 0)
        ∧ (env.ms_left ≠ 0 → ∀ e ∈ st.opened, e.node.style.display ≠ 2 →
            e.node.onclick = "exit()".toList →
            hit_test env.ms_mx env.ms_my e.node.x e.node.y e.node.w e.node.h = true →
            st.should_exit = 1))
      ?_ (doc.length + 1) (render_init env rules scroll_y draw) r ?_ hr
    · intro st _ hP
      obtain ⟨hP0, hP1⟩ := hP
      rcases render_step_exit env doc execute_js draw st with ⟨ho, hx⟩ | ⟨e, ho, hk, hn, hx⟩
      · rw [ho, hx]; exact ⟨hP0, hP1⟩
      · refine ⟨fun h => by rw [hn h]; exact hP0 h, ?_⟩
        intro hl e1 he1 hd hc hh
        rw [ho, List.mem_append, List.mem_singleton] at he1
        rcases he1 with he1 | he1
        · exact hk (hP1 hl e1 he1 hd hc hh)
        · subst he1; exact hx hl hd hc hh
    · refine ⟨fun _ => rfl, ?_⟩
      intro _ e he
      simp [render_init] at he
  refine ⟨r, hr, main.1, main.2, ?_⟩
  intro hl e he hd hc fw fh hx hy
  exact main.2 hl e he hd hc ((hit_test_of_fits _ _ _ _ _ _ fw fh).mpr ⟨hx, hy⟩)

/-- The scenario of C3 on the document `<button onclick="exit()">x</button>`
with the pointer at (10,10): with the primary button held the traversal
returns 1, with the button released it returns 0. -/
theorem exit_request_on_button :
    (render_html (sample_env 10 10 1) exit_button_doc [] 0 0 0).map
        (fun r => r.should_exit) = some 1
    ∧ (render_html (sample_env 10 10 0) exit_button_doc [] 0 0 0).map
        (fun r => r.should_exit) = some 0 := by
  obtain ⟨r, hr, _, h1, _⟩ :=
    exit_request_needs_button (sample_env 10 10 1) exit_button_doc [] 0 0 0
  obtain ⟨r0, hr0, h0, _⟩ :=
    exit_request_needs_button (sample_env 10 10 0) exit_button_doc [] 0 0 0
  have ho : (render_html (sample_env 10 10 1) exit_button_doc [] 0 0 0).map
      (fun r => r.opened.map (fun e => (e.node.style.display, e.node.onclick,
        hit_test 10 10 e.node.x e.node.y e.node.w e.node.h)))
      = some [(3, "exit()".toList, true)] := by decide
  rw [hr] at ho
  rw [hr, hr0]
  simp only [Option.map_some', Option.some.injEq] at ho ⊢
  refine ⟨?_, h0 rfl⟩
  cases hop : r.opened with
  | nil => rw [hop] at ho; simp at ho
  | cons e rest =>
    rw [hop] at ho
    simp only [List.map_cons, List.cons.injEq, Prod.mk.injEq] at ho
    obtain ⟨⟨hd, hc, hh⟩, _⟩ := ho
    exact h1 (by decide) e (by rw [hop]; exact List.mem_cons_self _ _)
      (by rw [hd]; decide) hc hh

/-! ### Order of declarations -/

set_option maxRecDepth 100000 in
/-- C7, the code on two blocks whose declarations target different fields.
The three declarations of `shadow_block` are well formed, yet the block and its
reverse give different styles: the block text has 130 bytes and
`parse_css_block` copies 127 of them into its buffer of 128, although its
caller hands it up to 511. The two declarations of `spaced_block` give
different styles in the two orders as well: a space before the property name
is skipped after a `;` but not at the start of the block. -/
theorem declaration_order_counterexample :
    (shadow_block.reverse.Perm shadow_block ∧ disjoint_targets shadow_block
      ∧ (∀ d ∈ shadow_block, declaration_ok d)
      ∧ parse_css_block str2int_dec (css_block_text shadow_block.reverse) init_style
          ≠ parse_css_block str2int_dec (css_block_text shadow_block) init_style)
    ∧ (spaced_block.reverse.Perm spaced_block ∧ disjoint_targets spaced_block
      ∧ parse_css_block str2int_dec (css_block_text spaced_block.reverse) init_style
          ≠ parse_css_block str2int_dec (css_block_text spaced_block) init_style) :=
  ⟨⟨List.reverse_perm _, by decide, by decide, by decide⟩,
    ⟨List.reverse_perm _, by decide, by decide⟩⟩

theorem takeWhile_append_stop (q : Char → Bool) (l r : List Char) (c : Char)
    (hl : ∀ x ∈ l, q x = true) (hc : q c = false) : (l ++ c :: r).takeWhile q = l := by
  induction l with
  | nil => simp [List.takeWhile, hc]
  | cons a l ih =>
    have ha : q a = true := hl a (List.mem_cons_self _ _)
    have hl2 : ∀ x ∈ l, q x = true := fun x hx => hl x (List.mem_cons_of_mem _ hx)
    simp [List.takeWhile, ha, ih hl2]

theorem dropWhile_append_stop (q : Char → Bool) (l r : List Char) (c : Char)
    (hl : ∀ x ∈ l, q x = true) (hc : q c = false) : (l ++ c :: r).dropWhile q = c :: r := by
  induction l with
  | nil => simp [List.dropWhile, hc]
  | cons a l ih =>
    have ha : q a = true := hl a (List.mem_cons_self _ _)
    have hl2 : ∀ x ∈ l, q x = true := fun x hx => hl x (List.mem_cons_of_mem _ hx)
    simp [List.dropWhile, ha, ih hl2]

theorem takeWhile_all (q : Char → Bool) (l : List Char) (hl : ∀ x ∈ l, q x = true) :
    l.takeWhile q = l := by
  induction l with
  | nil => rfl
  | cons a l ih =>
    have ha : q a = true := hl a (List.mem_cons_self _ _)
    have hl2 : ∀ x ∈ l, q x = true := fun x hx => hl x (List.mem_cons_of_mem _ hx)
    simp [List.takeWhile, ha, ih hl2]

theorem dropWhile_all (q : Char → Bool) (l : List Char) (hl : ∀ x ∈ l, q x = true) :
    l.dropWhile q = [] := by
  induction l with
  | nil => rfl
  | cons a l ih =>
    have ha : q a = true := hl a (List.mem_cons_self _ _)
    have hl2 : ∀ x ∈ l, q x = true := fun x hx => hl x (List.mem_cons_of_mem _ hx)
    simp [List.dropWhile, ha, ih hl2]

theorem parse_css_segment_declaration (str2int : List Char → Int → Int)
    (d : List Char × List Char) (s : render_style) (h : ∀ c ∈ d.1, c ≠ ':') :
    parse_css_segment str2int (d.1 ++ ':' :: d.2) s
      = apply_declaration str2int d.1 (css_value d.2) s := by
  have hl : ∀ x ∈ d.1, (fun c : Char => decide (c ≠ ':')) x = true := by
    intro x hx; simpa using h x hx
  have hc : (fun c : Char => decide (c ≠ ':')) ':' = false := by simp
  unfold parse_css_segment
  rw [dropWhile_append_stop _ d.1 d.2 ':' hl hc, takeWhile_append_stop _ d.1 d.2 ':' hl hc]

theorem declaration_text_no_semicolon (d : List Char × List Char) (h : declaration_ok d) :
    ∀ x ∈ d.1 ++ ':' :: d.2, (fun c : Char => decide (c ≠ ';')) x = true := by
  intro x hx
  rw [List.mem_append, List.mem_cons] at hx
  rcases hx with hx | hx | hx
  · simpa using (h.1 x hx).2
  · subst hx; decide
  · simpa using h.2.1 x hx

theorem css_block_text_no_leading_space (d : List Char × List Char)
    (ds : List (List Char × List Char)) (h : declaration_ok d) :
    (css_block_text (d :: ds)).dropWhile (fun c => decide (c = ' '))
      = css_block_text (d :: ds) := by
  obtain ⟨p, v⟩ := d
  have h3 : p.head? ≠ some ' ' := h.2.2
  cases ds with
  | nil =>
    cases p with
    | nil => simp [css_block_text, List.dropWhile]
    | cons a p =>
      have ha : a ≠ ' ' := by simpa using h3
      simp [css_block_text, List.dropWhile, ha]
  | cons d2 ds =>
    cases p with
    | nil => simp [css_block_text, List.dropWhile]
    | cons a p =>
      have ha : a ≠ ' ' := by simpa using h3
      simp [css_block_text, List.dropWhile, ha]

theorem parse_css_block_loop_cons (str2int : List Char → Int → Int) (fuel : Nat)
    (p : List Char) (s : render_style) (hp : p ≠ []) :
    parse_css_block_loop str2int (fuel + 1) p s =
      match p.dropWhile (fun c => c ≠ ';') with
      | [] => some (parse_css_segment str2int (p.takeWhile (fun c => c ≠ ';')) s)
      | _ :: after_end =>
          parse_css_block_loop str2int fuel (after_end.dropWhile (fun c => c = ' '))
            (parse_css_segment str2int (p.takeWhile (fun c => c ≠ ';')) s) := by
  cases p with
  | nil => exact absurd rfl hp
  | cons c q => rfl

/-- On the text of well-formed declarations the loop of `parse_css_block`
ends, and its result is the declarations applied in order. -/
theorem parse_css_block_loop_text (str2int : List Char → Int → Int) :
    ∀ (ds : List (List Char × List Char)) (fuel : Nat) (s : render_style),
      (∀ d ∈ ds, declaration_ok d) → (css_block_text ds).length < fuel →
      parse_css_block_loop str2int fuel (css_block_text ds) s
        = some (ds.foldl (fun s d => apply_declaration str2int d.1 (css_value d.2) s) s) := by
  intro ds
  induction ds with
  | nil =>
    intro fuel s _ hf
    cases fuel with
    | zero => omega
    | succ fuel => rfl
  | cons d ds ih =>
    intro fuel s hok hf
    have hd : declaration_ok d := hok d (List.mem_cons_self _ _)
    have hsemi := declaration_text_no_semicolon d hd
    cases fuel with
    | zero => omega
    | succ fuel =>
      cases ds with
      | nil =>
        have hne : css_block_text [d] ≠ [] := by simp [css_block_text]
        rw [parse_css_block_loop_cons _ _ _ _ hne]
        simp only [css_block_text]
        rw [dropWhile_all _ _ hsemi, takeWhile_all _ _ hsemi,
          parse_css_segment_declaration _ _ _ (fun c hc => (hd.1 c hc).1)]
        rfl
      | cons d2 ds =>
        have hne : css_block_text (d :: d2 :: ds) ≠ [] := by simp [css_block_text]
        have hc : (fun c : Char => decide (c ≠ ';')) ';' = false := by simp
        rw [parse_css_block_loop_cons _ _ _ _ hne]
        simp only [css_block_text]
        rw [dropWhile_append_stop _ _ _ ';' hsemi hc, takeWhile_append_stop _ _ _ ';' hsemi hc,
          parse_css_segment_declaration _ _ _ (fun c hc => (hd.1 c hc).1)]
        simp only []
        rw [css_block_text_no_leading_space d2 ds (hok d2 (by simp))]
        rw [ih fuel _ (fun e he => hok e (List.mem_cons_of_mem _ he))]
        · rfl
        · simp only [css_block_text, List.length_append, List.length_cons] at hf
          omega

theorem declaration_target_some (p : List Char) (f : style_field)
    (h : declaration_target p = some f) : p = field_name f := by
  unfold declaration_target at h
  by_cases h1 : p = "color".toList
  · rw [if_pos h1] at h; cases h; exact h1
  rw [if_neg h1] at h
  by_cases h2 : p = "background-color".toList
  · rw [if_pos h2] at h; cases h; exact h2
  rw [if_neg h2] at h
  by_cases h3 : p = "width".toList
  · rw [if_pos h3] at h; cases h; exact h3
  rw [if_neg h3] at h
  by_cases h4 : p = "height".toList
  · rw [if_pos h4] at h; cases h; exact h4
  rw [if_neg h4] at h
  by_cases h5 : p = "padding".toList
  · rw [if_pos h5] at h; cases h; exact h5
  rw [if_neg h5] at h
  by_cases h6 : p = "border-radius".toList
  · rw [if_pos h6] at h; cases h; exact h6
  rw [if_neg h6] at h
  by_cases h7 : p = "position".toList
  · rw [if_pos h7] at h; cases h; exact h7
  rw [if_neg h7] at h
  by_cases h8 : p = "top".toList
  · rw [if_pos h8] at h; cases h; exact h8
  rw [if_neg h8] at h
  by_cases h9 : p = "right".toList
  · rw [if_pos h9] at h; cases h; exact h9
  rw [if_neg h9] at h
  by_cases h10 : p = "display".toList
  · rw [if_pos h10] at h; cases h; exact h10
  rw [if_neg h10] at h
  by_cases h11 : p = "justify-content".toList
  · rw [if_pos h11] at h; cases h; exact h11
  rw [if_neg h11] at h
  by_cases h12 : p = "align-items".toList
  · rw [if_pos h12] at h; cases h; exact h12
  rw [if_neg h12] at h
  by_cases h13 : p = "box-shadow".toList
  · rw [if_pos h13] at h; cases h; exact h13
  rw [if_neg h13] at h
  cases h

theorem declaration_target_none (str2int : List Char → Int → Int) (p val : List Char)
    (s : render_style) (h : declaration_target p = none) :
    apply_declaration str2int p val s = s := by
  unfold declaration_target at h
  by_cases h1 : p = "color".toList
  · rw [if_pos h1] at h; cases h
  rw [if_neg h1] at h
  by_cases h2 : p = "background-color".toList
  · rw [if_pos h2] at h; cases h
  rw [if_neg h2] at h
  by_cases h3 : p = "width".toList
  · rw [if_pos h3] at h; cases h
  rw [if_neg h3] at h
  by_cases h4 : p = "height".toList
  · rw [if_pos h4] at h; cases h
  rw [if_neg h4] at h
  by_cases h5 : p = "padding".toList
  · rw [if_pos h5] at h; cases h
  rw [if_neg h5] at h
  by_cases h6 : p = "border-radius".toList
  · rw [if_pos h6] at h; cases h
  rw [if_neg h6] at h
  by_cases h7 : p = "position".toList
  · rw [if_pos h7] at h; cases h
  rw [if_neg h7] at h
  by_cases h8 : p = "top".toList
  · rw [if_pos h8] at h; cases h
  rw [if_neg h8] at h
  by_cases h9 : p = "right".toList
  · rw [if_pos h9] at h; cases h
  rw [if_neg h9] at h
  by_cases h10 : p = "display".toList
  · rw [if_pos h10] at h; cases h
  rw [if_neg h10] at h
  by_cases h11 : p = "justify-content".toList
  · rw [if_pos h11] at h; cases h
  rw [if_neg h11] at h
  by_cases h12 : p = "align-items".toList
  · rw [if_pos h12] at h; cases h
  rw [if_neg h12] at h
  by_cases h13 : p = "box-shadow".toList
  · rw [if_pos h13] at h; cases h
  rw [if_neg h13] at h
  unfold apply_declaration
  rw [if_neg h1, if_neg h2, if_neg h3, if_neg h4, if_neg h5, if_neg h6, if_neg h7, if_neg h8,
    if_neg h9, if_neg h10, if_neg h11, if_neg h12, if_neg h13, if_neg h10]

/-- What `apply_declaration` does for the property text of each field. -/
theorem apply_declaration_field (str2int : List Char → Int → Int) (f : style_field)
    (val : List Char) (s : render_style) :
    apply_declaration str2int (field_name f) val s =
      match f with
      | style_field.fg => { s with fg := parse_css_color val }
      | style_field.bg => { s with bg := parse_css_color val }
      | style_field.width => { s with width := str2int val s.width }
      | style_field.height =>
          if (strstr val "vh".toList).isSome then { s with height := -1 }
          else { s with height := str2int val s.height }
      | style_field.padding => { s with padding := str2int val s.padding }
      | style_field.border_radius =>
          if (strstr val "%".toList).isSome then { s with border_radius := -1 }
          else { s with border_radius := str2int val s.border_radius }
      | style_field.position_absolute =>
          if (strstr val "absolute".toList).isSome then { s with position_absolute := 1 } else s
      | style_field.top => { s with top := str2int val s.top }
      | style_field.right => { s with right := str2int val s.right }
      | style_field.display_flex =>
          if (strstr val "flex".toList).isSome then { s with display_flex := 1 } else s
      | style_field.justify_center =>
          if (strstr val "center".toList).isSome then { s with justify_center := 1 } else s
      | style_field.align_center =>
          if (strstr val "center".toList).isSome then { s with align_center := 1 } else s
      | style_field.has_shadow => { s with has_shadow := 1 } := by
  cases f <;> rfl

/-- Two declarations that target different fields, or of which one targets
none, can be applied in either order. -/
theorem apply_declaration_comm (str2int : List Char → Int → Int) (p v q w : List Char)
    (s : render_style)
    (h : declaration_target p = none ∨ declaration_target q = none
      ∨ declaration_target p ≠ declaration_target q) :
    apply_declaration str2int q w (apply_declaration str2int p v s)
      = apply_declaration str2int p v (apply_declaration str2int q w s) := by
  cases hp : declaration_target p with
  | none => simp only [declaration_target_none str2int p v _ hp]
  | some a =>
    cases hq : declaration_target q with
    | none => simp only [declaration_target_none str2int q w _ hq]
    | some b =>
      have hab : a ≠ b := by
        rcases h with h | h | h
        · rw [hp] at h; cases h
        · rw [hq] at h; cases h
        · rw [hp, hq] at h
          intro e; exact h (congrArg some e)
      rw [declaration_target_some p a hp, declaration_target_some q b hq]
      simp only [apply_declaration_field]
      cases a <;> cases b <;> first
        | exact absurd rfl hab
        | (simp only []; done)
        | (simp only []; split_ifs <;> rfl)

theorem css_block_text_length (ds : List (List Char × List Char)) (h : ds ≠ []) :
    (css_block_text ds).length + 1 = (ds.map (fun d => d.1.length + d.2.length + 2)).sum := by
  induction ds with
  | nil => exact absurd rfl h
  | cons d ds ih =>
    cases ds with
    | nil => simp [css_block_text]; omega
    | cons d2 ds =>
      have ih2 := ih (by simp)
      simp only [css_block_text, List.length_append, List.length_cons, List.map_cons,
        List.sum_cons] at ih2 ⊢
      omega

theorem css_block_text_length_perm (ds ds' : List (List Char × List Char))
    (h : ds'.Perm ds) : (css_block_text ds').length = (css_block_text ds).length := by
  cases ds with
  | nil => rw [List.perm_nil.mp h]
  | cons d ds =>
    have hne' : ds' ≠ [] := by
      intro e; rw [e] at h; exact absurd h.symm (by simp)
    have h1 := css_block_text_length ds' hne'
    have h2 := css_block_text_length (d :: ds) (by simp)
    have h3 := (h.map (fun d => d.1.length + d.2.length + 2)).sum_eq
    omega

/-- On a block text of at most 127 bytes made of well-formed declarations,
`parse_css_block` applies the declarations in order. -/
theorem parse_css_block_text (str2int : List Char → Int → Int)
    (ds : List (List Char × List Char)) (s : render_style)
    (hok : ∀ d ∈ ds, declaration_ok d) (hlen : (css_block_text ds).length ≤ 127) :
    parse_css_block str2int (css_block_text ds) s
      = ds.foldl (fun s d => apply_declaration str2int d.1 (css_value d.2) s) s := by
  unfold parse_css_block
  rw [List.take_of_length_le hlen,
    parse_css_block_loop_text str2int ds _ s hok (Nat.lt_succ_self _)]
  rfl

/-- Where the buffer of 128 bytes and the space at the start of a block do not
come into play, the order of declarations is irrelevant: for a style block
of at most 127 bytes given as a list of well-formed `property:value`
declarations separated by `;` that target pairwise disjoint style fields,
every permutation of the list gives the same style from the same initial
style, whatever `str2int` does. -/
theorem declaration_order_irrelevant (str2int : List Char → Int → Int)
    (ds ds' : List (List Char × List Char)) (s : render_style)
    (hperm : ds'.Perm ds) (hok : ∀ d ∈ ds, declaration_ok d) (hdis : disjoint_targets ds)
    (hlen : (css_block_text ds).length ≤ 127) :
    parse_css_block str2int (css_block_text ds') s
      = parse_css_block str2int (css_block_text ds) s := by
  have hok' : ∀ d ∈ ds', declaration_ok d := fun d hd => hok d (hperm.subset hd)
  have hlen' : (css_block_text ds').length ≤ 127 := by
    rw [css_block_text_length_perm ds ds' hperm]; exact hlen
  rw [parse_css_block_text str2int ds s hok hlen, parse_css_block_text str2int ds' s hok' hlen']
  refine (hperm.symm.foldl_eq' ?_ s).symm
  intro x hx y hy z
  by_cases hxy : x = y
  · rw [hxy]
  · have hsym : Symmetric (fun a b : List Char × List Char =>
        declaration_target a.1 = none ∨ declaration_target a.1 ≠ declaration_target b.1
          ∨ declaration_target b.1 = none) := by
      intro a b hab
      rcases hab with h | h | h
      · exact Or.inr (Or.inr h)
      · exact Or.inr (Or.inl (fun e => h e.symm))
      · exact Or.inl h
    have hpw : ds.Pairwise (fun a b : List Char × List Char =>
        declaration_target a.1 = none ∨ declaration_target a.1 ≠ declaration_target b.1
          ∨ declaration_target b.1 = none) := by
      refine List.Pairwise.imp ?_ hdis
      intro a b hab
      rcases hab with h | h
      · exact Or.inl h
      · exact Or.inr (Or.inl h)
    have hR := List.Pairwise.forall hsym hpw hx hy hxy
    apply apply_declaration_comm
    rcases hR with h | h | h
    · exact Or.inl h
    · exact Or.inr (Or.inr h)
    · exact Or.inr (Or.inl h)

/-- The three declarations of `short_block` (44 bytes) give the same style in
reverse order, with background (255,0,0), width 40 and height 20. -/
theorem short_block_order_irrelevant :
    parse_css_block str2int_dec (css_block_text short_block.reverse) init_style
      = parse_css_block str2int_dec (css_block_text short_block) init_style
    ∧ parse_css_block str2int_dec (css_block_text short_block) init_style
      = { init_style with bg := ⟨255, 0, 0, 0⟩, width := 40, height := 20 } :=
  ⟨declaration_order_irrelevant str2int_dec short_block short_block.reverse init_style
      (List.reverse_perm _) (by decide) (by decide) (by decide),
    by decide⟩

/-! ### The inner loops end within their fuel -/

theorem length_dropWhile_le (q : Char → Bool) (l : List Char) :
    (l.dropWhile q).length ≤ l.length := by
  induction l with
  | nil => simp
  | cons a l ih =>
    by_cases h : q a = true
    · simp only [List.dropWhile, h, List.length_cons]; omega
    · simp [List.dropWhile, h]

/-- The loop of `parse_css_block` ends within `length + 1` rounds. -/
theorem parse_css_block_loop_some (str2int : List Char → Int → Int) :
    ∀ (fuel : Nat) (p : List Char) (s : render_style), p.length < fuel →
      ∃ r, parse_css_block_loop str2int fuel p s = some r := by
  intro fuel
  induction fuel with
  | zero => intro p s h; omega
  | succ fuel ih =>
    intro p s h
    cases p with
    | nil => exact ⟨s, rfl⟩
    | cons c q =>
      unfold parse_css_block_loop
      simp only []
      have h1 := length_dropWhile_le (fun c => decide (c ≠ ';')) (c :: q)
      cases hd : (c :: q).dropWhile (fun c => decide (c ≠ ';')) with
      | nil => exact ⟨_, rfl⟩
      | cons a after_end =>
        rw [hd] at h1
        have h2 := length_dropWhile_le (fun c => decide (c = ' ')) after_end
        simp only [List.length_cons] at h h1
        exact ih _ _ (by omega)

/-- The loop of `parse_css_sheet` ends within `length + 1` rounds. -/
theorem parse_css_sheet_loop_some (str2int : List Char → Int → Int) :
    ∀ (fuel : Nat) (p : List Char) (rules : List css_rule), p.length < fuel →
      ∃ r, parse_css_sheet_loop str2int fuel p rules = some r := by
  intro fuel
  induction fuel with
  | zero => intro p rules h; omega
  | succ fuel ih =>
    intro p rules h
    unfold parse_css_sheet_loop
    have h0 := length_dropWhile_le le_space p
    cases hd : p.dropWhile le_space with
    | nil => exact ⟨_, rfl⟩
    | cons c q =>
      rw [hd] at h0
      simp only []
      have h1 := length_dropWhile_le (fun c => decide (c ≠ '{')) (c :: q)
      cases hb : (c :: q).dropWhile (fun c => decide (c ≠ '{')) with
      | nil => exact ⟨_, rfl⟩
      | cons b after_brace =>
        rw [hb] at h1
        simp only []
        have h2 := length_dropWhile_le (fun c => decide (c ≠ '}')) after_brace
        simp only [List.length_cons] at h0 h1
        cases hc : after_brace.dropWhile (fun c => decide (c ≠ '}')) with
        | nil => exact ih _ _ (by simp only [List.length_nil]; omega)
        | cons e after_close =>
          rw [hc] at h2
          simp only [List.length_cons] at h2
          exact ih _ _ (by omega)

/-- The loop of `run_js_script` ends within `length + 1` rounds. -/
theorem run_js_loop_some :
    ∀ (fuel : Nat) (p : List Char) (out : List (List Char)), p.length < fuel →
      ∃ r, run_js_loop fuel p out = some r := by
  intro fuel
  induction fuel with
  | zero => intro p out h; omega
  | succ fuel ih =>
    intro p out h
    unfold run_js_loop
    have h0 := length_dropWhile_le le_space p
    cases hd : p.dropWhile le_space with
    | nil => exact ⟨_, rfl⟩
    | cons c q =>
      rw [hd] at h0
      simp only [List.length_cons] at h0
      simp only []
      split_ifs
      · apply ih
        have h1 := length_dropWhile_le (fun c => decide (c ≠ ';'))
          (List.drop (List.take 127 (List.takeWhile (fun c => decide (c ≠ '\x22'))
            (List.drop 13 (c :: q)))).length (List.drop 13 (c :: q)))
        simp only [List.length_drop, List.length_cons] at h1
        omega
      · apply ih
        have h1 := length_dropWhile_le (fun c => decide (c ≠ ';'))
          (List.drop (List.take 127 (List.takeWhile (fun c => decide (c ≠ '\x22'))
            (List.drop 7 (c :: q)))).length (List.drop 7 (c :: q)))
        simp only [List.length_drop, List.length_cons] at h1
        omega
      · exact ⟨_, rfl⟩
      · exact ⟨_, rfl⟩
      · exact ⟨_, rfl⟩
      · exact ih _ _ (by omega)

/-- The attribute loop ends within `length + 1` rounds. -/
theorem scan_attrs_some :
    ∀ (fuel : Nat) (attr cls onclick : List Char), attr.length < fuel →
      ∃ r, scan_attrs fuel attr cls onclick = some r := by
  intro fuel
  induction fuel with
  | zero => intro attr cls onclick h; omega
  | succ fuel ih =>
    intro attr cls onclick h
    cases attr with
    | nil => exact ⟨_, rfl⟩
    | cons c next =>
      unfold scan_attrs
      simp only []
      simp only [List.length_cons] at h
      split_ifs
      · exact ⟨_, rfl⟩
      · split
        · exact ⟨_, rfl⟩
        · rename_i a after heq
          apply ih
          have h1 := congrArg List.length heq
          simp only [List.length_drop, List.length_cons] at h1
          omega
      · split
        · exact ⟨_, rfl⟩
        · rename_i a after heq
          apply ih
          have h1 := congrArg List.length heq
          simp only [List.length_drop, List.length_cons] at h1
          omega
      · exact ih _ _ _ (by omega)

/-- The value of `parse_css_block` is the value its loop ends with. -/
theorem parse_css_block_result (str2int : List Char → Int → Int) (block : List Char)
    (s : render_style) :
    parse_css_block_loop str2int ((block.take 127).length + 1) (block.take 127) s
      = some (parse_css_block str2int block s) := by
  obtain ⟨r, hr⟩ := parse_css_block_loop_some str2int _ (block.take 127) s (Nat.lt_succ_self _)
  unfold parse_css_block
  rw [hr]
  rfl

/-- The value of `parse_css_sheet` is the value its loop ends with. -/
theorem parse_css_sheet_result (str2int : List Char → Int → Int) (sheet : List Char)
    (rules : List css_rule) :
    parse_css_sheet_loop str2int (sheet.length + 1) sheet rules
      = some (parse_css_sheet str2int sheet rules) := by
  obtain ⟨r, hr⟩ := parse_css_sheet_loop_some str2int _ sheet rules (Nat.lt_succ_self _)
  unfold parse_css_sheet
  rw [hr]
  rfl

/-- The value of `run_js_script` is the value its loop ends with. -/
theorem run_js_script_result (script : List Char) :
    run_js_loop (script.length + 1) script [] = some (run_js_script script) := by
  obtain ⟨r, hr⟩ := run_js_loop_some _ script [] (Nat.lt_succ_self _)
  unfold run_js_script
  rw [hr]
  rfl

/-! ### Symbolic rounds of the main loop -/

theorem byte_at_of_drop (doc : List Char) (pos : Nat) (c : Char) (after : List Char)
    (hd : doc.drop pos = c :: after) : byte_at doc pos = c := by
  unfold byte_at
  have hlt : pos < doc.length := by
    by_contra hge
    rw [List.drop_eq_nil_of_le (by omega)] at hd
    cases hd
  rw [List.getD_eq_getElem _ _ hlt]
  have := List.drop_eq_getElem_cons hlt
  rw [this] at hd
  exact (List.cons.inj hd).1

theorem free_rules_nil (rules : List css_rule) : free_rules rules = [] := by
  induction rules with
  | nil => rfl
  | cons r rules ih => simpa [free_rules] using ih

theorem layout_size_style (screen_h : Int) (parent node : dom_node) :
    (layout_size screen_h parent node).style = node.style := by
  unfold layout_size
  simp only []
  split_ifs <;> simp_all

/-- The value of `place_node`, from the result of the attribute scan. -/
theorem place_node_eq (env : render_env) (tag p : List Char) (sp : Nat) (st : render_state)
    (attrs : scanned_attrs) (style : render_style) (hsp : 0 < sp)
    (ha : scan_attrs (p.length + 1) p [] [] = some attrs)
    (hs : get_style_for st.css_rules (some tag)
        (if attrs.cls ≠ [] then some attrs.cls else none)
        (tag_defaults tag (inherit_style (st.stack (sp - 1)).style)) = style) :
    place_node env tag p sp st
      = { parent :=
            if style.display = 1 then line_break (st.stack (sp - 1)) else st.stack (sp - 1),
          node :=
            layout_position
              (if style.display = 1 then line_break (st.stack (sp - 1)) else st.stack (sp - 1))
              (layout_size env.screen_h (st.stack (sp - 1))
                { st.stack sp with
                  tag := stored_tag tag attrs.cls, cls := attrs.cls, onclick := attrs.onclick,
                  style := style }),
          attr_past_end := attrs.past_end } := by
  unfold place_node
  simp only [gt_iff_lt, hsp, if_true, ha, Option.getD_some, hs, layout_size_style]

theorem rule_matches_iff (tag cls : Option (List Char)) (r : css_rule) :
    rule_matches tag cls r = true ↔
      (tag = some r.selector ∨ ∃ c, cls = some c ∧ r.selector = '.' :: c) := by
  have hsel : ∀ c : List Char,
      (r.selector.head? = some '.' ∧ r.selector.tail = c) ↔ r.selector = '.' :: c := by
    intro c
    cases r.selector with
    | nil => simp
    | cons a l => simp
  unfold rule_matches
  cases tag with
  | none =>
    cases cls with
    | none => simp
    | some c => simp [hsel]
  | some t =>
    cases cls with
    | none => simp [eq_comm]
    | some c =>
      simp only [Bool.or_eq_true, decide_eq_true_eq, hsel, Option.some.injEq]
      constructor
      · rintro (h | h)
        · exact Or.inr ⟨c, rfl, h⟩
        · exact Or.inl h.symm
      · rintro (h | ⟨c2, h1, h2⟩)
        · exact Or.inr h.symm
        · subst h1; exact Or.inl h2

theorem get_style_for_foldl (rules : List css_rule) (tag cls : Option (List Char)) :
    ∀ s : render_style, get_style_for rules tag cls s
      = (rules.filter (fun r => rule_matches tag cls r)).foldl
          (fun s r => merge_rule r.style s) s := by
  induction rules with
  | nil => intro s; rfl
  | cons r rest ih =>
    intro s
    unfold get_style_for
    rw [ih]
    by_cases h : rule_matches tag cls r = true
    · simp [List.filter, h]
    · simp [List.filter, h]

theorem get_style_for_no_match (rules : List css_rule) (tag cls : Option (List Char))
    (s : render_style) (h : ∀ r ∈ rules, rule_matches tag cls r = false) :
    get_style_for rules tag cls s = s := by
  rw [get_style_for_foldl]
  have : rules.filter (fun r => rule_matches tag cls r) = [] := by
    rw [List.filter_eq_nil_iff]
    intro r hr
    simp [h r hr]
  rw [this]
  rfl

/-- C12. In `get_style_for` a rule matches exactly when its selector is the
tag name or is `.` followed by the class; the result is the merge of exactly
the matching rules of the store, in store order, into `s`; and when no rule
of the store matches, the result is `s`. -/
theorem get_style_for_applies_matching (rules : List css_rule)
    (tag cls : Option (List Char)) (s : render_style) :
    (∀ r : css_rule, rule_matches tag cls r = true ↔
      (tag = some r.selector ∨ ∃ c, cls = some c ∧ r.selector = '.' :: c))
    ∧ get_style_for rules tag cls s
        = (rules.filter (fun r => rule_matches tag cls r)).foldl
            (fun s r => merge_rule r.style s) s
    ∧ ((∀ r ∈ rules, rule_matches tag cls r = false) → get_style_for rules tag cls s = s) :=
  ⟨fun r => rule_matches_iff tag cls r, get_style_for_foldl rules tag cls s,
    get_style_for_no_match rules tag cls s⟩

/-- The store with the one rule `.foo` leaves a `div` of class `bar` as it
was and gives a `div` of class `foo` the width 50. -/
theorem get_style_for_foo_store :
    get_style_for foo_store (some "div".toList) (some "bar".toList) init_style = init_style
    ∧ (get_style_for foo_store (some "div".toList) (some "foo".toList) init_style).width = 50 :=
  ⟨(get_style_for_applies_matching foo_store (some "div".toList) (some "bar".toList)
      init_style).2.2 (by decide), by decide⟩

/-- The result of `merge_rule`, field by field. -/
theorem merge_rule_eq (rs s : render_style) :
    merge_rule rs s =
      { s with
        bg := if rs.bg.a ≠ 255 then rs.bg else s.bg,
        width := if rs.width ≠ 0 then rs.width else s.width,
        height := if rs.height ≠ 0 then rs.height else s.height,
        padding := if rs.padding ≠ 0 then rs.padding else s.padding,
        border_radius := if rs.border_radius ≠ 0 then rs.border_radius else s.border_radius,
        position_absolute := if rs.position_absolute ≠ 0 then 1 else s.position_absolute,
        top := if rs.top ≠ 0 then rs.top else s.top,
        right := if rs.right ≠ 0 then rs.right else s.right,
        display_flex := if rs.display_flex ≠ 0 then 1 else s.display_flex,
        justify_center := if rs.justify_center ≠ 0 then 1 else s.justify_center,
        align_center := if rs.align_center ≠ 0 then 1 else s.align_center,
        has_shadow := if rs.has_shadow ≠ 0 then 1 else s.has_shadow } := by
  unfold merge_rule
  lift_lets
  extract_lets s1 s2 s3 s4 s5 s6 s7 s8 s9 s10 s11 s12
  have e1 : s1 = { s with bg := if rs.bg.a ≠ 255 then rs.bg else s.bg } := by
    show (if _ then _ else _) = _
    split_ifs <;> rfl
  have e2 : s2 = { s1 with width := if rs.width ≠ 0 then rs.width else s1.width } := by
    show (if _ then _ else _) = _
    split_ifs <;> rfl
  have e3 : s3 = { s2 with height := if rs.height ≠ 0 then rs.height else s2.height } := by
    show (if _ then _ else _) = _
    split_ifs <;> rfl
  have e4 : s4 = { s3 with padding := if rs.padding ≠ 0 then rs.padding else s3.padding } := by
    show (if _ then _ else _) = _
    split_ifs <;> rfl
  have e5 : s5 = { s4 with border_radius :=
      if rs.border_radius ≠ 0 then rs.border_radius else s4.border_radius } := by
    show (if _ then _ else _) = _
    split_ifs <;> rfl
  have e6 : s6 = { s5 with position_absolute :=
      if rs.position_absolute ≠ 0 then 1 else s5.position_absolute } := by
    show (if _ then _ else _) = _
    split_ifs <;> rfl
  have e7 : s7 = { s6 with top := if rs.top ≠ 0 then rs.top else s6.top } := by
    show (if _ then _ else _) = _
    split_ifs <;> rfl
  have e8 : s8 = { s7 with right := if rs.right ≠ 0 then rs.right else s7.right } := by
    show (if _ then _ else _) = _
    split_ifs <;> rfl
  have e9 : s9 = { s8 with display_flex :=
      if rs.display_flex ≠ 0 then 1 else s8.display_flex } := by
    show (if _ then _ else _) = _
    split_ifs <;> rfl
  have e10 : s10 = { s9 with justify_center :=
      if rs.justify_center ≠ 0 then 1 else s9.justify_center } := by
    show (if _ then _ else _) = _
    split_ifs <;> rfl
  have e11 : s11 = { s10 with align_center :=
      if rs.align_center ≠ 0 then 1 else s10.align_center } := by
    show (if _ then _ else _) = _
    split_ifs <;> rfl
  have e12 : s12 = { s11 with has_shadow :=
      if rs.has_shadow ≠ 0 then 1 else s11.has_shadow } := by
    show (if _ then _ else _) = _
    split_ifs <;> rfl
  rw [e12, e11, e10, e9, e8, e7, e6, e5, e4, e3, e2, e1]

theorem merge_rule_fg (rs s : render_style) : (merge_rule rs s).fg = s.fg := by
  rw [merge_rule_eq]

theorem get_style_for_fg (rules : List css_rule) (tag cls : Option (List Char)) :
    ∀ s : render_style, (get_style_for rules tag cls s).fg = s.fg := by
  induction rules with
  | nil => intro s; rfl
  | cons r rest ih =>
    intro s
    unfold get_style_for
    rw [ih]
    split_ifs
    · exact merge_rule_fg _ _
    · rfl

/-- C13. The rule `p{color:red}` is stored with the foreground (255,0,0), a
value other than the default, and matches a `p` element, yet the computed
style keeps the foreground it had: `get_style_for` never writes the
foreground colour, whatever the store holds. -/
theorem color_rule_not_merged (str2int : List Char → Int → Int) (rules : List css_rule)
    (tag cls : Option (List Char)) (s : render_style) :
    (get_style_for rules tag cls s).fg = s.fg
    ∧ parse_css_sheet str2int "p\x7bcolor:red\x7d".toList [] = [red_rule]
    ∧ red_rule.style.fg ≠ init_style.fg
    ∧ rule_matches (some "p".toList) none red_rule = true
    ∧ (get_style_for (parse_css_sheet str2int "p\x7bcolor:red\x7d".toList [])
        (some "p".toList) none init_style).fg = ⟨0, 0, 0, 0⟩ :=
  ⟨get_style_for_fg rules tag cls s, rfl, by decide, by decide, rfl⟩

theorem dropWhile_append_keep (q : Char → Bool) (l r : List Char) (c : Char)
    (hc : q c = false) : (l ++ c :: r).dropWhile q = l.dropWhile q ++ c :: r := by
  induction l with
  | nil => simp [List.dropWhile, hc]
  | cons a l ih =>
    by_cases ha : q a = true
    · simp [List.dropWhile, ha, ih]
    · simp [List.dropWhile, ha]

/-- More fuel does not change a result of the loop of `parse_css_sheet`. -/
theorem parse_css_sheet_loop_mono (str2int : List Char → Int → Int) :
    ∀ (fuel : Nat) (p : List Char) (rules r : List css_rule),
      parse_css_sheet_loop str2int fuel p rules = some r →
      parse_css_sheet_loop str2int (fuel + 1) p rules = some r := by
  intro fuel
  induction fuel with
  | zero => intro p rules r h; simp [parse_css_sheet_loop] at h
  | succ fuel ih =>
    intro p rules r h
    unfold parse_css_sheet_loop at h ⊢
    cases hd : p.dropWhile le_space with
    | nil => rw [hd] at h; exact h
    | cons c q =>
      rw [hd] at h
      simp only [] at h ⊢
      cases hb : (c :: q).dropWhile (fun c => decide (c ≠ '\x7b')) with
      | nil => rw [hb] at h; exact h
      | cons b after_brace =>
        rw [hb] at h
        simp only [] at h ⊢
        cases hc : after_brace.dropWhile (fun c => decide (c ≠ '\x7d')) with
        | nil => rw [hc] at h; exact ih _ _ _ h
        | cons e after_close => rw [hc] at h; exact ih _ _ _ h

/-- With fuel above the length of the text the loop of `parse_css_sheet`
gives the value of `parse_css_sheet`. -/
theorem parse_css_sheet_loop_fuel (str2int : List Char → Int → Int) (p : List Char)
    (rules : List css_rule) :
    ∀ fuel : Nat, p.length < fuel →
      parse_css_sheet_loop str2int fuel p rules = some (parse_css_sheet str2int p rules) := by
  intro fuel h
  obtain ⟨k, hk⟩ : ∃ k, fuel = p.length + 1 + k := ⟨fuel - (p.length + 1), by omega⟩
  subst hk
  clear h
  induction k with
  | zero => exact parse_css_sheet_result str2int p rules
  | succ k ih => exact parse_css_sheet_loop_mono str2int _ p rules _ ih

/-- One round of the loop of `parse_css_sheet` on the text `sel{block}`. -/
theorem parse_css_sheet_loop_rule (str2int : List Char → Int → Int) (fuel : Nat)
    (sel block rest : List Char) (rules : List css_rule)
    (hsel : ∀ c ∈ sel, c ≠ '\x7b') (hblock : ∀ c ∈ block, c ≠ '\x7d') :
    parse_css_sheet_loop str2int (fuel + 1) (sel ++ '\x7b' :: block ++ '\x7d' :: rest) rules
      = parse_css_sheet_loop str2int fuel rest (stored_rule str2int sel block :: rules) := by
  have hd : (sel ++ '\x7b' :: block ++ '\x7d' :: rest).dropWhile le_space
      = sel.dropWhile le_space ++ '\x7b' :: (block ++ '\x7d' :: rest) := by
    rw [List.append_assoc, List.cons_append]
    exact dropWhile_append_keep le_space sel _ '\x7b' (by decide)
  have hsel2 : ∀ x ∈ sel.dropWhile le_space, (fun c : Char => decide (c ≠ '\x7b')) x = true := by
    intro x hx
    have := hsel x ((List.dropWhile_sublist le_space).subset hx)
    simpa using this
  have hb : ∀ x ∈ block, (fun c : Char => decide (c ≠ '\x7d')) x = true := by
    intro x hx; simpa using hblock x hx
  obtain ⟨c, q, hcq⟩ : ∃ c q, sel.dropWhile le_space ++ '\x7b' :: (block ++ '\x7d' :: rest)
      = c :: q := by
    cases sel.dropWhile le_space with
    | nil => exact ⟨_, _, rfl⟩
    | cons a l => exact ⟨_, _, rfl⟩
  conv_lhs => unfold parse_css_sheet_loop
  rw [hd, hcq]
  simp only []
  rw [← hcq, takeWhile_append_stop _ _ _ '\x7b' hsel2 (by decide),
    dropWhile_append_stop _ _ _ '\x7b' hsel2 (by decide)]
  simp only []
  rw [takeWhile_append_stop _ _ _ '\x7d' hb (by decide),
    dropWhile_append_stop _ _ _ '\x7d' hb (by decide)]
  rfl

/-- The function `parse_css_sheet` on a text that begins with the rule
`sel{block}`: the rule is put in front of the store and the rest of the
text is parsed. -/
theorem parse_css_sheet_rule (str2int : List Char → Int → Int)
    (sel block rest : List Char) (rules : List css_rule)
    (hsel : ∀ c ∈ sel, c ≠ '\x7b') (hblock : ∀ c ∈ block, c ≠ '\x7d') :
    parse_css_sheet str2int (sel ++ '\x7b' :: block ++ '\x7d' :: rest) rules
      = parse_css_sheet str2int rest (stored_rule str2int sel block :: rules) := by
  have h := parse_css_sheet_result str2int (sel ++ '\x7b' :: block ++ '\x7d' :: rest) rules
  rw [parse_css_sheet_loop_rule str2int _ sel block rest rules hsel hblock,
    parse_css_sheet_loop_fuel str2int rest _ _ (by simp; omega)] at h
  exact (Option.some.inj h).symm

theorem parse_css_sheet_nil (str2int : List Char → Int → Int) (rules : List css_rule) :
    parse_css_sheet str2int [] rules = rules := rfl

/-- C14. For a style sheet with the two rules `sel1{block1}` and
`sel2{block2}`, parsed into a store in which nothing else matches the node:
the store holds the second rule before the first, and when the first rule
matches the node, each value it sets other than the default (width, height,
padding, border radius, top, right, background) is the node's value after
`get_style_for`, whatever the second rule sets. -/
theorem first_declared_rule_wins (str2int : List Char → Int → Int)
    (sel1 block1 sel2 block2 : List Char) (rules0 : List css_rule)
    (tag cls : Option (List Char)) (s : render_style)
    (hs1 : ∀ c ∈ sel1, c ≠ '\x7b') (hb1 : ∀ c ∈ block1, c ≠ '\x7d')
    (hs2 : ∀ c ∈ sel2, c ≠ '\x7b') (hb2 : ∀ c ∈ block2, c ≠ '\x7d')
    (h0 : ∀ r ∈ rules0, rule_matches tag cls r = false)
    (hm1 : rule_matches tag cls (stored_rule str2int sel1 block1) = true) :
    parse_css_sheet str2int (two_rule_sheet sel1 block1 sel2 block2) rules0
      = stored_rule str2int sel2 block2 :: stored_rule str2int sel1 block1 :: rules0
    ∧ ((stored_rule str2int sel1 block1).style.width ≠ 0 →
        (get_style_for (parse_css_sheet str2int (two_rule_sheet sel1 block1 sel2 block2) rules0)
          tag cls s).width = (stored_rule str2int sel1 block1).style.width)
    ∧ ((stored_rule str2int sel1 block1).style.height ≠ 0 →
        (get_style_for (parse_css_sheet str2int (two_rule_sheet sel1 block1 sel2 block2) rules0)
          tag cls s).height = (stored_rule str2int sel1 block1).style.height)
    ∧ ((stored_rule str2int sel1 block1).style.padding ≠ 0 →
        (get_style_for (parse_css_sheet str2int (two_rule_sheet sel1 block1 sel2 block2) rules0)
          tag cls s).padding = (stored_rule str2int sel1 block1).style.padding)
    ∧ ((stored_rule str2int sel1 block1).style.border_radius ≠ 0 →
        (get_style_for (parse_css_sheet str2int (two_rule_sheet sel1 block1 sel2 block2) rules0)
          tag cls s).border_radius = (stored_rule str2int sel1 block1).style.border_radius)
    ∧ ((stored_rule str2int sel1 block1).style.top ≠ 0 →
        (get_style_for (parse_css_sheet str2int (two_rule_sheet sel1 block1 sel2 block2) rules0)
          tag cls s).top = (stored_rule str2int sel1 block1).style.top)
    ∧ ((stored_rule str2int sel1 block1).style.right ≠ 0 →
        (get_style_for (parse_css_sheet str2int (two_rule_sheet sel1 block1 sel2 block2) rules0)
          tag cls s).right = (stored_rule str2int sel1 block1).style.right)
    ∧ ((stored_rule str2int sel1 block1).style.bg.a ≠ 255 →
        (get_style_for (parse_css_sheet str2int (two_rule_sheet sel1 block1 sel2 block2) rules0)
          tag cls s).bg = (stored_rule str2int sel1 block1).style.bg) := by
  have hstore : parse_css_sheet str2int (two_rule_sheet sel1 block1 sel2 block2) rules0
      = stored_rule str2int sel2 block2 :: stored_rule str2int sel1 block1 :: rules0 := by
    unfold two_rule_sheet
    rw [parse_css_sheet_rule str2int sel1 block1 _ rules0 hs1 hb1,
      parse_css_sheet_rule str2int sel2 block2 [] _ hs2 hb2, parse_css_sheet_nil]
  have hget : get_style_for
      (stored_rule str2int sel2 block2 :: stored_rule str2int sel1 block1 :: rules0) tag cls s
      = merge_rule (stored_rule str2int sel1 block1).style
          (if rule_matches tag cls (stored_rule str2int sel2 block2)
            then merge_rule (stored_rule str2int sel2 block2).style s else s) := by
    unfold get_style_for
    unfold get_style_for
    rw [get_style_for_no_match rules0 tag cls _ h0, if_pos hm1]
  rw [hstore, hget, merge_rule_eq]
  exact ⟨rfl, fun h => if_pos h, fun h => if_pos h, fun h => if_pos h, fun h => if_pos h,
    fun h => if_pos h, fun h => if_pos h, fun h => if_pos h⟩

/-- The sheet `div{width:10}.a{width:20}` and a `div` of class `a`: both
rules match, the second rule holds the width 20, the node gets the width 10. -/
theorem first_declared_rule_wins_sample :
    rule_matches (some "div".toList) (some "a".toList)
      (stored_rule str2int_dec ".a".toList "width:20".toList) = true
    ∧ (stored_rule str2int_dec ".a".toList "width:20".toList).style.width = 20
    ∧ (get_style_for (parse_css_sheet str2int_dec
        (two_rule_sheet "div".toList "width:10".toList ".a".toList "width:20".toList) [])
        (some "div".toList) (some "a".toList) init_style).width = 10 :=
  ⟨by decide, by decide,
    ((first_declared_rule_wins str2int_dec "div".toList "width:10".toList ".a".toList
      "width:20".toList [] (some "div".toList) (some "a".toList) init_style
      (by decide) (by decide) (by decide) (by decide) (by decide) (by decide)).2.1
      (by decide)).trans (by decide)⟩

/-! ### The display kind -/

theorem apply_declaration_display (str2int : List Char → Int → Int) (p val : List Char)
    (s : render_style) : (apply_declaration str2int p val s).display = s.display := by
  cases h : declaration_target p with
  | none => rw [declaration_target_none str2int p val s h]
  | some f =>
    rw [declaration_target_some p f h, apply_declaration_field]
    cases f <;> simp only [] <;> first | rfl | (split_ifs <;> rfl)

theorem parse_css_segment_display (str2int : List Char → Int → Int) (seg : List Char)
    (s : render_style) : (parse_css_segment str2int seg s).display = s.display := by
  unfold parse_css_segment
  split
  · rfl
  · exact apply_declaration_display str2int _ _ s

theorem parse_css_block_loop_display (str2int : List Char → Int → Int) :
    ∀ (fuel : Nat) (p : List Char) (s r : render_style),
      parse_css_block_loop str2int fuel p s = some r → r.display = s.display := by
  intro fuel
  induction fuel with
  | zero => intro p s r h; simp [parse_css_block_loop] at h
  | succ fuel ih =>
    intro p s r h
    cases p with
    | nil =>
      simp only [parse_css_block_loop, Option.some.injEq] at h
      rw [← h]
    | cons c q =>
      rw [parse_css_block_loop_cons str2int fuel (c :: q) s (by simp)] at h
      split at h
      · simp only [Option.some.injEq] at h
        rw [← h]
        exact parse_css_segment_display str2int _ s
      · rw [ih _ _ _ h]
        exact parse_css_segment_display str2int _ s

/-- C15. For every block and every initial style `parse_css_block` leaves the
display kind as it was; a `display` declaration takes the first `display`
branch of the chain, which writes the flex flag only. -/
theorem parse_css_block_keeps_display (str2int : List Char → Int → Int)
    (block val : List Char) (s : render_style) :
    (parse_css_block str2int block s).display = s.display
    ∧ apply_declaration str2int "display".toList val s
        = (if (strstr val "flex".toList).isSome then { s with display_flex := 1 } else s)
    ∧ parse_css_block str2int "display: none".toList s = s
    ∧ parse_css_block str2int "display: block".toList s = s :=
  ⟨parse_css_block_loop_display str2int _ _ s _ (parse_css_block_result str2int block s),
    apply_declaration_field str2int style_field.display_flex val s, rfl, rfl⟩

/-! ### Strings that are not colours -/

/-- C16, the code on two strings that are no colours. The strings `#zzz` and
`#1234` are neither `#` with exactly three or six hexadecimal digits nor named
colours, and `parse_css_color` gives them the opaque colours (0,0,0) and
(0x11,0x22,0x33), not the transparent sentinel that it sets up for an invalid
string: `parse_hex_digit` answers 0 for a byte that is no digit, and the
lengths are tested with `>=`. -/
theorem parse_css_color_counterexample :
    (¬ is_hex_color "#zzz".toList ∧ ¬ is_named_color "#zzz".toList
      ∧ parse_css_color "#zzz".toList = ⟨0, 0, 0, 0⟩
      ∧ (parse_css_color "#zzz".toList).a ≠ 255)
    ∧ (¬ is_hex_color "#1234".toList ∧ ¬ is_named_color "#1234".toList
      ∧ parse_css_color "#1234".toList = ⟨17, 34, 51, 0⟩
      ∧ (parse_css_color "#1234".toList).a ≠ 255) := by
  decide

theorem named_color_of_not_named (str : List Char) (h : ¬ is_named_color str) :
    named_color str = ⟨0, 0, 0, 255⟩ := by
  unfold is_named_color named_colors at h
  simp only [List.map_cons, List.map_nil, List.mem_cons, List.mem_nil_iff, or_false,
    not_or] at h
  obtain ⟨h1, h2, h3, h4, h5, h6, h7, h8, h9, h10, h11, h12, h13, h14, h15, h16, h17⟩ := h
  unfold named_color
  rw [if_neg h1, if_neg h2, if_neg h3, if_neg h4, if_neg h5, if_neg h6, if_neg h7, if_neg h8,
    if_neg h9, if_neg h10, if_neg h11, if_neg h12, if_neg h13, if_neg h14, if_neg h15,
    if_neg h16, if_neg h17]

/-- A string that is neither `#` followed by at least three bytes nor a named
colour of the table is given the transparent sentinel. -/
theorem parse_css_color_transparent (str : List Char)
    (hhash : ¬ (str.head? = some '#' ∧ 3 ≤ str.tail.length))
    (hname : ¬ is_named_color str) :
    parse_css_color str = ⟨0, 0, 0, 255⟩ := by
  unfold parse_css_color
  split
  · exact absurd ⟨rfl, by simp⟩ hhash
  · exact absurd ⟨rfl, by simp⟩ hhash
  · rfl
  · exact named_color_of_not_named str hname

/-- The strings `rgb(1,2,3)` and `#12` are given the transparent sentinel. -/
theorem parse_css_color_rgb_text :
    parse_css_color "rgb(1,2,3)".toList = ⟨0, 0, 0, 255⟩
    ∧ parse_css_color "#12".toList = ⟨0, 0, 0, 255⟩ :=
  ⟨parse_css_color_transparent "rgb(1,2,3)".toList (by decide) (by decide),
    by decide⟩

/-! ### Length of a style block -/

set_option maxRecDepth 100000 in
/-- C17. Two rules whose blocks have fewer than 511 bytes and lose recognised
declarations. The block of `.card` made of the three declarations of
`shadow_block` has 130 bytes and its last declaration `width:50` is recognised
(applied in order, the declarations give the width 50), yet the stored rule
has the width 0. The block of the rule `body` of the page embedded in the
kernel has 256 bytes; of its declarations `display: flex` is stored, while
`justify-content: center`, `align-items: center` and `height: 100vh`, which
lie after byte 127, are not: `parse_css_block` reads the first 127 bytes of
a block only. -/
theorem block_cut_at_127_bytes (str2int : List Char → Int → Int) :
    ((css_block_text shadow_block).length = 130
      ∧ (∀ d ∈ shadow_block, declaration_ok d)
      ∧ (shadow_block.foldl (fun s d => apply_declaration str2int_dec d.1 (css_value d.2) s)
          init_style).width = 50
      ∧ (parse_css_sheet str2int_dec
          (".card".toList ++ '\x7b' :: css_block_text shadow_block ++ ['\x7d']) []).map
            (fun r => (r.selector, r.style.width)) = [(".card".toList, 0)])
    ∧ (parse_css_sheet str2int page_sheet []).map
        (fun r => (r.selector, r.style.display_flex, r.style.justify_center,
          r.style.align_center, r.style.height))
        = [("button".toList, 0, 0, 0, 0), ("body".toList, 1, 0, 0, 0)] :=
  ⟨by decide, rfl⟩

theorem parse_css_block_take (str2int : List Char → Int → Int) (block : List Char)
    (s : render_style) (n : Nat) (hn : 127 ≤ n) :
    parse_css_block str2int (block.take n) s = parse_css_block str2int (block.take 127) s := by
  unfold parse_css_block
  rw [List.take_take, List.take_take, Nat.min_eq_left hn, Nat.min_self]

/-- Within 127 bytes nothing is lost: for a rule `sel{block}` whose block is
the text of well-formed declarations and has at most 127 bytes, the stored
rule's style is the declarations applied in order to the initial style; and
for every block the stored style is the one of the first 127 bytes of the
block. -/
theorem block_declarations_applied (str2int : List Char → Int → Int)
    (sel rest : List Char) (ds : List (List Char × List Char)) (rules : List css_rule)
    (hsel : ∀ c ∈ sel, c ≠ '\x7b') (hok : ∀ d ∈ ds, declaration_ok d)
    (hbrace : ∀ c ∈ css_block_text ds, c ≠ '\x7d')
    (hlen : (css_block_text ds).length ≤ 127) :
    parse_css_sheet str2int (sel ++ '\x7b' :: css_block_text ds ++ '\x7d' :: rest) rules
      = parse_css_sheet str2int rest
          (⟨css_selector (sel.dropWhile le_space),
            ds.foldl (fun s d => apply_declaration str2int d.1 (css_value d.2) s) init_style⟩
            :: rules)
    ∧ ∀ block : List Char,
        (stored_rule str2int sel block).style
          = parse_css_block str2int (block.take 127) init_style := by
  constructor
  · rw [parse_css_sheet_rule str2int sel (css_block_text ds) rest rules hsel hbrace]
    unfold stored_rule
    rw [List.take_of_length_le (by omega), parse_css_block_text str2int ds init_style hok hlen]
  · intro block
    exact parse_css_block_take str2int block init_style 511 (by omega)

/-- The rule `.box` with the three declarations of `short_block` (44 bytes)
is stored with background (255,0,0), width 40 and height 20. -/
theorem short_block_rule_stored :
    parse_css_sheet str2int_dec
      (".box".toList ++ '\x7b' :: css_block_text short_block ++ '\x7d' :: []) []
      = [⟨".box".toList, { init_style with bg := ⟨255, 0, 0, 0⟩, width := 40, height := 20 }⟩] :=
  ((block_declarations_applied str2int_dec ".box".toList [] short_block []
      (by decide) (by decide) (by decide) (by decide)).1).trans (by decide)

/-! ### The script recogniser -/

/-- What a result of the loop of `run_js_script` tells about the text: the
value is 0 or 1, it is 1 only when a terminating form occurs in the text, and
lines are printed only when a printing form occurs in it. -/
theorem run_js_loop_spec :
    ∀ (fuel : Nat) (p : List Char) (out : List (List Char)) (r : Int × List (List Char)),
      run_js_loop fuel p out = some r →
      (r.1 = 0 ∨ (r.1 = 1 ∧ ∃ f ∈ terminating_forms, f <:+: p))
      ∧ ((∀ f ∈ printing_forms, ¬ f <:+: p) → r.2 = out) := by
  intro fuel
  induction fuel with
  | zero => intro p out r h; simp [run_js_loop] at h
  | succ fuel ih =>
    intro p out r h
    unfold run_js_loop at h
    have hsuf : p.dropWhile le_space <:+ p := List.dropWhile_suffix _
    cases hd : p.dropWhile le_space with
    | nil =>
      rw [hd] at h
      simp only [Option.some.injEq] at h
      subst h
      exact ⟨Or.inl rfl, fun _ => rfl⟩
    | cons c q =>
      rw [hd] at h hsuf
      simp only [] at h
      split_ifs at h with h1 h2 h3 h4 h5
      · have hp : "console.log(\x22".toList <:+: p :=
          (List.isPrefixOf_iff_prefix.mp h1).isInfix.trans hsuf.isInfix
        obtain ⟨ih1, _⟩ := ih _ _ _ h
        refine ⟨?_, fun hq => absurd hp (hq _ (by simp [printing_forms]))⟩
        rcases ih1 with h0 | ⟨h1', f, hf, hfi⟩
        · exact Or.inl h0
        · refine Or.inr ⟨h1', f, hf, hfi.trans ?_⟩
          exact (((List.dropWhile_suffix _).trans (List.drop_suffix _ _)).trans
            (List.drop_suffix _ _)).isInfix.trans hsuf.isInfix
      · have hp : "alert(\x22".toList <:+: p :=
          (List.isPrefixOf_iff_prefix.mp h2).isInfix.trans hsuf.isInfix
        obtain ⟨ih1, _⟩ := ih _ _ _ h
        refine ⟨?_, fun hq => absurd hp (hq _ (by simp [printing_forms]))⟩
        rcases ih1 with h0 | ⟨h1', f, hf, hfi⟩
        · exact Or.inl h0
        · refine Or.inr ⟨h1', f, hf, hfi.trans ?_⟩
          exact (((List.dropWhile_suffix _).trans (List.drop_suffix _ _)).trans
            (List.drop_suffix _ _)).isInfix.trans hsuf.isInfix
      · simp only [Option.some.injEq] at h
        subst h
        exact ⟨Or.inr ⟨rfl, _, by simp [terminating_forms],
          (List.isPrefixOf_iff_prefix.mp h3).isInfix.trans hsuf.isInfix⟩, fun _ => rfl⟩
      · simp only [Option.some.injEq] at h
        subst h
        exact ⟨Or.inr ⟨rfl, _, by simp [terminating_forms],
          (List.isPrefixOf_iff_prefix.mp h4).isInfix.trans hsuf.isInfix⟩, fun _ => rfl⟩
      · simp only [Option.some.injEq] at h
        subst h
        exact ⟨Or.inr ⟨rfl, _, by simp [terminating_forms],
          (List.isPrefixOf_iff_prefix.mp h5).isInfix.trans hsuf.isInfix⟩, fun _ => rfl⟩
      · obtain ⟨ih1, ih2⟩ := ih _ _ _ h
        have hq : q <:+ p := (List.suffix_cons c q).trans hsuf
        refine ⟨?_, fun hn => ih2 (fun f hf hfi => hn f hf (hfi.trans hq.isInfix))⟩
        rcases ih1 with h0 | ⟨h1', f, hf, hfi⟩
        · exact Or.inl h0
        · exact Or.inr ⟨h1', f, hf, hfi.trans hq.isInfix⟩

/-- C19. For a script in which none of the terminating call forms `exit()`,
`goBack()`, `onButton()` occurs, the loop of `run_js_script` ends within its
fuel and the value returned is 0; when no printing form occurs either,
nothing is printed. -/
theorem run_js_script_no_signal (script : List Char)
    (h : ∀ f ∈ terminating_forms, ¬ f <:+: script) :
    ∃ out, run_js_loop (script.length + 1) script [] = some (0, out)
      ∧ run_js_script script = (0, out)
      ∧ ((∀ f ∈ printing_forms, ¬ f <:+: script) → out = []) := by
  have hr := run_js_script_result script
  obtain ⟨h1, h2⟩ := run_js_loop_spec _ script [] _ hr
  have h0 : (run_js_script script).1 = 0 := by
    rcases h1 with h0 | ⟨_, f, hf, hfi⟩
    · exact h0
    · exact absurd hfi (h f hf)
  refine ⟨(run_js_script script).2, ?_, ?_, h2⟩
  · rw [hr, ← h0]
  · rw [← h0]

/-- The script `var x = 1; foo(); console.log("hi");` holds no terminating
form: the value returned is 0 and the one line `JS: hi` is printed. -/
theorem run_js_script_plain_text :
    run_js_script "var x = 1; foo(); console.log(\x22hi\x22);".toList
      = (0, ["JS: hi\n".toList]) := by
  obtain ⟨out, _, h2, _⟩ := run_js_script_no_signal
    "var x = 1; foo(); console.log(\x22hi\x22);".toList (by decide)
  rw [h2]
  have h3 : run_js_script "var x = 1; foo(); console.log(\x22hi\x22);".toList
      = (0, ["JS: hi\n".toList]) := by decide
  rw [h2] at h3
  exact h3

/-- C18 as stated fails on the code. The two call forms `goBack()` and
`onButton()`, of two different callback names, both make `run_js_script`
return 1, as `exit()` does; with the logging and the alert call that makes
five forms with an effect. -/
theorem two_callbacks_counterexample :
    "goBack".toList ≠ "onButton".toList
    ∧ run_js_script ("goBack".toList ++ "()".toList) = (1, [])
    ∧ run_js_script ("onButton".toList ++ "()".toList) = (1, [])
    ∧ run_js_script "exit()".toList = (1, [])
    ∧ run_js_script "console.log(\x22a\x22);".toList = (0, ["JS: a\n".toList])
    ∧ run_js_script "alert(\x22a\x22);".toList = (0, ["JS ALERT: a\n".toList]) := by
  decide

/-- A round of the loop of `run_js_script` on a text that begins with none of
the five prefixes: the byte at the cursor is skipped and nothing else
happens. -/
theorem run_js_loop_skip (fuel : Nat) (c : Char) (q : List Char) (out : List (List Char))
    (hc : le_space c = false) (hf : ∀ f ∈ call_forms, ¬ f <+: c :: q) :
    run_js_loop (fuel + 1) (c :: q) out = run_js_loop fuel q out := by
  have h1 : ("console.log(\x22".toList.isPrefixOf (c :: q)) = false := by
    rw [Bool.eq_false_iff, Ne, List.isPrefixOf_iff_prefix]
    exact hf _ (by simp [call_forms, printing_forms])
  have h2 : ("alert(\x22".toList.isPrefixOf (c :: q)) = false := by
    rw [Bool.eq_false_iff, Ne, List.isPrefixOf_iff_prefix]
    exact hf _ (by simp [call_forms, printing_forms])
  have h3 : ("exit()".toList.isPrefixOf (c :: q)) = false := by
    rw [Bool.eq_false_iff, Ne, List.isPrefixOf_iff_prefix]
    exact hf _ (by simp [call_forms, terminating_forms])
  have h4 : ("goBack()".toList.isPrefixOf (c :: q)) = false := by
    rw [Bool.eq_false_iff, Ne, List.isPrefixOf_iff_prefix]
    exact hf _ (by simp [call_forms, terminating_forms])
  have h5 : ("onButton()".toList.isPrefixOf (c :: q)) = false := by
    rw [Bool.eq_false_iff, Ne, List.isPrefixOf_iff_prefix]
    exact hf _ (by simp [call_forms, terminating_forms])
  conv_lhs => unfold run_js_loop
  have hd : (c :: q).dropWhile le_space = c :: q := by simp [List.dropWhile, hc]
  rw [hd]
  simp only [h1, h2, h3, h4, h5, Bool.false_eq_true, if_false]

theorem isPrefixOf_cons_ne (a b : Char) (l₁ l₂ : List Char) (h : a ≠ b) :
    (a :: l₁).isPrefixOf (b :: l₂) = false := by
  rw [Bool.eq_false_iff]
  intro hp
  exact h (List.cons_prefix_cons.mp (List.isPrefixOf_iff_prefix.mp hp)).1

/-- A round of the loop of `run_js_script` on a logging call: the argument
(up to the quote, 127 bytes at most) is printed and the loop goes on at the
next `;`. -/
theorem run_js_loop_log (fuel : Nat) (rest : List Char) (out : List (List Char)) :
    run_js_loop (fuel + 1) ("console.log(\x22".toList ++ rest) out
      = run_js_loop fuel
          ((rest.drop ((rest.takeWhile (fun c => decide (c ≠ '\x22'))).take 127).length).dropWhile
            (fun c => decide (c ≠ ';')))
          (out ++ ["JS: ".toList ++ (rest.takeWhile (fun c => decide (c ≠ '\x22'))).take 127
            ++ "\n".toList]) := by
  conv_lhs => unfold run_js_loop
  have hd : ("console.log(\x22".toList ++ rest).dropWhile le_space
      = 'c' :: ("onsole.log(\x22".toList ++ rest) := rfl
  rw [hd]
  simp only []
  have hp : ("console.log(\x22".toList.isPrefixOf
      ('c' :: ("onsole.log(\x22".toList ++ rest))) = true :=
    List.isPrefixOf_iff_prefix.mpr (List.prefix_append "console.log(\x22".toList rest)
  rw [if_pos hp]
  rfl

/-- A round of the loop of `run_js_script` on an alert call. -/
theorem run_js_loop_alert (fuel : Nat) (rest : List Char) (out : List (List Char)) :
    run_js_loop (fuel + 1) ("alert(\x22".toList ++ rest) out
      = run_js_loop fuel
          ((rest.drop ((rest.takeWhile (fun c => decide (c ≠ '\x22'))).take 127).length).dropWhile
            (fun c => decide (c ≠ ';')))
          (out ++ ["JS ALERT: ".toList
            ++ (rest.takeWhile (fun c => decide (c ≠ '\x22'))).take 127 ++ "\n".toList]) := by
  conv_lhs => unfold run_js_loop
  have hd : ("alert(\x22".toList ++ rest).dropWhile le_space
      = 'a' :: ("lert(\x22".toList ++ rest) := rfl
  rw [hd]
  simp only []
  have h1 : ("console.log(\x22".toList.isPrefixOf ('a' :: ("lert(\x22".toList ++ rest))) = false :=
    isPrefixOf_cons_ne 'c' 'a' "onsole.log(\x22".toList _ (by decide)
  have hp : ("alert(\x22".toList.isPrefixOf ('a' :: ("lert(\x22".toList ++ rest))) = true :=
    List.isPrefixOf_iff_prefix.mpr (List.prefix_append "alert(\x22".toList rest)
  rw [h1, if_neg (by simp), if_pos hp]
  rfl

/-- A round of the loop of `run_js_script` on one of the three terminating
forms: the value 1 is returned. -/
theorem run_js_loop_terminating (fuel : Nat) (rest : List Char) (out : List (List Char)) :
    ∀ f ∈ terminating_forms, run_js_loop (fuel + 1) (f ++ rest) out = some (1, out) := by
  intro f hf
  simp only [terminating_forms, List.mem_cons, List.mem_nil_iff, or_false] at hf
  rcases hf with hf | hf | hf
  · subst hf
    unfold run_js_loop
    have hd : ("exit()".toList ++ rest).dropWhile le_space
        = 'e' :: ("xit()".toList ++ rest) := rfl
    rw [hd]
    simp only []
    have h1 : ("console.log(\x22".toList.isPrefixOf ('e' :: ("xit()".toList ++ rest))) = false :=
      isPrefixOf_cons_ne 'c' 'e' "onsole.log(\x22".toList _ (by decide)
    have h2 : ("alert(\x22".toList.isPrefixOf ('e' :: ("xit()".toList ++ rest))) = false :=
      isPrefixOf_cons_ne 'a' 'e' "lert(\x22".toList _ (by decide)
    have hp : ("exit()".toList.isPrefixOf ('e' :: ("xit()".toList ++ rest))) = true :=
      List.isPrefixOf_iff_prefix.mpr (List.prefix_append "exit()".toList rest)
    rw [h1, h2, if_neg (by simp), if_neg (by simp), if_pos hp]
  · subst hf
    unfold run_js_loop
    have hd : ("goBack()".toList ++ rest).dropWhile le_space
        = 'g' :: ("oBack()".toList ++ rest) := rfl
    rw [hd]
    simp only []
    have h1 : ("console.log(\x22".toList.isPrefixOf ('g' :: ("oBack()".toList ++ rest))) = false :=
      isPrefixOf_cons_ne 'c' 'g' "onsole.log(\x22".toList _ (by decide)
    have h2 : ("alert(\x22".toList.isPrefixOf ('g' :: ("oBack()".toList ++ rest))) = false :=
      isPrefixOf_cons_ne 'a' 'g' "lert(\x22".toList _ (by decide)
    have h3 : ("exit()".toList.isPrefixOf ('g' :: ("oBack()".toList ++ rest))) = false :=
      isPrefixOf_cons_ne 'e' 'g' "xit()".toList _ (by decide)
    have hp : ("goBack()".toList.isPrefixOf ('g' :: ("oBack()".toList ++ rest))) = true :=
      List.isPrefixOf_iff_prefix.mpr (List.prefix_append "goBack()".toList rest)
    rw [h1, h2, h3, if_neg (by simp), if_neg (by simp), if_neg (by simp), if_pos hp]
  · subst hf
    unfold run_js_loop
    have hd : ("onButton()".toList ++ rest).dropWhile le_space
        = 'o' :: ("nButton()".toList ++ rest) := rfl
    rw [hd]
    simp only []
    have h1 : ("console.log(\x22".toList.isPrefixOf ('o' :: ("nButton()".toList ++ rest)))
        = false := isPrefixOf_cons_ne 'c' 'o' "onsole.log(\x22".toList _ (by decide)
    have h2 : ("alert(\x22".toList.isPrefixOf ('o' :: ("nButton()".toList ++ rest))) = false :=
      isPrefixOf_cons_ne 'a' 'o' "lert(\x22".toList _ (by decide)
    have h3 : ("exit()".toList.isPrefixOf ('o' :: ("nButton()".toList ++ rest))) = false :=
      isPrefixOf_cons_ne 'e' 'o' "xit()".toList _ (by decide)
    have h4 : ("goBack()".toList.isPrefixOf ('o' :: ("nButton()".toList ++ rest))) = false :=
      isPrefixOf_cons_ne 'g' 'o' "oBack()".toList _ (by decide)
    have hp : ("onButton()".toList.isPrefixOf ('o' :: ("nButton()".toList ++ rest))) = true :=
      List.isPrefixOf_iff_prefix.mpr (List.prefix_append "onButton()".toList rest)
    rw [h1, h2, h3, h4, if_neg (by simp), if_neg (by simp), if_neg (by simp),
      if_neg (by simp), if_pos hp]

/-- More fuel does not change a result of the loop of `run_js_script`. -/
theorem run_js_loop_mono :
    ∀ (fuel : Nat) (p : List Char) (out : List (List Char)) (r : Int × List (List Char)),
      run_js_loop fuel p out = some r → run_js_loop (fuel + 1) p out = some r := by
  intro fuel
  induction fuel with
  | zero => intro p out r h; simp [run_js_loop] at h
  | succ fuel ih =>
    intro p out r h
    unfold run_js_loop at h ⊢
    cases hd : p.dropWhile le_space with
    | nil => rw [hd] at h; exact h
    | cons c q =>
      rw [hd] at h
      simp only [] at h ⊢
      split_ifs at h ⊢ <;> first | exact h | exact ih _ _ _ h

/-- With fuel above the length of the text the loop of `run_js_script` gives
the value of `run_js_script`, with the lines printed before put in front. -/
theorem run_js_loop_fuel (p : List Char) (out : List (List Char)) (fuel fuel2 : Nat)
    (h : p.length < fuel) (h2 : p.length < fuel2) :
    run_js_loop fuel p out = run_js_loop fuel2 p out := by
  obtain ⟨r, hr⟩ := run_js_loop_some (p.length + 1) p out (Nat.lt_succ_self _)
  have key : ∀ k : Nat, run_js_loop (p.length + 1 + k) p out = some r := by
    intro k
    induction k with
    | zero => exact hr
    | succ k ih => exact run_js_loop_mono _ p out r ih
  have e1 : fuel = p.length + 1 + (fuel - (p.length + 1)) := by omega
  have e2 : fuel2 = p.length + 1 + (fuel2 - (p.length + 1)) := by omega
  rw [e1, e2, key, key]

/-- A logging or alert call with an argument of at most 127 bytes: the
argument is printed and the value returned is 0, whatever the argument holds. -/
theorem run_js_script_print (arg : List Char) (hq : ∀ c ∈ arg, c ≠ '\x22')
    (hlen : arg.length ≤ 127) :
    run_js_script ("console.log(\x22".toList ++ (arg ++ "\x22);".toList))
      = (0, ["JS: ".toList ++ arg ++ "\n".toList])
    ∧ run_js_script ("alert(\x22".toList ++ (arg ++ "\x22);".toList))
      = (0, ["JS ALERT: ".toList ++ arg ++ "\n".toList]) := by
  have hl : ∀ x ∈ arg, (fun c : Char => decide (c ≠ '\x22')) x = true := by
    intro x hx; simpa using hq x hx
  have htake : (List.takeWhile (fun c : Char => decide (c ≠ '\x22'))
      (arg ++ "\x22);".toList)).take 127 = arg := by
    have : "\x22);".toList = '\x22' :: ");".toList := rfl
    rw [this, takeWhile_append_stop _ arg _ '\x22' hl (by decide),
      List.take_of_length_le hlen]
  have hdrop : List.dropWhile (fun c : Char => decide (c ≠ ';'))
      (List.drop arg.length (arg ++ "\x22);".toList)) = [';'] := by
    rw [List.drop_left]
    decide
  have hlast : ∀ out : List (List Char), run_js_loop 2 [';'] out = some (0, out) := by
    intro out
    rfl
  have h13 : "console.log(\x22".toList.length = 13 := by decide
  have h7 : "alert(\x22".toList.length = 7 := by decide
  have h3 : "\x22);".toList.length = 3 := by decide
  constructor
  · have hr := run_js_script_result ("console.log(\x22".toList ++ (arg ++ "\x22);".toList))
    have hbig : [';'].length
        < ("console.log(\x22".toList ++ (arg ++ "\x22);".toList)).length := by
      rw [List.length_append, List.length_append, h13, h3, List.length_singleton]; omega
    rw [run_js_loop_log, htake, hdrop, run_js_loop_fuel [';'] _ _ 2 hbig (by decide),
      hlast] at hr
    exact (Option.some.inj hr).symm
  · have hr := run_js_script_result ("alert(\x22".toList ++ (arg ++ "\x22);".toList))
    have hbig : [';'].length
        < ("alert(\x22".toList ++ (arg ++ "\x22);".toList)).length := by
      rw [List.length_append, List.length_append, h7, h3, List.length_singleton]; omega
    rw [run_js_loop_alert, htake, hdrop, run_js_loop_fuel [';'] _ _ 2 hbig (by decide),
      hlast] at hr
    exact (Option.some.inj hr).symm

/-- C18, amended. The loop of `run_js_script` tests five literal prefixes at
the cursor: the logging call and the alert call, which print their argument
and return 0, and the three terminating forms `exit()`, `goBack()` and
`onButton()`, on each of which the value 1 is returned whatever follows; a
text that begins with none of the five is skipped by one byte without any
effect; the value returned is 0 or 1, and it is 1 only when one of the three
terminating forms occurs in the script. -/
theorem run_js_script_call_forms (script rest : List Char) :
    (∀ f ∈ terminating_forms, run_js_script (f ++ rest) = (1, []))
    ∧ ((run_js_script script).1 = 1 → ∃ f ∈ terminating_forms, f <:+: script)
    ∧ ((run_js_script script).1 = 0 ∨ (run_js_script script).1 = 1)
    ∧ (∀ arg : List Char, (∀ c ∈ arg, c ≠ '\x22') → arg.length ≤ 127 →
        run_js_script ("console.log(\x22".toList ++ (arg ++ "\x22);".toList))
          = (0, ["JS: ".toList ++ arg ++ "\n".toList])
        ∧ run_js_script ("alert(\x22".toList ++ (arg ++ "\x22);".toList))
          = (0, ["JS ALERT: ".toList ++ arg ++ "\n".toList]))
    ∧ (∀ (fuel : Nat) (c : Char) (q : List Char) (out : List (List Char)),
        le_space c = false → (∀ f ∈ call_forms, ¬ f <+: c :: q) →
        run_js_loop (fuel + 1) (c :: q) out = run_js_loop fuel q out) := by
  have hspec := run_js_loop_spec _ script [] _ (run_js_script_result script)
  refine ⟨?_, ?_, ?_, run_js_script_print, run_js_loop_skip⟩
  · intro f hf
    have hr := run_js_script_result (f ++ rest)
    rw [run_js_loop_terminating _ rest [] f hf] at hr
    exact (Option.some.inj hr).symm
  · intro h1
    rcases hspec.1 with h0 | ⟨_, hf⟩
    · rw [h0] at h1; exact absurd h1 (by decide)
    · exact hf
  · rcases hspec.1 with h0 | ⟨h1, _⟩
    · exact Or.inl h0
    · exact Or.inr h1

/-! ### The texts stored in a node -/

theorem layout_size_texts (screen_h : Int) (parent node : dom_node) :
    (layout_size screen_h parent node).tag = node.tag
    ∧ (layout_size screen_h parent node).cls = node.cls
    ∧ (layout_size screen_h parent node).onclick = node.onclick := by
  unfold layout_size
  simp only []
  split_ifs <;> exact ⟨rfl, rfl, rfl⟩

theorem layout_position_texts (parent node : dom_node) :
    (layout_position parent node).tag = node.tag
    ∧ (layout_position parent node).cls = node.cls
    ∧ (layout_position parent node).onclick = node.onclick := by
  unfold layout_position
  simp only []
  split_ifs <;> exact ⟨rfl, rfl, rfl⟩

theorem ite_pair_texts (c : Prop) [Decidable c] (n : dom_node) (l : List gfx_call)
    (r : dom_node × List gfx_call)
    (h : n.tag = r.1.tag ∧ n.cls = r.1.cls ∧ n.onclick = r.1.onclick) :
    (if c then (n, l) else r).1.tag = r.1.tag
    ∧ (if c then (n, l) else r).1.cls = r.1.cls
    ∧ (if c then (n, l) else r).1.onclick = r.1.onclick := by
  split_ifs
  · exact h
  · exact ⟨rfl, rfl, rfl⟩

theorem tag_visuals_texts (screen_w draw : Int) (tag : List Char) (node : dom_node) :
    (tag_visuals screen_w draw tag node).1.tag = node.tag
    ∧ (tag_visuals screen_w draw tag node).1.cls = node.cls
    ∧ (tag_visuals screen_w draw tag node).1.onclick = node.onclick := by
  unfold tag_visuals
  lift_lets
  extract_lets r0 a1 r1 a2 r2 a3 r3 a4 r4 w h a5 r5 a6 r6 a7 r7
  have e1 : r1.1.tag = r0.1.tag ∧ r1.1.cls = r0.1.cls ∧ r1.1.onclick = r0.1.onclick :=
    ite_pair_texts _ _ _ _ ⟨rfl, rfl, rfl⟩
  have e2 : r2.1.tag = r1.1.tag ∧ r2.1.cls = r1.1.cls ∧ r2.1.onclick = r1.1.onclick :=
    ite_pair_texts _ _ _ _ ⟨rfl, rfl, rfl⟩
  have e3 : r3.1.tag = r2.1.tag ∧ r3.1.cls = r2.1.cls ∧ r3.1.onclick = r2.1.onclick :=
    ite_pair_texts _ _ _ _ ⟨rfl, rfl, rfl⟩
  have e4 : r4.1.tag = r3.1.tag ∧ r4.1.cls = r3.1.cls ∧ r4.1.onclick = r3.1.onclick :=
    ite_pair_texts _ _ _ _ ⟨rfl, rfl, rfl⟩
  have e5 : r5.1.tag = r4.1.tag ∧ r5.1.cls = r4.1.cls ∧ r5.1.onclick = r4.1.onclick :=
    ite_pair_texts _ _ _ _ ⟨rfl, rfl, rfl⟩
  have e6 : r6.1.tag = r5.1.tag ∧ r6.1.cls = r5.1.cls ∧ r6.1.onclick = r5.1.onclick :=
    ite_pair_texts _ _ _ _ ⟨rfl, rfl, rfl⟩
  have e7 : r7.1.tag = r6.1.tag ∧ r7.1.cls = r6.1.cls ∧ r7.1.onclick = r6.1.onclick :=
    ite_pair_texts _ _ _ _ ⟨rfl, rfl, rfl⟩
  exact ⟨e7.1.trans (e6.1.trans (e5.1.trans (e4.1.trans (e3.1.trans (e2.1.trans e1.1))))),
    e7.2.1.trans (e6.2.1.trans (e5.2.1.trans (e4.2.1.trans (e3.2.1.trans (e2.2.1.trans e1.2.1))))),
    e7.2.2.trans (e6.2.2.trans (e5.2.2.trans (e4.2.2.trans (e3.2.2.trans
      (e2.2.2.trans e1.2.2)))))⟩

/-- The texts in the stack entry that the opening-tag branch fills: the tag
name as it was read, whatever its length, and the class and the handler text
that the attribute scan ends with. -/
theorem open_node_texts (env : render_env) (draw : Int) (tag p : List Char)
    (st : render_state) (attrs : scanned_attrs)
    (ha : scan_attrs (p.length + 1) p [] [] = some attrs) :
    ((open_node env draw tag p st).stack (st.sp + 1)).tag = stored_tag tag attrs.cls
    ∧ ((open_node env draw tag p st).stack (st.sp + 1)).cls = attrs.cls
    ∧ ((open_node env draw tag p st).stack (st.sp + 1)).onclick = attrs.onclick := by
  have hp := place_node_eq env tag p (st.sp + 1) st attrs _ (Nat.succ_pos _) ha rfl
  have hn : (place_node env tag p (st.sp + 1) st).node.tag = stored_tag tag attrs.cls
      ∧ (place_node env tag p (st.sp + 1) st).node.cls = attrs.cls
      ∧ (place_node env tag p (st.sp + 1) st).node.onclick = attrs.onclick := by
    rw [hp]
    exact ⟨(layout_position_texts _ _).1.trans (layout_size_texts _ _ _).1,
      (layout_position_texts _ _).2.1.trans (layout_size_texts _ _ _).2.1,
      (layout_position_texts _ _).2.2.trans (layout_size_texts _ _ _).2.2⟩
  unfold open_node
  simp only []
  split_ifs with hd
  · simp only [set_node, if_true]
    exact hn
  · simp only [show_node_top]
    exact ⟨(tag_visuals_texts _ _ _ _).1.trans hn.1, (tag_visuals_texts _ _ _ _).2.1.trans hn.2.1,
      (tag_visuals_texts _ _ _ _).2.2.trans hn.2.2⟩

/-- The class and the handler text that the attribute scan ends with are
within 31 and 63 bytes. -/
theorem scan_attrs_bounds :
    ∀ (fuel : Nat) (attr cls onclick : List Char) (r : scanned_attrs),
      scan_attrs fuel attr cls onclick = some r → cls.length ≤ 31 → onclick.length ≤ 63 →
      r.cls.length ≤ 31 ∧ r.onclick.length ≤ 63 := by
  intro fuel
  induction fuel with
  | zero => intro attr cls onclick r h; simp [scan_attrs] at h
  | succ fuel ih =>
    intro attr cls onclick r h hc ho
    cases attr with
    | nil =>
      simp only [scan_attrs, Option.some.injEq] at h
      subst h
      exact ⟨hc, ho⟩
    | cons c next =>
      unfold scan_attrs at h
      simp only [] at h
      split_ifs at h
      · simp only [Option.some.injEq] at h
        subst h
        exact ⟨hc, ho⟩
      · split at h
        · simp only [Option.some.injEq] at h
          subst h
          exact ⟨List.length_take_le _ _, ho⟩
        · exact ih _ _ _ _ h (List.length_take_le _ _) ho
      · split at h
        · simp only [Option.some.injEq] at h
          subst h
          exact ⟨hc, List.length_take_le _ _⟩
        · exact ih _ _ _ _ h hc (List.length_take_le _ _)
      · exact ih _ _ _ _ h hc ho

set_option maxRecDepth 100000 in
/-- C11. The opening-tag branch copies the tag name as it was read, up to 63
bytes, into the 32-byte field `tag` without cutting it. The string that the
record then holds in `tag` is the name itself when that has fewer than 32
bytes, and otherwise its first 32 bytes followed by the class text: a name of
32 bytes or more leaves at least 32 bytes in the field, with no NUL inside the
array. For the document `<aaa...a>` with a name of 40 bytes the string held in
`tag` has 32 bytes. -/
theorem tag_text_overrun (env : render_env) (draw : Int) (tag p : List Char)
    (st : render_state) :
    ((open_node env draw tag p st).stack (st.sp + 1)).tag
      = stored_tag tag ((open_node env draw tag p st).stack (st.sp + 1)).cls
    ∧ min tag.length 32 ≤ ((open_node env draw tag p st).stack (st.sp + 1)).tag.length
    ∧ (render_html (sample_env 0 0 0) long_tag_doc [] 0 0 0).map
        (fun r => r.opened.map (fun e => (e.sp, e.node.tag, e.node.tag.length)))
        = some [(1, List.replicate 32 'a', 32)] := by
  obtain ⟨attrs, ha⟩ := scan_attrs_some (p.length + 1) p [] [] (Nat.lt_succ_self _)
  obtain ⟨h1, h2, _⟩ := open_node_texts env draw tag p st attrs ha
  refine ⟨by rw [h1, h2], ?_, by decide⟩
  rw [h1]
  unfold stored_tag
  split_ifs with h
  · omega
  · simp only [List.length_append, List.length_take]
    omega

/-! ### Repeated attributes -/

/-- C20 as stated fails on the code. In `<div class="a" class="b">` the node
is left with the class `b`, and in `<div onclick="a()" onclick="b()">` with
the handler text `b()`: the value of the second occurrence, not of the first. -/
theorem repeated_attribute_counterexample :
    (render_html (sample_env 0 0 0) two_class_doc [] 0 0 0).map
        (fun r => r.opened.map (fun e => e.node.cls)) = some ["b".toList]
    ∧ (render_html (sample_env 0 0 0) two_onclick_doc [] 0 0 0).map
        (fun r => r.opened.map (fun e => e.node.onclick)) = some ["b()".toList] := by
  decide

/-- More fuel does not change a result of the attribute loop. -/
theorem scan_attrs_mono :
    ∀ (fuel : Nat) (attr cls onclick : List Char) (r : scanned_attrs),
      scan_attrs fuel attr cls onclick = some r →
      scan_attrs (fuel + 1) attr cls onclick = some r := by
  intro fuel
  induction fuel with
  | zero => intro attr cls onclick r h; simp [scan_attrs] at h
  | succ fuel ih =>
    intro attr cls onclick r h
    cases attr with
    | nil =>
      simp only [scan_attrs] at h ⊢
      exact h
    | cons c next =>
      unfold scan_attrs at h ⊢
      simp only [] at h ⊢
      split_ifs at h ⊢ with h1 h2 h3
      · exact h
      · split at h
        · exact h
        · exact ih _ _ _ _ h
      · split at h
        · exact h
        · exact ih _ _ _ _ h
      · exact ih _ _ _ _ h

/-- With fuel above the length of the text the result of the attribute loop
does not depend on the fuel. -/
theorem scan_attrs_fuel (attr cls onclick : List Char) (fuel fuel2 : Nat)
    (h : attr.length < fuel) (h2 : attr.length < fuel2) :
    scan_attrs fuel attr cls onclick = scan_attrs fuel2 attr cls onclick := by
  obtain ⟨r, hr⟩ := scan_attrs_some (attr.length + 1) attr cls onclick (Nat.lt_succ_self _)
  have key : ∀ k : Nat, scan_attrs (attr.length + 1 + k) attr cls onclick = some r := by
    intro k
    induction k with
    | zero => exact hr
    | succ k ih => exact scan_attrs_mono _ attr cls onclick r ih
  have e1 : fuel = attr.length + 1 + (fuel - (attr.length + 1)) := by omega
  have e2 : fuel2 = attr.length + 1 + (fuel2 - (attr.length + 1)) := by omega
  rw [e1, e2, key, key]

/-- The attribute loop at the closing `>`. -/
theorem scan_attrs_end (fuel : Nat) (rest cls onclick : List Char) :
    scan_attrs (fuel + 1) ('>' :: rest) cls onclick = some ⟨cls, onclick, false⟩ := by
  unfold scan_attrs
  simp

/-- The attribute loop steps over text in which no attribute begins. -/
theorem scan_attrs_gap (g rest cls onclick : List Char) (hg : attr_gap g) :
    scan_attrs ((g ++ rest).length + 1) (g ++ rest) cls onclick
      = scan_attrs (rest.length + 1) rest cls onclick := by
  induction g with
  | nil => rfl
  | cons c g ih =>
    have hc := hg c (List.mem_cons_self _ _)
    have hg2 : attr_gap g := fun x hx => hg x (List.mem_cons_of_mem _ hx)
    have h1 : ("class=\x22".toList.isPrefixOf (c :: (g ++ rest))) = false :=
      isPrefixOf_cons_ne 'c' c "lass=\x22".toList _ (Ne.symm hc.1)
    have h2 : ("onclick=\x22".toList.isPrefixOf (c :: (g ++ rest))) = false :=
      isPrefixOf_cons_ne 'o' c "nclick=\x22".toList _ (Ne.symm hc.2.1)
    rw [List.cons_append]
    conv_lhs => unfold scan_attrs
    simp only [List.length_cons, hc.2.2, if_false, h1, h2, Bool.false_eq_true]
    exact ih hg2

/-- The attribute loop on `class="v"` with a value of at most 31 bytes: the
value becomes the class. -/
theorem scan_attrs_class (v rest cls onclick : List Char) (hv : ∀ x ∈ v, x ≠ '\x22')
    (hl : v.length ≤ 31) :
    scan_attrs ((class_attr v ++ rest).length + 1) (class_attr v ++ rest) cls onclick
      = scan_attrs (rest.length + 1) rest v onclick := by
  have hq : ∀ x ∈ v, (fun c : Char => decide (c ≠ '\x22')) x = true := by
    intro x hx; simpa using hv x hx
  have e : class_attr v ++ rest
      = 'c' :: ("lass=\x22".toList ++ (v ++ '\x22' :: rest)) := by
    unfold class_attr
    rw [List.append_assoc, List.append_assoc]
    rfl
  have hp : ("class=\x22".toList.isPrefixOf
      ('c' :: ("lass=\x22".toList ++ (v ++ '\x22' :: rest)))) = true :=
    List.isPrefixOf_iff_prefix.mpr (List.prefix_append "class=\x22".toList _)
  have hdrop : List.drop 7 ('c' :: ("lass=\x22".toList ++ (v ++ '\x22' :: rest)))
      = v ++ '\x22' :: rest := rfl
  have htake : (List.takeWhile (fun c : Char => decide (c ≠ '\x22'))
      (v ++ '\x22' :: rest)).take 31 = v := by
    rw [takeWhile_append_stop _ v rest '\x22' hq (by decide), List.take_of_length_le hl]
  rw [e]
  conv_lhs => unfold scan_attrs
  simp only [hp, hdrop, htake, List.drop_left, if_true]
  rw [if_neg (by decide)]
  exact scan_attrs_fuel rest v onclick _ _ (by simp; omega) (Nat.lt_succ_self _)

/-- The attribute loop on `onclick="v"` with a value of at most 63 bytes:
the value becomes the handler text. -/
theorem scan_attrs_onclick (v rest cls onclick : List Char) (hv : ∀ x ∈ v, x ≠ '\x22')
    (hl : v.length ≤ 63) :
    scan_attrs ((onclick_attr v ++ rest).length + 1) (onclick_attr v ++ rest) cls onclick
      = scan_attrs (rest.length + 1) rest cls v := by
  have hq : ∀ x ∈ v, (fun c : Char => decide (c ≠ '\x22')) x = true := by
    intro x hx; simpa using hv x hx
  have e : onclick_attr v ++ rest
      = 'o' :: ("nclick=\x22".toList ++ (v ++ '\x22' :: rest)) := by
    unfold onclick_attr
    rw [List.append_assoc, List.append_assoc]
    rfl
  have h1 : ("class=\x22".toList.isPrefixOf
      ('o' :: ("nclick=\x22".toList ++ (v ++ '\x22' :: rest)))) = false :=
    isPrefixOf_cons_ne 'c' 'o' "lass=\x22".toList _ (by decide)
  have hp : ("onclick=\x22".toList.isPrefixOf
      ('o' :: ("nclick=\x22".toList ++ (v ++ '\x22' :: rest)))) = true :=
    List.isPrefixOf_iff_prefix.mpr (List.prefix_append "onclick=\x22".toList _)
  have hdrop : List.drop 9 ('o' :: ("nclick=\x22".toList ++ (v ++ '\x22' :: rest)))
      = v ++ '\x22' :: rest := rfl
  have htake : (List.takeWhile (fun c : Char => decide (c ≠ '\x22'))
      (v ++ '\x22' :: rest)).take 63 = v := by
    rw [takeWhile_append_stop _ v rest '\x22' hq (by decide), List.take_of_length_le hl]
  rw [e]
  conv_lhs => unfold scan_attrs
  simp only [h1, hp, hdrop, htake, List.drop_left, if_true, Bool.false_eq_true, if_false]
  rw [if_neg (by decide)]
  exact scan_attrs_fuel rest cls v _ _ (by simp; omega) (Nat.lt_succ_self _)

/-- The attribute loop on a tag text with two class attributes, or two
handler attributes, of values within the capacity: the loop ends at the `>`
with the value of the second. -/
theorem scan_attrs_two (g1 g2 g3 v1 v2 w1 w2 rest : List Char)
    (hg1 : attr_gap g1) (hg2 : attr_gap g2) (hg3 : attr_gap g3)
    (hv1 : ∀ x ∈ v1, x ≠ '\x22') (hv2 : ∀ x ∈ v2, x ≠ '\x22')
    (hw1 : ∀ x ∈ w1, x ≠ '\x22') (hw2 : ∀ x ∈ w2, x ≠ '\x22')
    (hl1 : v1.length ≤ 31) (hl2 : v2.length ≤ 31)
    (hm1 : w1.length ≤ 63) (hm2 : w2.length ≤ 63) :
    scan_attrs ((two_attr_text g1 (class_attr v1) g2 (class_attr v2) g3 rest).length + 1)
        (two_attr_text g1 (class_attr v1) g2 (class_attr v2) g3 rest) [] []
      = some ⟨v2, [], false⟩
    ∧ scan_attrs ((two_attr_text g1 (onclick_attr w1) g2 (onclick_attr w2) g3 rest).length + 1)
        (two_attr_text g1 (onclick_attr w1) g2 (onclick_attr w2) g3 rest) [] []
      = some ⟨[], w2, false⟩ := by
  unfold two_attr_text
  constructor
  · rw [scan_attrs_gap g1 _ _ _ hg1, scan_attrs_class v1 _ _ _ hv1 hl1,
      scan_attrs_gap g2 _ _ _ hg2, scan_attrs_class v2 _ _ _ hv2 hl2,
      scan_attrs_gap g3 _ _ _ hg3, scan_attrs_end]
  · rw [scan_attrs_gap g1 _ _ _ hg1, scan_attrs_onclick w1 _ _ _ hw1 hm1,
      scan_attrs_gap g2 _ _ _ hg2, scan_attrs_onclick w2 _ _ _ hw2 hm2,
      scan_attrs_gap g3 _ _ _ hg3, scan_attrs_end]

/-- C20, amended. For an opening tag with two `class="..."` attributes
(respectively two `onclick="..."` attributes) before its closing `>`, with
values of at most 31 (respectively 63) bytes without a quote, and with no
`c`, `o` or `>` in the text around them, the class (respectively the handler
text) of the node is the value of the last occurrence. -/
theorem last_attribute_wins (env : render_env) (draw : Int) (tag : List Char)
    (st : render_state) (g1 g2 g3 v1 v2 w1 w2 rest : List Char)
    (hg1 : attr_gap g1) (hg2 : attr_gap g2) (hg3 : attr_gap g3)
    (hv1 : ∀ x ∈ v1, x ≠ '\x22') (hv2 : ∀ x ∈ v2, x ≠ '\x22')
    (hw1 : ∀ x ∈ w1, x ≠ '\x22') (hw2 : ∀ x ∈ w2, x ≠ '\x22')
    (hl1 : v1.length ≤ 31) (hl2 : v2.length ≤ 31)
    (hm1 : w1.length ≤ 63) (hm2 : w2.length ≤ 63) :
    ((open_node env draw tag (two_attr_text g1 (class_attr v1) g2 (class_attr v2) g3 rest)
        st).stack (st.sp + 1)).cls = v2
    ∧ ((open_node env draw tag (two_attr_text g1 (onclick_attr w1) g2 (onclick_attr w2) g3 rest)
        st).stack (st.sp + 1)).onclick = w2 := by
  have h := scan_attrs_two g1 g2 g3 v1 v2 w1 w2 rest hg1 hg2 hg3 hv1 hv2 hw1 hw2 hl1 hl2 hm1 hm2
  exact ⟨(open_node_texts env draw tag _ st _ h.1).2.1,
    (open_node_texts env draw tag _ st _ h.2).2.2⟩

/-- The tag texts ` class="a" class="b">` and ` onclick="a()" onclick="b()">`
of a `div` opened at the root: the node has the class `b`, respectively the
handler text `b()`. -/
theorem last_attribute_wins_sample :
    ((open_node (sample_env 0 0 0) 0 "div".toList
        (two_attr_text " ".toList (class_attr "a".toList) " ".toList (class_attr "b".toList) [] [])
        (render_init (sample_env 0 0 0) [] 0 0)).stack
          ((render_init (sample_env 0 0 0) [] 0 0).sp + 1)).cls = "b".toList
    ∧ ((open_node (sample_env 0 0 0) 0 "div".toList
        (two_attr_text " ".toList (onclick_attr "a()".toList) " ".toList
          (onclick_attr "b()".toList) [] [])
        (render_init (sample_env 0 0 0) [] 0 0)).stack
          ((render_init (sample_env 0 0 0) [] 0 0).sp + 1)).onclick = "b()".toList :=
  last_attribute_wins (sample_env 0 0 0) 0 "div".toList (render_init (sample_env 0 0 0) [] 0 0)
    " ".toList " ".toList [] "a".toList "b".toList "a()".toList "b()".toList []
    (by decide) (by decide) (by decide) (by decide) (by decide) (by decide) (by decide)
    (by decide) (by decide) (by decide) (by decide)

/-! ### What the cascade leaves alone -/

theorem merge_rule_frame (rs s : render_style) : same_unmerged (merge_rule rs s) s := by
  rw [merge_rule_eq]
  exact ⟨rfl, rfl, rfl, rfl, rfl, rfl, rfl, rfl, rfl⟩

theorem get_style_for_frame (rules : List css_rule) (tag cls : Option (List Char)) :
    ∀ s : render_style, same_unmerged (get_style_for rules tag cls s) s := by
  induction rules with
  | nil => intro s; exact ⟨rfl, rfl, rfl, rfl, rfl, rfl, rfl, rfl, rfl⟩
  | cons r rest ih =>
    intro s
    unfold get_style_for
    split_ifs
    · obtain ⟨a1, a2, a3, a4, a5, a6, a7, a8, a9⟩ := ih (merge_rule r.style s)
      obtain ⟨b1, b2, b3, b4, b5, b6, b7, b8, b9⟩ := merge_rule_frame r.style s
      exact ⟨a1.trans b1, a2.trans b2, a3.trans b3, a4.trans b4, a5.trans b5, a6.trans b6,
        a7.trans b7, a8.trans b8, a9.trans b9⟩
    · exact ih s

/-- C29. For every store, tag, class and style, `get_style_for` leaves the
foreground colour, the font scale, the margin, the display kind, the
whitespace mode and the flags bold, italic, underline and strike as they
were; a `color` declaration is parsed into the rule's foreground, and a
store made of such a rule still leaves the foreground of every style alone. -/
theorem get_style_for_keeps_unmerged (str2int : List Char → Int → Int)
    (rules : List css_rule) (tag cls : Option (List Char)) (s : render_style)
    (sel val : List Char) :
    same_unmerged (get_style_for rules tag cls s) s
    ∧ (apply_declaration str2int "color".toList val init_style).fg = parse_css_color val
    ∧ (get_style_for [⟨sel, apply_declaration str2int "color".toList val init_style⟩]
        tag cls s).fg = s.fg :=
  ⟨get_style_for_frame rules tag cls s, rfl, (get_style_for_frame _ tag cls s).1⟩

/-! ### Exact property names -/

theorem padded_name_not_recognised (p : List Char) (h : padded_name p) :
    declaration_target p = none := by
  cases ht : declaration_target p with
  | none => rfl
  | some f =>
    have hp := declaration_target_some p f ht
    rw [hp] at h
    exact absurd h (by cases f <;> decide)

theorem parse_css_segment_recognised (str2int : List Char → Int → Int) (seg : List Char)
    (s : render_style) (h : parse_css_segment str2int seg s ≠ s) :
    ∃ f, seg.takeWhile (fun c => decide (c ≠ ':')) = field_name f := by
  unfold parse_css_segment at h
  split at h
  · exact absurd rfl h
  · cases ht : declaration_target (seg.takeWhile (fun c => decide (c ≠ ':'))) with
    | none => exact absurd (declaration_target_none str2int _ _ s ht) h
    | some f => exact ⟨f, declaration_target_some _ f ht⟩

theorem parse_css_segment_padded (str2int : List Char → Int → Int) (seg : List Char)
    (s : render_style) (h : padded_name (seg.takeWhile (fun c => decide (c ≠ ':')))) :
    parse_css_segment str2int seg s = s := by
  unfold parse_css_segment
  split
  · rfl
  · exact declaration_target_none str2int _ _ s (padded_name_not_recognised _ h)

/-- C30. A segment of a block changes the style only when the text from its
start to the first `:` is exactly one of the property names; a segment whose
property text is padded (a space, newline or tab before the name, or a space
before the `:`) leaves the style as it was; a block that begins with a space,
a newline or a tab goes on after its first `;` with the style unchanged; and
the block ` width: 50; ` leaves every style unchanged. -/
theorem declaration_needs_exact_name (str2int : List Char → Int → Int) (seg rest : List Char)
    (fuel : Nat) (s : render_style) :
    (parse_css_segment str2int seg s ≠ s →
      ∃ f, seg.takeWhile (fun c => decide (c ≠ ':')) = field_name f)
    ∧ (padded_name (seg.takeWhile (fun c => decide (c ≠ ':'))) →
        parse_css_segment str2int seg s = s)
    ∧ (∀ c : Char, c = ' ' ∨ c = '\n' ∨ c = '\t' →
        parse_css_block_loop str2int (fuel + 1) (c :: rest) s =
          match (c :: rest).dropWhile (fun c => decide (c ≠ ';')) with
          | [] => some s
          | _ :: after_end =>
              parse_css_block_loop str2int fuel
                (after_end.dropWhile (fun c => decide (c = ' '))) s)
    ∧ parse_css_block str2int " width: 50; ".toList s = s
    ∧ parse_css_block str2int "width : 50".toList s = s
    ∧ parse_css_block str2int "color:red;\nwidth: 50".toList s
        = { s with fg := ⟨255, 0, 0, 0⟩ } := by
  refine ⟨parse_css_segment_recognised str2int seg s, parse_css_segment_padded str2int seg s,
    ?_, rfl, rfl, rfl⟩
  intro c hc
  have hpad : padded_name (((c :: rest).takeWhile (fun c => decide (c ≠ ';'))).takeWhile
      (fun c => decide (c ≠ ':'))) := by
    rcases hc with hc | hc | hc
    · subst hc; exact Or.inl (by simp [List.takeWhile])
    · subst hc; exact Or.inr (Or.inl (by simp [List.takeWhile]))
    · subst hc; exact Or.inr (Or.inr (Or.inl (by simp [List.takeWhile])))
  rw [parse_css_block_loop_cons str2int fuel (c :: rest) s (by simp),
    parse_css_segment_padded str2int _ s hpad]

/-! ### The store at the start of a traversal -/

/-- C25. The traversal does not depend on the store it is entered with: the
old rules are freed first, so the result is the one from the empty store, and
a second traversal entered with the store that the first one left gives the
same result again. -/
theorem render_html_store_reset (env : render_env) (doc : List Char) (rules : List css_rule)
    (scroll_y execute_js draw : Int) :
    render_html env doc rules scroll_y execute_js draw
      = render_html env doc [] scroll_y execute_js draw
    ∧ (render_init env rules scroll_y draw).css_rules = []
    ∧ ∀ r, render_html env doc rules scroll_y execute_js draw = some r →
        render_html env doc r.css_rules scroll_y execute_js draw = some r := by
  have h : ∀ rs : List css_rule, render_html env doc rs scroll_y execute_js draw
      = render_html env doc [] scroll_y execute_js draw := by
    intro rs
    unfold render_html render_init
    rw [free_rules_nil rs, free_rules_nil []]
  exact ⟨h rules, free_rules_nil rules, fun r hr => by rw [h r.css_rules, ← h rules, hr]⟩

/-! ### Size and position of a new node -/

theorem ite_pair_box (c : Prop) [Decidable c] (n : dom_node) (l : List gfx_call)
    (r : dom_node × List gfx_call)
    (h : n.w = r.1.w ∧ n.h = r.1.h ∧ n.style = r.1.style) :
    (if c then (n, l) else r).1.w = r.1.w
    ∧ (if c then (n, l) else r).1.h = r.1.h
    ∧ (if c then (n, l) else r).1.style = r.1.style := by
  split_ifs
  · exact h
  · exact ⟨rfl, rfl, rfl⟩

/-- The widget placeholders move the cursor of the node only: size and style
stay. -/
theorem tag_visuals_box (screen_w draw : Int) (tag : List Char) (node : dom_node) :
    (tag_visuals screen_w draw tag node).1.w = node.w
    ∧ (tag_visuals screen_w draw tag node).1.h = node.h
    ∧ (tag_visuals screen_w draw tag node).1.style = node.style := by
  unfold tag_visuals
  lift_lets
  extract_lets r0 a1 r1 a2 r2 a3 r3 a4 r4 w h a5 r5 a6 r6 a7 r7
  have e1 : r1.1.w = r0.1.w ∧ r1.1.h = r0.1.h ∧ r1.1.style = r0.1.style :=
    ite_pair_box _ _ _ _ ⟨rfl, rfl, rfl⟩
  have e2 : r2.1.w = r1.1.w ∧ r2.1.h = r1.1.h ∧ r2.1.style = r1.1.style :=
    ite_pair_box _ _ _ _ ⟨rfl, rfl, rfl⟩
  have e3 : r3.1.w = r2.1.w ∧ r3.1.h = r2.1.h ∧ r3.1.style = r2.1.style :=
    ite_pair_box _ _ _ _ ⟨rfl, rfl, rfl⟩
  have e4 : r4.1.w = r3.1.w ∧ r4.1.h = r3.1.h ∧ r4.1.style = r3.1.style :=
    ite_pair_box _ _ _ _ ⟨rfl, rfl, rfl⟩
  have e5 : r5.1.w = r4.1.w ∧ r5.1.h = r4.1.h ∧ r5.1.style = r4.1.style :=
    ite_pair_box _ _ _ _ ⟨rfl, rfl, rfl⟩
  have e6 : r6.1.w = r5.1.w ∧ r6.1.h = r5.1.h ∧ r6.1.style = r5.1.style :=
    ite_pair_box _ _ _ _ ⟨rfl, rfl, rfl⟩
  have e7 : r7.1.w = r6.1.w ∧ r7.1.h = r6.1.h ∧ r7.1.style = r6.1.style :=
    ite_pair_box _ _ _ _ ⟨rfl, rfl, rfl⟩
  exact ⟨e7.1.trans (e6.1.trans (e5.1.trans (e4.1.trans (e3.1.trans (e2.1.trans e1.1))))),
    e7.2.1.trans (e6.2.1.trans (e5.2.1.trans (e4.2.1.trans (e3.2.1.trans (e2.2.1.trans e1.2.1))))),
    e7.2.2.trans (e6.2.2.trans (e5.2.2.trans (e4.2.2.trans (e3.2.2.trans
      (e2.2.2.trans e1.2.2)))))⟩

/-- For a tag without a placeholder the node is left as it is and nothing is
drawn. -/
theorem tag_visuals_plain (screen_w draw : Int) (tag : List Char) (node : dom_node)
    (h : tag_in tag widget_tags = false) :
    tag_visuals screen_w draw tag node = (node, []) := by
  simp only [tag_in, widget_tags, List.any_cons, List.any_nil, Bool.or_false, Bool.or_eq_false_iff,
    decide_eq_false_iff_not] at h
  obtain ⟨h1, h2, h3, h4, h5, h6, h7, h8, h9, h10, h11, h12, h13⟩ := h
  have k1 : tag_in tag ["hr"] = false := by
    simp only [tag_in, List.any_cons, List.any_nil, Bool.or_false, decide_eq_false_iff_not]
    exact h1
  have k2 : tag_in tag ["button"] = false := by
    simp only [tag_in, List.any_cons, List.any_nil, Bool.or_false, decide_eq_false_iff_not]
    exact h2
  have k3 : tag_in tag ["input", "select", "textarea"] = false := by
    simp only [tag_in, List.any_cons, List.any_nil, Bool.or_false, Bool.or_eq_false_iff,
      decide_eq_false_iff_not]
    exact ⟨h3, h4, h5⟩
  have k4 : tag_in tag ["progress", "meter"] = false := by
    simp only [tag_in, List.any_cons, List.any_nil, Bool.or_false, Bool.or_eq_false_iff,
      decide_eq_false_iff_not]
    exact ⟨h6, h7⟩
  have k5 : tag_in tag ["img", "video", "canvas", "iframe"] = false := by
    simp only [tag_in, List.any_cons, List.any_nil, Bool.or_false, Bool.or_eq_false_iff,
      decide_eq_false_iff_not]
    exact ⟨h8, h9, h10, h11⟩
  have k6 : tag_in tag ["li"] = false := by
    simp only [tag_in, List.any_cons, List.any_nil, Bool.or_false, decide_eq_false_iff_not]
    exact h12
  have k7 : tag_in tag ["blockquote"] = false := by
    simp only [tag_in, List.any_cons, List.any_nil, Bool.or_false, decide_eq_false_iff_not]
    exact h13
  unfold tag_visuals
  simp only [k1, k2, k3, k4, k5, k6, k7, Bool.false_eq_true, if_false]

theorem show_node_stack (env : render_env) (draw : Int) (tag : List Char) (sp : Nat)
    (node : dom_node) (st : render_state) :
    (show_node env draw tag sp node st).stack
      = set_node st.stack sp (tag_visuals env.screen_w draw tag node).1 := by
  unfold show_node
  simp only [interaction_check_stack]
  split_ifs <;> rfl

/-- The stack entry of the new node after the opening-tag branch: the placed
node, with its cursor moved by a placeholder unless the node is hidden. -/
theorem open_node_top (env : render_env) (draw : Int) (tag p : List Char)
    (st : render_state) :
    (open_node env draw tag p st).stack (st.sp + 1)
      = if (place_node env tag p (st.sp + 1) st).node.style.display = 2
          then (place_node env tag p (st.sp + 1) st).node
          else (tag_visuals env.screen_w draw tag (place_node env tag p (st.sp + 1) st).node).1 := by
  unfold open_node
  simp only []
  split_ifs with hd
  · simp only [set_node, if_true]
  · simp only [show_node_top]

/-- The stack entry below the new node after the opening-tag branch: the
parent as `place_node` leaves it. -/
theorem open_node_below (env : render_env) (draw : Int) (tag p : List Char)
    (st : render_state) :
    (open_node env draw tag p st).stack st.sp
      = (place_node env tag p (st.sp + 1) st).parent := by
  have hne : st.sp ≠ st.sp + 1 := by omega
  unfold open_node
  simp only []
  split_ifs with hd
  · simp only [set_node, if_neg hne, Nat.add_sub_cancel, if_true]
  · simp only [show_node_stack, set_node, if_neg hne, Nat.add_sub_cancel, if_true]

theorem open_node_sp (env : render_env) (draw : Int) (tag p : List Char)
    (st : render_state) : (open_node env draw tag p st).sp = st.sp + 1 := by
  unfold open_node
  simp only []
  split_ifs with hd
  · rfl
  · unfold show_node interaction_check
    simp only []
    split_ifs <;> rfl

/-- Size, style and texts of the final stack entry are those of the placed
node. -/
theorem open_node_top_box (env : render_env) (draw : Int) (tag p : List Char)
    (st : render_state) :
    ((open_node env draw tag p st).stack (st.sp + 1)).w
        = (place_node env tag p (st.sp + 1) st).node.w
    ∧ ((open_node env draw tag p st).stack (st.sp + 1)).h
        = (place_node env tag p (st.sp + 1) st).node.h
    ∧ ((open_node env draw tag p st).stack (st.sp + 1)).style
        = (place_node env tag p (st.sp + 1) st).node.style := by
  rw [open_node_top]
  split_ifs
  · exact ⟨rfl, rfl, rfl⟩
  · exact tag_visuals_box _ _ _ _

theorem layout_position_box (parent node : dom_node) :
    (layout_position parent node).w = node.w
    ∧ (layout_position parent node).h = node.h
    ∧ (layout_position parent node).style = node.style := by
  unfold layout_position
  simp only []
  split_ifs <;> exact ⟨rfl, rfl, rfl⟩

theorem layout_size_box (screen_h : Int) (parent node : dom_node) :
    (layout_size screen_h parent node).h
        = (if node.style.height = -1 then screen_h
           else if node.style.height > 0 then node.style.height else parent.h)
    ∧ (layout_size screen_h parent node).w
        = (if node.style.width > 0 then node.style.width else parent.w) := by
  unfold layout_size
  simp only []
  split_ifs <;> exact ⟨rfl, rfl⟩

/-- The placed node and the parent entry in terms of the style the node
ends with. -/
theorem place_node_layout (env : render_env) (tag p : List Char) (k : Nat)
    (st : render_state) :
    ∃ (cls : Option (List Char)) (n0 : dom_node),
      (place_node env tag p (k + 1) st).node.style
        = get_style_for st.css_rules (some tag) cls
            (tag_defaults tag (inherit_style (st.stack k).style))
      ∧ n0.style = (place_node env tag p (k + 1) st).node.style
      ∧ (place_node env tag p (k + 1) st).parent
        = (if (place_node env tag p (k + 1) st).node.style.display = 1
            then line_break (st.stack k) else st.stack k)
      ∧ (place_node env tag p (k + 1) st).node
        = layout_position (place_node env tag p (k + 1) st).parent
            (layout_size env.screen_h (st.stack k) n0) := by
  obtain ⟨attrs, ha⟩ := scan_attrs_some (p.length + 1) p [] [] (Nat.lt_succ_self _)
  have hp := place_node_eq env tag p (k + 1) st attrs _ (Nat.succ_pos _) ha rfl
  simp only [Nat.add_sub_cancel] at hp
  have hs : (place_node env tag p (k + 1) st).node.style
      = get_style_for st.css_rules (some tag) (if attrs.cls ≠ [] then some attrs.cls else none)
          (tag_defaults tag (inherit_style (st.stack k).style)) := by
    rw [hp]
    simp only [(layout_position_box _ _).2.2, layout_size_style]
  refine ⟨_, { st.stack (k + 1) with
      tag := stored_tag tag attrs.cls, cls := attrs.cls, onclick := attrs.onclick,
      style := get_style_for st.css_rules (some tag)
        (if attrs.cls ≠ [] then some attrs.cls else none)
        (tag_defaults tag (inherit_style (st.stack k).style)) }, hs, hs.symm, ?_, ?_⟩
  · rw [hs, hp]
  · rw [hp]

/-- C21. The box of a new node, in terms of the style it ends with (the
cascade applied to the tag defaults over the inherited style) and of the
entry below it on the stack: the height is the screen height for the style
height -1, the style height if that is positive, the parent's height
otherwise; the width is the style width if positive, the parent's otherwise. -/
theorem node_box_size (env : render_env) (draw : Int) (tag p : List Char)
    (st : render_state) :
    (new_entry env draw tag p st).h
      = (if (new_entry env draw tag p st).style.height = -1 then env.screen_h
         else if (new_entry env draw tag p st).style.height > 0
           then (new_entry env draw tag p st).style.height
         else (st.stack st.sp).h)
    ∧ (new_entry env draw tag p st).w
      = (if (new_entry env draw tag p st).style.width > 0
           then (new_entry env draw tag p st).style.width
         else (st.stack st.sp).w)
    ∧ ∃ cls, (new_entry env draw tag p st).style
        = get_style_for st.css_rules (some tag) cls
            (tag_defaults tag (inherit_style (st.stack st.sp).style)) := by
  obtain ⟨cls, n0, hs, hn0, _, hnode⟩ := place_node_layout env tag p st.sp st
  obtain ⟨bw, bh, bs⟩ := open_node_top_box env draw tag p st
  unfold new_entry
  rw [bw, bh, bs]
  refine ⟨?_, ?_, cls, hs⟩
  · rw [← hn0]
    exact (congrArg dom_node.h hnode).trans
      ((layout_position_box _ _).2.1.trans (layout_size_box _ _ _).1)
  · rw [← hn0]
    exact (congrArg dom_node.w hnode).trans
      ((layout_position_box _ _).1.trans (layout_size_box _ _ _).2)

theorem layout_position_xy (parent node : dom_node) :
    (node.style.position_absolute ≠ 0 →
      (layout_position parent node).x
        = wrap32 (parent.x + parent.w - node.style.right - node.w)
      ∧ (layout_position parent node).y = wrap32 (parent.y + node.style.top))
    ∧ (node.style.position_absolute = 0 →
      (layout_position parent node).x
        = (if parent.style.display_flex ≠ 0 ∧ parent.style.justify_center ≠ 0
            then wrap32 (parent.x + Int.tdiv (wrap32 (parent.w - node.w)) 2)
            else wrap32 (parent.x + node.style.margin))
      ∧ (layout_position parent node).y
        = (if parent.style.display_flex ≠ 0 ∧ parent.style.align_center ≠ 0
            then wrap32 (parent.y + Int.tdiv (wrap32 (parent.h - node.h)) 2)
            else wrap32 (parent.y + node.style.margin))) := by
  unfold layout_position
  constructor
  · intro h
    rw [if_pos h]
    exact ⟨rfl, rfl⟩
  · intro h
    rw [if_neg (by simpa using h)]
    simp only []
    split_ifs <;> exact ⟨rfl, rfl⟩

/-- The position of the placed node, in `int` arithmetic, with the entry
below it after the line break of a block start. -/
theorem place_node_position (env : render_env) (draw : Int) (tag p : List Char)
    (st : render_state) :
    ((placed_entry env tag p st).w = (new_entry env draw tag p st).w
      ∧ (placed_entry env tag p st).h = (new_entry env draw tag p st).h
      ∧ (placed_entry env tag p st).style = (new_entry env draw tag p st).style)
    ∧ parent_entry env draw tag p st
        = (if (placed_entry env tag p st).style.display = 1 then line_break (st.stack st.sp)
           else st.stack st.sp)
    ∧ ((placed_entry env tag p st).style.position_absolute ≠ 0 →
        (placed_entry env tag p st).x
          = wrap32 ((parent_entry env draw tag p st).x + (parent_entry env draw tag p st).w
              - (placed_entry env tag p st).style.right - (placed_entry env tag p st).w)
        ∧ (placed_entry env tag p st).y
          = wrap32 ((parent_entry env draw tag p st).y + (placed_entry env tag p st).style.top))
    ∧ ((placed_entry env tag p st).style.position_absolute = 0 →
        (placed_entry env tag p st).x
          = (if (parent_entry env draw tag p st).style.display_flex ≠ 0
                ∧ (parent_entry env draw tag p st).style.justify_center ≠ 0
              then wrap32 ((parent_entry env draw tag p st).x
                + Int.tdiv (wrap32 ((parent_entry env draw tag p st).w
                    - (placed_entry env tag p st).w)) 2)
              else wrap32 ((parent_entry env draw tag p st).x
                + (placed_entry env tag p st).style.margin))
        ∧ (placed_entry env tag p st).y
          = (if (parent_entry env draw tag p st).style.display_flex ≠ 0
                ∧ (parent_entry env draw tag p st).style.align_center ≠ 0
              then wrap32 ((parent_entry env draw tag p st).y
                + Int.tdiv (wrap32 ((parent_entry env draw tag p st).h
                    - (placed_entry env tag p st).h)) 2)
              else wrap32 ((parent_entry env draw tag p st).y
                + (placed_entry env tag p st).style.margin)))
    ∧ ((placed_entry env tag p st).style.display = 2 ∨ tag_in tag widget_tags = false →
        new_entry env draw tag p st = placed_entry env tag p st) := by
  obtain ⟨cls, n0, hs, hn0, hpar, hnode⟩ := place_node_layout env tag p st.sp st
  obtain ⟨bw, bh, bs⟩ := open_node_top_box env draw tag p st
  have hbelow := open_node_below env draw tag p st
  obtain ⟨pw, ph, ps⟩ := layout_position_box (place_node env tag p (st.sp + 1) st).parent
    (layout_size env.screen_h (st.stack st.sp) n0)
  obtain ⟨habs, hflow⟩ := layout_position_xy (place_node env tag p (st.sp + 1) st).parent
    (layout_size env.screen_h (st.stack st.sp) n0)
  rw [← hnode] at pw ph ps habs hflow
  rw [← ps, ← pw] at habs
  rw [← ps, ← pw, ← ph] at hflow
  unfold placed_entry parent_entry new_entry
  rw [hbelow]
  refine ⟨⟨bw.symm, bh.symm, bs.symm⟩, hpar, habs, hflow, ?_⟩
  intro h
  rw [open_node_top]
  rcases h with h | h
  · rw [if_pos h]
  · rw [tag_visuals_plain _ _ _ _ h]
    split_ifs <;> rfl

set_option maxRecDepth 100000 in
/-- C22 as stated fails on the code. In `far_right_doc`, on a surface of 1024
by 768, the `div` is absolutely positioned with `right` and width 2147483647
under the window (0, 0, 1024, 768), a parent that is not moved by the line
break. The claim gives `x = 0 + 1024 - 2147483647 - 2147483647`, which is
-4294966270; the node is opened at `x = 1026`, the value that the 32-bit `int`
of the code holds. -/
theorem node_position_counterexample :
    (render_html (sample_env 0 0 0) far_right_doc [] 0 0 0).map
        (fun r => r.opened.map (fun e => (e.node.style.position_absolute, e.node.style.right)))
      = some [(1, 2147483647)]
    ∧ (render_html (sample_env 0 0 0) far_right_doc [] 0 0 0).map
        (fun r => r.opened.map (fun e => (e.node.x, e.node.y, e.node.w, e.node.h)))
      = some [(1026, 0, 2147483647, 768)]
    ∧ (render_html (sample_env 0 0 0) far_right_doc [] 0 0 0).map
        (fun r => ((r.stack 0).x, (r.stack 0).y, (r.stack 0).w, (r.stack 0).h))
      = some (0, 0, 1024, 768)
    ∧ (0 : Int) + 1024 - 2147483647 - 2147483647 = -4294966270
    ∧ wrap32 (0 + 1024 - 2147483647 - 2147483647) = 1026 := by
  refine ⟨by decide, by decide, by decide, by decide, by decide⟩

/-- C22, amended. The position of a new node as line 548 leaves it, with
`par` the entry below it after the line break of a block start: for an
absolute node `x = par.x + par.w - right - w` and `y = par.y + top`; otherwise
`x` is `par.x + (par.w - w) / 2` under a flex parent with justify-center and
`par.x + margin` if not, and `y` is `par.y + (par.h - h) / 2` under a flex
parent with align-center and `par.y + margin` if not, the division truncating
toward zero: each of them with the sums and differences as the 32-bit `int`
of the code holds them (first part), and as written whenever the sums and
differences of the case at hand fit in 32 bits (second part). Size and style
are those of the final entry, and the final entry is this node for a hidden
node and for a tag without a placeholder. -/
theorem node_position (env : render_env) (draw : Int) (tag p : List Char)
    (st : render_state) :
    let node := placed_entry env tag p st
    let par := parent_entry env draw tag p st
    ((node.w = (new_entry env draw tag p st).w ∧ node.h = (new_entry env draw tag p st).h
        ∧ node.style = (new_entry env draw tag p st).style)
      ∧ par = (if node.style.display = 1 then line_break (st.stack st.sp) else st.stack st.sp)
      ∧ (node.style.position_absolute ≠ 0 →
          node.x = wrap32 (par.x + par.w - node.style.right - node.w)
          ∧ node.y = wrap32 (par.y + node.style.top))
      ∧ (node.style.position_absolute = 0 →
          node.x = (if par.style.display_flex ≠ 0 ∧ par.style.justify_center ≠ 0
                then wrap32 (par.x + Int.tdiv (wrap32 (par.w - node.w)) 2)
                else wrap32 (par.x + node.style.margin))
          ∧ node.y = (if par.style.display_flex ≠ 0 ∧ par.style.align_center ≠ 0
                then wrap32 (par.y + Int.tdiv (wrap32 (par.h - node.h)) 2)
                else wrap32 (par.y + node.style.margin)))
      ∧ (node.style.display = 2 ∨ tag_in tag widget_tags = false →
          new_entry env draw tag p st = node))
    ∧ ((node.style.position_absolute ≠ 0 →
          (fits32 (par.x + par.w - node.style.right - node.w) →
            node.x = par.x + par.w - node.style.right - node.w)
          ∧ (fits32 (par.y + node.style.top) → node.y = par.y + node.style.top))
      ∧ (node.style.position_absolute = 0 →
          (par.style.display_flex ≠ 0 ∧ par.style.justify_center ≠ 0 →
            fits32 (par.w - node.w) → fits32 (par.x + Int.tdiv (par.w - node.w) 2) →
            node.x = par.x + Int.tdiv (par.w - node.w) 2)
          ∧ (¬ (par.style.display_flex ≠ 0 ∧ par.style.justify_center ≠ 0) →
            fits32 (par.x + node.style.margin) → node.x = par.x + node.style.margin)
          ∧ (par.style.display_flex ≠ 0 ∧ par.style.align_center ≠ 0 →
            fits32 (par.h - node.h) → fits32 (par.y + Int.tdiv (par.h - node.h) 2) →
            node.y = par.y + Int.tdiv (par.h - node.h) 2)
          ∧ (¬ (par.style.display_flex ≠ 0 ∧ par.style.align_center ≠ 0) →
            fits32 (par.y + node.style.margin) → node.y = par.y + node.style.margin))) := by
  intro node par
  obtain ⟨hbox, hpar, habs, hflow, hfinal⟩ := place_node_position env draw tag p st
  refine ⟨⟨hbox, hpar, habs, hflow, hfinal⟩, ?_, ?_⟩
  · intro ha
    obtain ⟨hx, hy⟩ := habs ha
    exact ⟨fun f => hx.trans (wrap32_of_fits _ f), fun f => hy.trans (wrap32_of_fits _ f)⟩
  · intro ha
    obtain ⟨hx, hy⟩ := hflow ha
    refine ⟨?_, ?_, ?_, ?_⟩
    · intro hc f1 f2
      rw [hx, if_pos hc, wrap32_of_fits _ f1, wrap32_of_fits _ f2]
    · intro hc f
      rw [hx, if_neg hc, wrap32_of_fits _ f]
    · intro hc f1 f2
      rw [hy, if_pos hc, wrap32_of_fits _ f1, wrap32_of_fits _ f2]
    · intro hc f
      rw [hy, if_neg hc, wrap32_of_fits _ f]

set_option maxRecDepth 100000 in
/-- The amended position rule on `<p>` opened under the window of a surface
of 1024 by 768: the node is not absolute, the window is not a flex container,
`0 + 0` fits in 32 bits, and the node is placed at (0, 0). -/
theorem node_position_sample :
    fits32 (0 + 0)
    ∧ (placed_entry (sample_env 0 0 0) "p".toList ">".toList
        (render_init (sample_env 0 0 0) [] 0 0)).x = 0 + 0 := by
  refine ⟨by decide, ?_⟩
  exact ((node_position (sample_env 0 0 0) 0 "p".toList ">".toList
    (render_init (sample_env 0 0 0) [] 0 0)).2.2 (by decide)).2.1 (by decide) (by decide)

theorem style_script_tag_stack (env : render_env) (execute_js : Int) (tag : List Char)
    (closing : Bool) (st : render_state) :
    (style_script_tag env execute_js tag closing st).stack = st.stack
    ∧ (style_script_tag env execute_js tag closing st).sp = st.sp := by
  unfold style_script_tag
  split_ifs <;> exact ⟨rfl, rfl⟩

theorem close_node_stack (st : render_state) :
    (close_node st).sp = (if st.sp > 0 then st.sp - 1 else st.sp)
    ∧ (close_node st).stack
      = (if (st.stack ((if st.sp > 0 then st.sp - 1 else st.sp) + 1)).style.display = 1
          then set_node st.stack (if st.sp > 0 then st.sp - 1 else st.sp)
            (line_break (st.stack (if st.sp > 0 then st.sp - 1 else st.sp)))
          else st.stack) := by
  unfold close_node
  simp only []
  split_ifs <;> exact ⟨rfl, rfl⟩

theorem tag_body_close_stack (env : render_env) (execute_js draw : Int) (tag p : List Char)
    (st : render_state) (hsp : 0 < st.sp) :
    (tag_body env execute_js draw true tag p st).sp = st.sp - 1
    ∧ (tag_body env execute_js draw true tag p st).stack (st.sp - 1)
      = (if (st.stack st.sp).style.display = 1 then line_break (st.stack (st.sp - 1))
         else st.stack (st.sp - 1)) := by
  obtain ⟨k, hk⟩ : ∃ k, st.sp = k + 1 := ⟨st.sp - 1, by omega⟩
  have hb : tag_body env execute_js draw true tag p st
      = close_node (style_script_tag env execute_js tag true st) := by
    unfold tag_body
    simp only [if_true]
  obtain ⟨h1, h2⟩ := style_script_tag_stack env execute_js tag true st
  obtain ⟨c1, c2⟩ := close_node_stack (style_script_tag env execute_js tag true st)
  rw [hb, c1, c2, h1, h2, hk]
  simp only [Nat.succ_pos, gt_iff_lt, if_true, Nat.add_sub_cancel]
  split_ifs <;> simp [set_node]

set_option maxRecDepth 100000 in
/-- C28 as stated fails on the code. In `far_down_doc`, on a surface of 1024
by 768, the `div` has the flow cursor (24, 2147483640) after its text `abc`.
Opening the block-level `p` inside it should move that cursor to
`(20, 2147483640 + 16)`; the code leaves it at (20, -2147483640), the value
that its 32-bit `int` holds for `y + 16`. -/
theorem block_line_break_counterexample :
    (render_html (sample_env 0 0 0) far_down_doc [] 0 0 0).map
        (fun r => (r.sp, (r.stack 1).x, (r.stack 1).y)) = some (1, 24, 2147483640)
    ∧ (render_html (sample_env 0 0 0) (far_down_doc ++ "<p>".toList) [] 0 0 0).map
        (fun r => (r.sp, (r.stack 2).style.display, (r.stack 1).x, (r.stack 1).y))
      = some (2, 1, 20, -2147483640)
    ∧ (2147483640 : Int) + 16 = 2147483656
    ∧ line_break { blank_node with x := 24, y := 2147483640 }
      = { blank_node with x := 20, y := -2147483640 } := by
  refine ⟨by decide, by decide, by decide, by decide⟩

/-- C28, amended. The line break of a flow cursor turns `(x, y)` into
`(20, y + 16)` if `x > 20` and keeps it otherwise, with `y + 16` as the 32-bit
`int` of the code holds it, which is `y + 16` as written whenever that fits in
32 bits. Opening a node leaves the entry below it with the line break when the
node is block-level and unchanged when it is not; a closing tag met with a
node on the stack pops it and does the same to the entry that becomes the
top, according to the display kind of the popped entry. -/
theorem block_line_break (env : render_env) (execute_js draw : Int) (tag p : List Char)
    (st : render_state) (m : dom_node) :
    line_break m = (if m.x > 20 then { m with x := 20, y := wrap32 (m.y + 16) } else m)
    ∧ (fits32 (m.y + 16) →
        line_break m = (if m.x > 20 then { m with x := 20, y := m.y + 16 } else m))
    ∧ parent_entry env draw tag p st
        = (if (new_entry env draw tag p st).style.display = 1 then line_break (st.stack st.sp)
           else st.stack st.sp)
    ∧ (0 < st.sp →
        (tag_body env execute_js draw true tag p st).sp = st.sp - 1
        ∧ (tag_body env execute_js draw true tag p st).stack (st.sp - 1)
          = (if (st.stack st.sp).style.display = 1 then line_break (st.stack (st.sp - 1))
             else st.stack (st.sp - 1))) := by
  refine ⟨rfl, ?_, ?_, tag_body_close_stack env execute_js draw tag p st⟩
  · intro f
    unfold line_break
    rw [wrap32_of_fits _ f]
  · obtain ⟨_, _, _, _, hpar, _⟩ := place_node_layout env tag p st.sp st
    unfold parent_entry new_entry
    rw [open_node_below, (open_node_top_box env draw tag p st).2.2]
    exact hpar

/-- The amended line break on the cursor (24, 0): `0 + 16` fits in 32 bits and
the cursor becomes (20, 16). -/
theorem block_line_break_sample :
    fits32 (0 + 16)
    ∧ line_break { blank_node with x := 24, y := 0 }
      = (if (24 : Int) > 20 then { blank_node with x := 20, y := 0 + 16 }
         else { blank_node with x := 24, y := 0 }) :=
  ⟨by decide,
    (block_line_break (sample_env 0 0 0) 0 0 [] [] (render_init (sample_env 0 0 0) [] 0 0)
      { blank_node with x := 24, y := 0 }).2.1 (by decide)⟩

/-! ### Inherited text style -/

/-- The result of `tag_defaults`, field by field; `d` is the display kind. -/
theorem tag_defaults_eq (tag : List Char) (s : render_style) :
    ∃ d : Int, tag_defaults tag s =
      { s with
        display := d,
        white_space := if tag_in tag ["pre"] then 1 else s.white_space,
        bold := if tag_in tag ["b", "strong", "h1", "h2", "h3", "th"] then 1 else s.bold,
        italic := if tag_in tag ["i", "em", "cite", "dfn", "var", "address"] then 1
          else s.italic,
        underline := if tag_in tag ["u", "ins"] then 1 else s.underline,
        strike := if tag_in tag ["s", "del", "strike"] then 1 else s.strike } := by
  unfold tag_defaults
  lift_lets
  extract_lets l1 l2 l3 l4 l5 l6 y s1 s2 s3 s4 s5 s6
  have e1 : ∃ d : Int, s1 = { s with display := d } := by
    by_cases c1 : tag_in tag ["head", "script", "style", "meta", "link", "title", "template"]
        = true
    · exact ⟨2, if_pos c1⟩
    · by_cases c2 : tag_in tag ("div" :: "p" :: "h1" :: "h2" :: y) = true
      · exact ⟨1, (if_neg c1).trans (if_pos c2)⟩
      · by_cases c3 : tag_in tag ["img", "video", "audio", "canvas", "iframe", "embed", "object",
            "input", "button", "select", "textarea", "progress", "meter"] = true
        · exact ⟨3, (if_neg c1).trans ((if_neg c2).trans (if_pos c3))⟩
        · exact ⟨s.display, (if_neg c1).trans ((if_neg c2).trans (if_neg c3))⟩
  have e2 : s2 = { s1 with white_space := if tag_in tag ["pre"] then 1 else s1.white_space } := by
    show (if _ then _ else _) = _
    split_ifs <;> rfl
  have e3 : s3 = { s2 with
      bold := if tag_in tag ["b", "strong", "h1", "h2", "h3", "th"] then 1 else s2.bold } := by
    show (if _ then _ else _) = _
    split_ifs <;> rfl
  have e4 : s4 = { s3 with
      italic := if tag_in tag ["i", "em", "cite", "dfn", "var", "address"] then 1
        else s3.italic } := by
    show (if _ then _ else _) = _
    split_ifs <;> rfl
  have e5 : s5 = { s4 with underline := if tag_in tag ["u", "ins"] then 1 else s4.underline } := by
    show (if _ then _ else _) = _
    split_ifs <;> rfl
  have e6 : s6 = { s5 with
      strike := if tag_in tag ["s", "del", "strike"] then 1 else s5.strike } := by
    show (if _ then _ else _) = _
    split_ifs <;> rfl
  obtain ⟨d, hd⟩ := e1
  refine ⟨d, ?_⟩
  rw [e6, e5, e4, e3, e2, hd]

/-- The text style of a new node from the one of the entry below it on the
stack: each decoration flag is 1 for a tag of its list and the parent's
otherwise, the whitespace mode is 1 for `pre` and the parent's otherwise,
and the foreground is the parent's. -/
theorem open_node_text_style (env : render_env) (draw : Int) (tag p : List Char)
    (st : render_state) :
    (new_entry env draw tag p st).style.bold
      = (if tag_in tag ["b", "strong", "h1", "h2", "h3", "th"] then 1
         else (st.stack st.sp).style.bold)
    ∧ (new_entry env draw tag p st).style.italic
      = (if tag_in tag ["i", "em", "cite", "dfn", "var", "address"] then 1
         else (st.stack st.sp).style.italic)
    ∧ (new_entry env draw tag p st).style.underline
      = (if tag_in tag ["u", "ins"] then 1 else (st.stack st.sp).style.underline)
    ∧ (new_entry env draw tag p st).style.strike
      = (if tag_in tag ["s", "del", "strike"] then 1 else (st.stack st.sp).style.strike)
    ∧ (new_entry env draw tag p st).style.white_space
      = (if tag_in tag ["pre"] then 1 else (st.stack st.sp).style.white_space)
    ∧ (new_entry env draw tag p st).style.fg = (st.stack st.sp).style.fg := by
  obtain ⟨cls, _, hs, _, _, _⟩ := place_node_layout env tag p st.sp st
  obtain ⟨f1, _, _, _, f5, f6, f7, f8, f9⟩ := get_style_for_frame st.css_rules (some tag) cls
    (tag_defaults tag (inherit_style (st.stack st.sp).style))
  obtain ⟨d, hd⟩ := tag_defaults_eq tag (inherit_style (st.stack st.sp).style)
  unfold new_entry
  rw [(open_node_top_box env draw tag p st).2.2, hs, f1, f5, f6, f7, f8, f9, hd]
  exact ⟨rfl, rfl, rfl, rfl, rfl, rfl⟩

/-- C27. A new node takes its text style from the entry below it on the
stack (flags of its tag set, the others and the foreground copied), but that
entry need not be the enclosing element: in `<b><style></style><i>x</i></b>`
the closing `</style>` pops the entry of `b`, the `i` element is opened on
the root at index 1, and it is not bold although it lies inside `b`. -/
theorem descendant_not_bold (env : render_env) (draw : Int) (tag p : List Char)
    (st : render_state) :
    ((new_entry env draw tag p st).style.bold
        = (if tag_in tag ["b", "strong", "h1", "h2", "h3", "th"] then 1
           else (st.stack st.sp).style.bold)
      ∧ (new_entry env draw tag p st).style.fg = (st.stack st.sp).style.fg)
    ∧ (render_html (sample_env 0 0 0) bold_style_doc [] 0 0 0).map
        (fun r => r.opened.map (fun e => (e.sp, e.node.tag, e.node.style.bold, e.node.style.italic)))
        = some [(1, "b".toList, 1, 0), (1, "i".toList, 0, 1)] :=
  ⟨⟨(open_node_text_style env draw tag p st).1, (open_node_text_style env draw tag p st).2.2.2.2.2⟩,
    by decide⟩

/-! ### The stack and the nesting of elements -/

/-- C26. Two well-nested documents in which an element is opened on a stack
that does not hold its ancestors. In `<div><style></style><p></p></div>` the
`p` element is opened at index 1, directly on the root, although the `div`
around it is open; in the page with `<style>` inside `<head>`, `body` is
opened at index 1 and not above `html` at index 2: the closing tag `</style>`
pops an entry, and the opening tag `<style>` has pushed none. -/
theorem style_close_pops_ancestor :
    (render_html (sample_env 0 0 0) style_in_div_doc [] 0 0 0).map
        (fun r => (r.opened.map (fun e => (e.sp, e.node.tag)), r.sp))
        = some ([(1, "div".toList), (1, "p".toList)], 0)
    ∧ (render_html (sample_env 0 0 0) head_style_doc [] 0 0 0).map
        (fun r => (r.opened.map (fun e => (e.sp, e.node.tag)), r.sp))
        = some ([(1, "html".toList), (2, "head".toList), (1, "body".toList), (2, "p".toList)], 0) := by
  decide

/-! ### Measuring and drawing -/

theorem ite_pair_fst_congr (c : Prop) [Decidable c] (n m : dom_node) (l k : List gfx_call)
    (r q : dom_node × List gfx_call) (hn : n = m) (hr : r.1 = q.1) :
    (if c then (n, l) else r).1 = (if c then (m, k) else q).1 := by
  split_ifs
  · exact hn
  · exact hr

theorem ite_pair_snd_nil (c : Prop) [Decidable c] (n : dom_node) (l : List gfx_call)
    (r : dom_node × List gfx_call) (hl : l = []) (hr : r.2 = []) :
    (if c then (n, l) else r).2 = [] := by
  split_ifs
  · exact hl
  · exact hr

/-- The node that the widget placeholders leave does not depend on the mode. -/
theorem tag_visuals_node (screen_w draw : Int) (tag : List Char) (node : dom_node) :
    (tag_visuals screen_w draw tag node).1 = (tag_visuals screen_w 0 tag node).1 := by
  unfold tag_visuals
  lift_lets
  extract_lets r0 a1 r1 a2 r2 a3 r3 a4 r4 w h a5 r5 a6 r6 a7 r7
    q1 b2 q2 b3 q3 b4 q4 w2 h2 b5 q5 b6 q6 b7 q7
  have e1 : r1.1 = q1.1 := ite_pair_fst_congr _ _ _ _ _ _ _ rfl rfl
  have e2 : r2.1 = q2.1 := ite_pair_fst_congr _ _ _ _ _ _ _ (by simp only [a2, b2, e1]) e1
  have e3 : r3.1 = q3.1 := ite_pair_fst_congr _ _ _ _ _ _ _ (by simp only [a3, b3, e2]) e2
  have e4 : r4.1 = q4.1 := ite_pair_fst_congr _ _ _ _ _ _ _ (by simp only [a4, b4, e3]) e3
  have e5 : r5.1 = q5.1 :=
    ite_pair_fst_congr _ _ _ _ _ _ _ (by simp only [a5, b5, w, w2, e4]) e4
  have e6 : r6.1 = q6.1 := ite_pair_fst_congr _ _ _ _ _ _ _ (by simp only [a6, b6, e5]) e5
  exact ite_pair_fst_congr _ _ _ _ _ _ _ (by simp only [a7, b7, e6]) e6

/-- A measuring pass draws no placeholder. -/
theorem tag_visuals_measure (screen_w : Int) (tag : List Char) (node : dom_node) :
    (tag_visuals screen_w 0 tag node).2 = [] := by
  unfold tag_visuals
  lift_lets
  extract_lets r0 a1 r1 a2 r2 a3 r3 a4 r4 w h a5 r5 a6 r6 a7 r7
  have e0 : r0.2 = [] := rfl
  have e1 : r1.2 = [] := ite_pair_snd_nil _ _ _ _ (by simp [e0]) e0
  have e2 : r2.2 = [] := ite_pair_snd_nil _ _ _ _ (by simp [e1]) e1
  have e3 : r3.2 = [] := ite_pair_snd_nil _ _ _ _ (by simp [e2]) e2
  have e4 : r4.2 = [] := ite_pair_snd_nil _ _ _ _ (by simp [e3]) e3
  have e5 : r5.2 = [] := ite_pair_snd_nil _ _ _ _ (by simp [e4]) e4
  have e6 : r6.2 = [] := ite_pair_snd_nil _ _ _ _ (by simp [e5]) e5
  exact ite_pair_snd_nil _ _ _ _ (by simp [e6]) e6

theorem draw_pseudo_measure (rules : List css_rule) (node : dom_node) :
    draw_pseudo rules 0 node = [] := by
  unfold draw_pseudo
  simp

theorem draw_text_loop_measure (y bold underline strike : Int) (text : List Char) :
    ∀ x : Int, (draw_text_loop false y bold underline strike text x).2 = [] := by
  induction text with
  | nil => intro x; rfl
  | cons c text ih =>
    intro x
    simp only [draw_text_loop, ih]
    rfl

theorem draw_text_styled_measure (x y : Int) (text : List Char) (fg bg : graphics_color)
    (bold italic underline strike : Int) :
    (draw_text_styled false x y text fg bg bold italic underline strike).2 = [] := by
  simp [draw_text_styled, draw_text_loop_measure]

theorem interaction_check_without_calls (env : render_env) (node : dom_node)
    (st : render_state) :
    interaction_check env node (without_calls st)
      = without_calls (interaction_check env node st) := by
  unfold interaction_check without_calls
  split_ifs <;> rfl

theorem show_node_without_calls (env : render_env) (draw : Int) (tag : List Char) (sp : Nat)
    (node : dom_node) (st : render_state) :
    show_node env 0 tag sp node (without_calls st)
      = without_calls (show_node env draw tag sp node st) := by
  unfold show_node
  simp only []
  rw [← interaction_check_without_calls, tag_visuals_node env.screen_w draw tag node]
  congr 1
  simp only [tag_visuals_measure, draw_pseudo_measure, without_calls, ne_eq, not_true_eq_false,
    if_false]
  split_ifs <;> rfl

theorem place_node_without_calls (env : render_env) (tag p : List Char) (sp : Nat)
    (st : render_state) :
    place_node env tag p sp (without_calls st) = place_node env tag p sp st := rfl

theorem open_node_without_calls (env : render_env) (draw : Int) (tag p : List Char)
    (st : render_state) :
    open_node env 0 tag p (without_calls st) = without_calls (open_node env draw tag p st) := by
  have h3 := show_node_without_calls env draw tag (st.sp + 1)
    (place_node env tag p (st.sp + 1) st).node
    { st with
      sp := st.sp + 1,
      stack := set_node (set_node st.stack (st.sp + 1 - 1)
        (place_node env tag p (st.sp + 1) st).parent) (st.sp + 1)
        (place_node env tag p (st.sp + 1) st).node,
      attr_past_end := st.attr_past_end || (place_node env tag p (st.sp + 1) st).attr_past_end }
  unfold open_node
  simp only [place_node_without_calls]
  simp only [without_calls] at h3 ⊢
  split_ifs with hd
  · rfl
  · rw [h3]

theorem close_node_without_calls (st : render_state) :
    close_node (without_calls st) = without_calls (close_node st) := by
  unfold close_node without_calls
  simp only []
  split_ifs <;> rfl

theorem style_script_tag_without_calls (env : render_env) (execute_js : Int)
    (tag : List Char) (closing : Bool) (st : render_state) :
    style_script_tag env execute_js tag closing (without_calls st)
      = without_calls (style_script_tag env execute_js tag closing st) := by
  unfold style_script_tag without_calls
  split_ifs <;> rfl

theorem tag_body_without_calls (env : render_env) (execute_js draw : Int) (closing : Bool)
    (tag p : List Char) (st : render_state) :
    tag_body env execute_js 0 closing tag p (without_calls st)
      = without_calls (tag_body env execute_js draw closing tag p st) := by
  unfold tag_body
  simp only [style_script_tag_without_calls]
  cases closing with
  | true => simp only [if_true]; exact close_node_without_calls _
  | false =>
    simp only [Bool.false_eq_true, if_false]
    by_cases h : (style_script_tag env execute_js tag false st).in_style = 0
        ∧ (style_script_tag env execute_js tag false st).in_script = 0
    · rw [if_pos h, if_pos (show (without_calls (style_script_tag env execute_js tag false
        st)).in_style = 0 ∧ (without_calls (style_script_tag env execute_js tag false
        st)).in_script = 0 from h)]
      exact open_node_without_calls env draw tag p _
    · rw [if_neg h, if_neg (show ¬ ((without_calls (style_script_tag env execute_js tag false
        st)).in_style = 0 ∧ (without_calls (style_script_tag env execute_js tag false
        st)).in_script = 0) from h)]

theorem tag_step_without_calls (env : render_env) (execute_js draw : Int) (after : List Char)
    (st : render_state) :
    tag_step env execute_js 0 after (without_calls st)
      = without_calls (tag_step env execute_js draw after st) := by
  have h := tag_body_without_calls env execute_js draw (decide (after.head? = some '/'))
      (strtolower (((if decide (after.head? = some '/') = true then after.tail else after).takeWhile
        (fun c => decide (c ≠ '>' ∧ c ≠ ' '))).take 63))
      ((if decide (after.head? = some '/') = true then after.tail else after).drop
        (((if decide (after.head? = some '/') = true then after.tail else after).takeWhile
          (fun c => decide (c ≠ '>' ∧ c ≠ ' '))).take 63).length)
      { st with in_tag := 1 }
  unfold tag_step
  simp only [without_calls] at h ⊢
  rw [h]

theorem text_step_without_calls (env : render_env) (draw : Int) (rest : List Char)
    (st : render_state) :
    text_step env 0 rest (without_calls st) = without_calls (text_step env draw rest st) := by
  have h0 : decide ((0 : Int) ≠ 0) = false := by decide
  unfold text_step
  simp only [h0, draw_text_styled_cursor, draw_text_styled_measure]
  rfl

theorem text_or_buffer_step_without_calls (env : render_env) (doc : List Char) (draw : Int)
    (st : render_state) :
    text_or_buffer_step env doc 0 (without_calls st)
      = without_calls (text_or_buffer_step env doc draw st) := by
  have h := text_step_without_calls env draw (doc.drop st.pos) st
  unfold text_or_buffer_step
  simp only [without_calls] at h ⊢
  by_cases c1 : st.in_tag = 0 ∧ st.in_style = 0 ∧ st.in_script = 0
  · simp only [if_pos c1, h]
    split_ifs <;> rfl
  · simp only [if_neg c1]
    split_ifs <;> rfl

theorem render_step_without_calls (env : render_env) (doc : List Char) (execute_js draw : Int)
    (st : render_state) :
    render_step env doc execute_js 0 (without_calls st)
      = without_calls (render_step env doc execute_js draw st) := by
  have hpos : (without_calls st).pos = st.pos := rfl
  unfold render_step
  rw [hpos]
  cases doc.drop st.pos with
  | nil => rfl
  | cons c after =>
    simp only []
    by_cases c1 : c = '<'
    · rw [if_pos c1, if_pos c1]
      exact tag_step_without_calls env execute_js draw after st
    · rw [if_neg c1, if_neg c1]
      by_cases c2 : c = '>'
      · rw [if_pos c2, if_pos c2]
        rfl
      · rw [if_neg c2, if_neg c2]
        by_cases c3 : (st.stack st.sp).style.display = 2 ∧ st.in_style = 0 ∧ st.in_script = 0
        · rw [if_pos c3, if_pos (show ((without_calls st).stack (without_calls st).sp).style.display
            = 2 ∧ (without_calls st).in_style = 0 ∧ (without_calls st).in_script = 0 from c3)]
          rfl
        · rw [if_neg c3, if_neg (show ¬ (((without_calls st).stack
            (without_calls st).sp).style.display = 2 ∧ (without_calls st).in_style = 0
            ∧ (without_calls st).in_script = 0) from c3)]
          exact text_or_buffer_step_without_calls env doc draw st

theorem render_loop_without_calls (env : render_env) (doc : List Char) (execute_js draw : Int) :
    ∀ (fuel : Nat) (st : render_state),
      render_loop env doc execute_js 0 fuel (without_calls st)
        = (render_loop env doc execute_js draw fuel st).map without_calls := by
  intro fuel
  induction fuel with
  | zero => intro st; rfl
  | succ fuel ih =>
    intro st
    have hpos : (without_calls st).pos = st.pos := rfl
    unfold render_loop
    rw [hpos]
    split_ifs with h
    · rw [render_step_without_calls env doc execute_js draw st]
      exact ih _
    · rfl

theorem render_init_without_calls (env : render_env) (rules : List css_rule)
    (scroll_y draw : Int) :
    render_init env rules scroll_y 0 = without_calls (render_init env rules scroll_y draw) := by
  unfold render_init without_calls
  simp

/-- C23. For every document, environment, store, scroll offset and script
switch, and for every value of `draw`: the measuring pass (`draw = 0`) ends
exactly when the pass with `draw` ends, and its final state is that pass's
final state with the record of surface calls emptied, so the value returned,
the hover flag, every stack entry (boxes and flow cursors), the store and the
printed lines are the same; and the measuring pass makes no surface call. -/
theorem measure_is_draw_without_calls (env : render_env) (doc : List Char)
    (rules : List css_rule) (scroll_y execute_js draw : Int) :
    render_html env doc rules scroll_y execute_js 0
      = (render_html env doc rules scroll_y execute_js draw).map without_calls
    ∧ (∃ r0 r1, render_html env doc rules scroll_y execute_js 0 = some r0
        ∧ render_html env doc rules scroll_y execute_js draw = some r1
        ∧ r0.should_exit = r1.should_exit ∧ r0.hover_detected = r1.hover_detected
        ∧ r0.stack = r1.stack ∧ r0.sp = r1.sp ∧ r0.css_rules = r1.css_rules
        ∧ r0.printed = r1.printed ∧ r0.opened = r1.opened ∧ r0.calls = []) := by
  have h : render_html env doc rules scroll_y execute_js 0
      = (render_html env doc rules scroll_y execute_js draw).map without_calls := by
    unfold render_html
    rw [render_init_without_calls env rules scroll_y draw]
    exact render_loop_without_calls env doc execute_js draw _ _
  refine ⟨h, ?_⟩
  obtain ⟨r1, hr1⟩ := render_loop_some env doc execute_js draw (doc.length + 1)
    (render_init env rules scroll_y draw) (by simp [render_init])
  have hr1' : render_html env doc rules scroll_y execute_js draw = some r1 := hr1
  refine ⟨without_calls r1, r1, ?_, hr1', rfl, rfl, rfl, rfl, rfl, rfl, rfl, rfl⟩
  rw [h, hr1']
  rfl

/-! ### The store seen by a node -/

/-- C24 as stated fails on the code. In the document
`<p class="a"></p><style>.a{width:40}</style><p class="a"></p>` the store at
the end holds the rule `.a` of width 40, which gives a `p` of class `a` the
width 40; the second `p` has it, the first `p`, opened before the style block,
was resolved against the empty store and has the width 0. -/
theorem late_style_counterexample :
    (render_html (sample_env 0 0 0) late_style_doc [] 0 0 0).map
        (fun r => (r.css_rules.map (fun x => (x.selector, x.style.width)),
          r.opened.map (fun e => (e.node.tag, e.node.cls, e.node.style.width))))
      = some ([(".a".toList, 40)],
          [("p".toList, "a".toList, 0), ("p".toList, "a".toList, 40)])
    ∧ (get_style_for [⟨".a".toList, { init_style with width := 40 }⟩] (some "p".toList)
        (some "a".toList) init_style).width = 40 := by
  decide

theorem parse_css_sheet_loop_append (str2int : List Char → Int → Int) :
    ∀ (fuel : Nat) (p : List Char) (rules : List css_rule),
      parse_css_sheet_loop str2int fuel p rules
        = (parse_css_sheet_loop str2int fuel p []).map (fun added => added ++ rules) := by
  intro fuel
  induction fuel with
  | zero => intro p rules; rfl
  | succ fuel ih =>
    intro p rules
    have key : ∀ (rest : List Char) (rule : css_rule),
        parse_css_sheet_loop str2int fuel rest (rule :: rules)
          = (parse_css_sheet_loop str2int fuel rest [rule]).map (fun added => added ++ rules) := by
      intro rest rule
      rw [ih rest (rule :: rules), ih rest [rule], Option.map_map]
      congr 1
      funext added
      simp
    unfold parse_css_sheet_loop
    cases p.dropWhile le_space with
    | nil => rfl
    | cons c q =>
      simp only []
      cases (c :: q).dropWhile (fun c => decide (c ≠ '\x7b')) with
      | nil => rfl
      | cons b after_brace =>
        simp only []
        cases after_brace.dropWhile (fun c => decide (c ≠ '\x7d')) with
        | nil => exact key _ _
        | cons e after_close => exact key _ _

/-- The function `parse_css_sheet` puts the rules of the sheet in front of the
store and leaves the rules that were there. -/
theorem parse_css_sheet_append (str2int : List Char → Int → Int) (sheet : List Char)
    (rules : List css_rule) :
    parse_css_sheet str2int sheet rules = parse_css_sheet str2int sheet [] ++ rules := by
  have h1 := parse_css_sheet_result str2int sheet rules
  have h2 := parse_css_sheet_result str2int sheet []
  rw [parse_css_sheet_loop_append str2int _ sheet rules, h2] at h1
  exact (Option.some.inj h1).symm

theorem interaction_check_css (env : render_env) (node : dom_node) (st : render_state) :
    (interaction_check env node st).css_rules = st.css_rules := by
  unfold interaction_check
  split_ifs <;> rfl

theorem show_node_css (env : render_env) (draw : Int) (tag : List Char) (sp : Nat)
    (node : dom_node) (st : render_state) :
    (show_node env draw tag sp node st).css_rules = st.css_rules := by
  unfold show_node
  simp only [interaction_check_css]
  split_ifs <;> rfl

theorem open_node_css (env : render_env) (draw : Int) (tag p : List Char)
    (st : render_state) : (open_node env draw tag p st).css_rules = st.css_rules := by
  unfold open_node
  simp only []
  split_ifs
  · rfl
  · simp only [show_node_css]

theorem close_node_css (st : render_state) : (close_node st).css_rules = st.css_rules := by
  unfold close_node
  simp only []
  split_ifs <;> rfl

theorem text_or_buffer_step_css (env : render_env) (doc : List Char) (draw : Int)
    (st : render_state) :
    (text_or_buffer_step env doc draw st).css_rules = st.css_rules := by
  unfold text_or_buffer_step text_step
  simp only []
  split_ifs <;> rfl

theorem render_rounds_succ (env : render_env) (doc : List Char) (execute_js draw : Int) :
    ∀ (k : Nat) (st : render_state),
      render_rounds env doc execute_js draw (k + 1) st
        = if (render_rounds env doc execute_js draw k st).pos < doc.length then
            render_step env doc execute_js draw (render_rounds env doc execute_js draw k st)
          else render_rounds env doc execute_js draw k st := by
  intro k
  induction k with
  | zero =>
    intro st
    simp only [render_rounds]
  | succ k ih =>
    intro st
    rw [render_rounds]
    by_cases h : st.pos < doc.length
    · rw [if_pos h, ih]
      simp only [render_rounds, if_pos h]
    · rw [if_neg h]
      simp only [render_rounds, if_neg h]

/-- The result of the main loop is the state after as many rounds as the loop
was given fuel. -/
theorem render_loop_rounds (env : render_env) (doc : List Char) (execute_js draw : Int) :
    ∀ (fuel : Nat) (st r : render_state),
      render_loop env doc execute_js draw fuel st = some r →
      render_rounds env doc execute_js draw fuel st = r := by
  intro fuel
  induction fuel with
  | zero => intro st r h; simp [render_loop] at h
  | succ fuel ih =>
    intro st r h
    rw [render_loop] at h
    rw [render_rounds]
    by_cases hp : st.pos < doc.length
    · rw [if_pos hp] at h ⊢
      exact ih _ _ h
    · rw [if_neg hp] at h ⊢
      exact Option.some.inj h

theorem interaction_check_style_buf (env : render_env) (node : dom_node) (st : render_state) :
    (interaction_check env node st).style_buf = st.style_buf := by
  unfold interaction_check
  split_ifs <;> rfl

theorem show_node_style_buf (env : render_env) (draw : Int) (tag : List Char) (sp : Nat)
    (node : dom_node) (st : render_state) :
    (show_node env draw tag sp node st).style_buf = st.style_buf := by
  unfold show_node
  simp only [interaction_check_style_buf]
  split_ifs <;> rfl

theorem open_node_style_buf (env : render_env) (draw : Int) (tag p : List Char)
    (st : render_state) : (open_node env draw tag p st).style_buf = st.style_buf := by
  unfold open_node
  simp only []
  split_ifs
  · rfl
  · simp only [show_node_style_buf]

theorem close_node_style_buf (st : render_state) :
    (close_node st).style_buf = st.style_buf := by
  unfold close_node
  simp only []
  split_ifs <;> rfl

/-- What the `style` and `script` tags do to the store, the style buffer and
the two flags. -/
theorem style_script_tag_store (env : render_env) (execute_js : Int) (tag : List Char)
    (closing : Bool) (st : render_state) :
    (style_script_tag env execute_js tag closing st).css_rules
      = (if closing = true ∧ tag = "style".toList then
          parse_css_sheet env.str2int st.style_buf st.css_rules
        else st.css_rules)
    ∧ (style_script_tag env execute_js tag closing st).style_buf
      = (if closing = false ∧ tag = "style".toList then [] else st.style_buf)
    ∧ (style_script_tag env execute_js tag closing st).opened = st.opened
    ∧ (closing = false → tag ≠ "style".toList → tag ≠ "script".toList →
        style_script_tag env execute_js tag closing st = st)
    ∧ (closing = false → tag = "style".toList →
        (style_script_tag env execute_js tag closing st).in_style = 1)
    ∧ (closing = false → tag = "script".toList →
        (style_script_tag env execute_js tag closing st).in_script = 1) := by
  unfold style_script_tag
  refine ⟨?_, ?_, ?_, ?_, ?_, ?_⟩
  · split_ifs <;> first | rfl | (exfalso; simp_all)
  · split_ifs <;> first | rfl | (exfalso; simp_all)
  · split_ifs <;> rfl
  · intro _ h1 h2
    rw [if_neg h1, if_neg h2]
  · intro hc h1
    rw [if_pos h1, hc]
    rfl
  · intro hc h2
    have h1 : tag ≠ "style".toList := by rw [h2]; decide
    rw [if_neg h1, if_pos h2, hc]
    rfl

/-- The node that the opening-tag branch records, and its style: the cascade
over the store that the branch finds. -/
theorem open_node_record (env : render_env) (draw : Int) (tag p : List Char)
    (st : render_state) :
    ∃ node, (open_node env draw tag p st).opened = st.opened ++ [⟨st.sp + 1, node⟩]
      ∧ node = (open_node env draw tag p st).stack (st.sp + 1)
      ∧ node.style = get_style_for st.css_rules (some tag)
          (if node.cls ≠ [] then some node.cls else none)
          (tag_defaults tag (inherit_style (st.stack st.sp).style)) := by
  obtain ⟨attrs, ha⟩ := scan_attrs_some (p.length + 1) p [] [] (Nat.lt_succ_self _)
  have hp := place_node_eq env tag p (st.sp + 1) st attrs _ (Nat.succ_pos _) ha rfl
  simp only [Nat.add_sub_cancel] at hp
  have hs : (place_node env tag p (st.sp + 1) st).node.style
      = get_style_for st.css_rules (some tag) (if attrs.cls ≠ [] then some attrs.cls else none)
          (tag_defaults tag (inherit_style (st.stack st.sp).style)) := by
    rw [hp]
    simp only [(layout_position_box _ _).2.2, layout_size_style]
  have hcls := (open_node_texts env draw tag p st attrs ha).2.1
  have hstyle := (open_node_top_box env draw tag p st).2.2
  have hopened : (open_node env draw tag p st).opened
      = st.opened ++ [⟨st.sp + 1, (open_node env draw tag p st).stack (st.sp + 1)⟩] := by
    unfold open_node
    simp only []
    split_ifs
    · rfl
    · simp only [show_node_opened]
  refine ⟨_, hopened, rfl, ?_⟩
  rw [hstyle, hcls, hs]

/-- What a tag does to the store, the style buffer and the record of opened
nodes. -/
theorem tag_body_store (env : render_env) (execute_js draw : Int) (closing : Bool)
    (tag p : List Char) (st : render_state) :
    (tag_body env execute_js draw closing tag p st).css_rules
      = (if closing = true ∧ tag = "style".toList then
          parse_css_sheet env.str2int st.style_buf st.css_rules
        else st.css_rules)
    ∧ (tag_body env execute_js draw closing tag p st).style_buf
      = (if closing = false ∧ tag = "style".toList then [] else st.style_buf)
    ∧ ((closing = false ∧ tag ≠ "style".toList ∧ tag ≠ "script".toList
          ∧ st.in_style = 0 ∧ st.in_script = 0) →
        ∃ node, (tag_body env execute_js draw closing tag p st).opened
            = st.opened ++ [⟨st.sp + 1, node⟩]
          ∧ node = (tag_body env execute_js draw closing tag p st).stack (st.sp + 1)
          ∧ node.style = get_style_for st.css_rules (some tag)
              (if node.cls ≠ [] then some node.cls else none)
              (tag_defaults tag (inherit_style (st.stack st.sp).style)))
    ∧ (¬ (closing = false ∧ tag ≠ "style".toList ∧ tag ≠ "script".toList
          ∧ st.in_style = 0 ∧ st.in_script = 0) →
        (tag_body env execute_js draw closing tag p st).opened = st.opened) := by
  obtain ⟨s1, s2, s3, s4, s5, s6⟩ := style_script_tag_store env execute_js tag closing st
  refine ⟨?_, ?_, ?_, ?_⟩
  · rw [← s1]
    unfold tag_body
    simp only []
    split_ifs
    · exact close_node_css _
    · exact open_node_css _ _ _ _ _
    · rfl
  · rw [← s2]
    unfold tag_body
    simp only []
    split_ifs
    · exact close_node_style_buf _
    · exact open_node_style_buf _ _ _ _ _
    · rfl
  · rintro ⟨hc, h1, h2, h3, h4⟩
    have hst := s4 hc h1 h2
    subst hc
    unfold tag_body
    simp only [hst, Bool.false_eq_true, if_false, h3, h4, and_self, if_true]
    exact open_node_record env draw tag p st
  · intro hn
    unfold tag_body
    simp only []
    split_ifs with hc ho
    · rw [(close_node_exit _).1, s3]
    · exfalso
      have hc' : closing = false := by simpa using hc
      apply hn
      by_cases h1 : tag = "style".toList
      · have := s5 hc' h1
        rw [ho.1] at this
        exact absurd this (by decide)
      · by_cases h2 : tag = "script".toList
        · have := s6 hc' h2
          rw [ho.2] at this
          exact absurd this (by decide)
        · rw [s4 hc' h1 h2] at ho
          exact ⟨hc', h1, h2, ho.1, ho.2⟩
    · exact s3

theorem tag_step_read_tag (env : render_env) (execute_js draw : Int) (after : List Char)
    (st : render_state) :
    ∃ p, (tag_step env execute_js draw after st).css_rules
          = (tag_body env execute_js draw (read_tag after).1 (read_tag after).2 p
              { st with in_tag := 1 }).css_rules
      ∧ (tag_step env execute_js draw after st).style_buf
          = (tag_body env execute_js draw (read_tag after).1 (read_tag after).2 p
              { st with in_tag := 1 }).style_buf
      ∧ (tag_step env execute_js draw after st).opened
          = (tag_body env execute_js draw (read_tag after).1 (read_tag after).2 p
              { st with in_tag := 1 }).opened
      ∧ (tag_step env execute_js draw after st).stack
          = (tag_body env execute_js draw (read_tag after).1 (read_tag after).2 p
              { st with in_tag := 1 }).stack := by
  unfold tag_step read_tag
  exact ⟨_, rfl, rfl, rfl, rfl⟩

theorem text_or_buffer_step_store (env : render_env) (doc : List Char) (draw : Int)
    (st : render_state) (c : Char) (after : List Char) (hd : doc.drop st.pos = c :: after) :
    (text_or_buffer_step env doc draw st).css_rules = st.css_rules
    ∧ (text_or_buffer_step env doc draw st).opened = st.opened
    ∧ (text_or_buffer_step env doc draw st).style_buf
        = (if st.in_style ≠ 0 ∧ st.style_buf.length < 2047 then st.style_buf ++ [c]
           else st.style_buf) := by
  have hb : byte_at doc st.pos = c := byte_at_of_drop doc st.pos c after hd
  refine ⟨text_or_buffer_step_css env doc draw st, (text_or_buffer_step_exit env doc draw st).1, ?_⟩
  unfold text_or_buffer_step
  by_cases hs : st.in_style = 0
  · simp only []
    split_ifs <;> simp_all [text_step]
  · have h0 : ¬ (st.in_tag = 0 ∧ st.in_style = 0 ∧ st.in_script = 0) := fun h => hs h.2.1
    simp only [if_neg h0, hb]
    split_ifs <;> simp_all

/-- One round of the main loop: what it does to the store, to the style
buffer and to the record of opened nodes. -/
theorem render_step_store (env : render_env) (doc : List Char) (execute_js draw : Int)
    (st : render_state) (c : Char) (after : List Char) (hd : doc.drop st.pos = c :: after) :
    (render_step env doc execute_js draw st).css_rules
      = (if c = '<' ∧ read_tag after = (true, "style".toList) then
          parse_css_sheet env.str2int st.style_buf [] ++ st.css_rules
        else st.css_rules)
    ∧ (render_step env doc execute_js draw st).style_buf
      = (if c = '<' then (if read_tag after = (false, "style".toList) then [] else st.style_buf)
         else if c ≠ '>' ∧ st.in_style ≠ 0 ∧ st.style_buf.length < 2047 then st.style_buf ++ [c]
         else st.style_buf)
    ∧ (opens_node c after st →
        ∃ node, (render_step env doc execute_js draw st).opened
            = st.opened ++ [⟨st.sp + 1, node⟩]
          ∧ node = (render_step env doc execute_js draw st).stack (st.sp + 1)
          ∧ node.style = get_style_for st.css_rules (some (read_tag after).2)
              (if node.cls ≠ [] then some node.cls else none)
              (tag_defaults (read_tag after).2 (inherit_style (st.stack st.sp).style)))
    ∧ (¬ opens_node c after st → (render_step env doc execute_js draw st).opened = st.opened) := by
  have hpair : ∀ (b : Bool) (t : List Char),
      read_tag after = (b, t) ↔ (read_tag after).1 = b ∧ (read_tag after).2 = t := by
    intro b t
    constructor
    · intro h; rw [h]; exact ⟨rfl, rfl⟩
    · intro h; exact Prod.ext h.1 h.2
  unfold render_step
  rw [hd]
  simp only []
  by_cases h1 : c = '<'
  · rw [if_pos h1]
    obtain ⟨p, e1, e2, e3, e4⟩ := tag_step_read_tag env execute_js draw after st
    obtain ⟨b1, b2, b3, b4⟩ := tag_body_store env execute_js draw (read_tag after).1
      (read_tag after).2 p { st with in_tag := 1 }
    rw [e1, e2, e3, e4, b1, b2]
    refine ⟨?_, ?_, ?_, ?_⟩
    · simp only [h1, true_and, hpair, parse_css_sheet_append env.str2int st.style_buf st.css_rules]
    · simp only [h1, if_true, hpair]
    · intro ho
      unfold opens_node at ho
      exact b3 ⟨ho.2.1, ho.2.2.1, ho.2.2.2.1, ho.2.2.2.2.1, ho.2.2.2.2.2⟩
    · intro ho
      apply b4
      intro hc
      exact ho ⟨h1, hc.1, hc.2.1, hc.2.2.1, hc.2.2.2.1, hc.2.2.2.2⟩
  · rw [if_neg h1]
    have hno : ¬ opens_node c after st := fun h => h1 h.1
    by_cases h2 : c = '>'
    · rw [if_pos h2]
      refine ⟨by simp [h1], by simp [h1, h2], fun h => absurd h hno, fun _ => rfl⟩
    · rw [if_neg h2]
      by_cases h3 : (st.stack st.sp).style.display = 2 ∧ st.in_style = 0 ∧ st.in_script = 0
      · rw [if_pos h3]
        refine ⟨by simp [h1], ?_, fun h => absurd h hno, fun _ => rfl⟩
        simp [h1, h3.2.1]
      · rw [if_neg h3]
        obtain ⟨t1, t2, t3⟩ := text_or_buffer_step_store env doc draw st c after hd
        refine ⟨by simp [h1, t1], ?_, fun h => absurd h hno, fun _ => t2⟩
        rw [t3]
        simp [h1, h2]

theorem interaction_check_flags (env : render_env) (node : dom_node) (st : render_state) :
    (interaction_check env node st).in_style = st.in_style
    ∧ (interaction_check env node st).in_script = st.in_script := by
  unfold interaction_check
  split_ifs <;> exact ⟨rfl, rfl⟩

theorem show_node_flags (env : render_env) (draw : Int) (tag : List Char) (sp : Nat)
    (node : dom_node) (st : render_state) :
    (show_node env draw tag sp node st).in_style = st.in_style
    ∧ (show_node env draw tag sp node st).in_script = st.in_script := by
  unfold show_node
  simp only [interaction_check_flags]
  split_ifs <;> exact ⟨rfl, rfl⟩

theorem open_node_flags (env : render_env) (draw : Int) (tag p : List Char)
    (st : render_state) :
    (open_node env draw tag p st).in_style = st.in_style
    ∧ (open_node env draw tag p st).in_script = st.in_script := by
  unfold open_node
  simp only []
  split_ifs
  · exact ⟨rfl, rfl⟩
  · simp only [show_node_flags, and_self]

theorem close_node_flags (st : render_state) :
    (close_node st).in_style = st.in_style ∧ (close_node st).in_script = st.in_script := by
  unfold close_node
  simp only []
  split_ifs <;> exact ⟨rfl, rfl⟩

theorem style_script_tag_flags (env : render_env) (execute_js : Int) (tag : List Char)
    (closing : Bool) (st : render_state) :
    (style_script_tag env execute_js tag closing st).in_style
      = (if tag = "style".toList then (if closing = true then 0 else 1) else st.in_style)
    ∧ (style_script_tag env execute_js tag closing st).in_script
      = (if tag = "script".toList then (if closing = true then 0 else 1) else st.in_script) := by
  unfold style_script_tag
  by_cases h1 : tag = "style".toList
  · have h2 : tag ≠ "script".toList := by rw [h1]; decide
    rw [if_pos h1, if_pos h1, if_neg h2]
    split_ifs <;> exact ⟨rfl, rfl⟩
  · rw [if_neg h1, if_neg h1]
    split_ifs <;> exact ⟨rfl, rfl⟩

theorem tag_body_flags (env : render_env) (execute_js draw : Int) (closing : Bool)
    (tag p : List Char) (st : render_state) :
    (tag_body env execute_js draw closing tag p st).in_style
      = (if tag = "style".toList then (if closing = true then 0 else 1) else st.in_style)
    ∧ (tag_body env execute_js draw closing tag p st).in_script
      = (if tag = "script".toList then (if closing = true then 0 else 1) else st.in_script) := by
  obtain ⟨f1, f2⟩ := style_script_tag_flags env execute_js tag closing st
  rw [← f1, ← f2]
  unfold tag_body
  simp only []
  split_ifs
  · exact close_node_flags _
  · exact open_node_flags _ _ _ _ _
  · exact ⟨rfl, rfl⟩

theorem tag_step_flags (env : render_env) (execute_js draw : Int) (after : List Char)
    (st : render_state) :
    ∃ p, (tag_step env execute_js draw after st).in_style
          = (tag_body env execute_js draw (read_tag after).1 (read_tag after).2 p
              { st with in_tag := 1 }).in_style
      ∧ (tag_step env execute_js draw after st).in_script
          = (tag_body env execute_js draw (read_tag after).1 (read_tag after).2 p
              { st with in_tag := 1 }).in_script := by
  unfold tag_step read_tag
  exact ⟨_, rfl, rfl⟩

theorem text_or_buffer_step_flags (env : render_env) (doc : List Char) (draw : Int)
    (st : render_state) :
    (text_or_buffer_step env doc draw st).in_style = st.in_style
    ∧ (text_or_buffer_step env doc draw st).in_script = st.in_script := by
  unfold text_or_buffer_step text_step
  simp only []
  split_ifs <;> exact ⟨rfl, rfl⟩

/-- One round of the main loop: what it does to the style and script flags. -/
theorem render_step_flags (env : render_env) (doc : List Char) (execute_js draw : Int)
    (st : render_state) (c : Char) (after : List Char) (hd : doc.drop st.pos = c :: after) :
    (render_step env doc execute_js draw st).in_style
      = (if c = '<' ∧ (read_tag after).2 = "style".toList then
          (if (read_tag after).1 = true then 0 else 1)
        else st.in_style)
    ∧ (render_step env doc execute_js draw st).in_script
      = (if c = '<' ∧ (read_tag after).2 = "script".toList then
          (if (read_tag after).1 = true then 0 else 1)
        else st.in_script) := by
  unfold render_step
  rw [hd]
  simp only []
  by_cases h1 : c = '<'
  · rw [if_pos h1]
    obtain ⟨p, e1, e2⟩ := tag_step_flags env execute_js draw after st
    obtain ⟨b1, b2⟩ := tag_body_flags env execute_js draw (read_tag after).1
      (read_tag after).2 p { st with in_tag := 1 }
    rw [e1, e2, b1, b2]
    simp only [h1, true_and, and_self]
  · rw [if_neg h1]
    simp only [h1, false_and, if_false]
    split_ifs
    · exact ⟨rfl, rfl⟩
    · exact ⟨rfl, rfl⟩
    · exact text_or_buffer_step_flags env doc draw st

theorem drop_cons_lt (doc : List Char) (n : Nat) (c : Char) (after : List Char)
    (h : doc.drop n = c :: after) : n < doc.length := by
  by_contra hc
  rw [List.drop_eq_nil_of_le (by omega)] at h
  exact List.noConfusion h

/-- C24, amended. With `S k` the state of the traversal after `k` rounds of
its main loop: the traversal returns the state after `length + 1` rounds; it
starts with an empty store, an empty style buffer, both flags clear and no
node opened, and a round that finds the cursor at the end changes nothing.
A round changes the store exactly when it reads a closing `style` tag, and
then puts the rules parsed from the style buffer in front of it; the style
buffer is emptied by an opening `style` tag and, while the style flag is set,
takes the byte of every round that reads neither `<` nor `>`, up to 2047
bytes; the style flag is set by an opening and cleared by a closing `style`
tag, the script flag likewise by `script` tags. A round opens a node exactly
when it reads an opening tag other than `style` and `script` with both flags
clear, and the style of that node is the cascade, over its tag defaults and
inherited fields, of the store as the round finds it. So the store after `k`
rounds holds exactly the rules of the style blocks closed in the rounds
before, newest first, and every node in the record of opened nodes was
resolved, in the round that opened it, against the store of that round. -/
theorem node_styled_by_store_so_far (env : render_env) (doc : List Char)
    (rules : List css_rule) (scroll_y execute_js draw : Int) :
    let S := traversal env doc rules scroll_y execute_js draw
    render_html env doc rules scroll_y execute_js draw = some (S (doc.length + 1))
    ∧ ((S 0).css_rules = [] ∧ (S 0).style_buf = [] ∧ (S 0).in_style = 0
        ∧ (S 0).in_script = 0 ∧ (S 0).opened = [])
    ∧ (∀ k, doc.drop (S k).pos = [] → S (k + 1) = S k)
    ∧ (∀ k c after, doc.drop (S k).pos = c :: after →
        (S (k + 1)).css_rules
          = (if c = '<' ∧ read_tag after = (true, "style".toList) then
              parse_css_sheet env.str2int (S k).style_buf [] ++ (S k).css_rules
            else (S k).css_rules)
        ∧ (S (k + 1)).style_buf
          = (if c = '<' then
              (if read_tag after = (false, "style".toList) then [] else (S k).style_buf)
            else if c ≠ '>' ∧ (S k).in_style ≠ 0 ∧ (S k).style_buf.length < 2047 then
              (S k).style_buf ++ [c]
            else (S k).style_buf)
        ∧ (S (k + 1)).in_style
          = (if c = '<' ∧ (read_tag after).2 = "style".toList then
              (if (read_tag after).1 = true then 0 else 1)
            else (S k).in_style)
        ∧ (S (k + 1)).in_script
          = (if c = '<' ∧ (read_tag after).2 = "script".toList then
              (if (read_tag after).1 = true then 0 else 1)
            else (S k).in_script)
        ∧ (opens_node c after (S k) →
            ∃ node, (S (k + 1)).opened = (S k).opened ++ [⟨(S k).sp + 1, node⟩]
              ∧ node = (S (k + 1)).stack ((S k).sp + 1)
              ∧ node.style = get_style_for (S k).css_rules (some (read_tag after).2)
                  (if node.cls ≠ [] then some node.cls else none)
                  (tag_defaults (read_tag after).2
                    (inherit_style ((S k).stack (S k).sp).style)))
        ∧ (¬ opens_node c after (S k) → (S (k + 1)).opened = (S k).opened))
    ∧ (∀ k, (S k).css_rules
        = ((List.range k).reverse.map (fun j =>
            if closes_style doc (S j) = true then
              parse_css_sheet env.str2int (S j).style_buf []
            else [])).flatten)
    ∧ (∀ n, ∀ e ∈ (S n).opened, ∃ k after, k < n ∧ doc.drop (S k).pos = '<' :: after
        ∧ opens_node '<' after (S k) ∧ e.sp = (S k).sp + 1
        ∧ e.node.style = get_style_for (S k).css_rules (some (read_tag after).2)
            (if e.node.cls ≠ [] then some e.node.cls else none)
            (tag_defaults (read_tag after).2 (inherit_style ((S k).stack (S k).sp).style))) := by
  intro S
  have hsucc : ∀ k, S (k + 1)
      = if (S k).pos < doc.length then render_step env doc execute_js draw (S k) else S k :=
    fun k => render_rounds_succ env doc execute_js draw k _
  have hfinal : render_html env doc rules scroll_y execute_js draw
      = some (S (doc.length + 1)) := by
    obtain ⟨r, hr⟩ := render_loop_some env doc execute_js draw (doc.length + 1)
      (render_init env rules scroll_y draw) (by omega)
    have hrr := render_loop_rounds env doc execute_js draw _ _ _ hr
    show render_loop env doc execute_js draw (doc.length + 1)
        (render_init env rules scroll_y draw)
      = some (render_rounds env doc execute_js draw (doc.length + 1)
        (render_init env rules scroll_y draw))
    rw [hrr]
    exact hr
  have hround : ∀ k c after, doc.drop (S k).pos = c :: after →
      S (k + 1) = render_step env doc execute_js draw (S k) := by
    intro k c after hd
    rw [hsucc, if_pos (drop_cons_lt doc _ c after hd)]
  have hstop : ∀ k, doc.drop (S k).pos = [] → S (k + 1) = S k := by
    intro k hd
    have hn : ¬ (S k).pos < doc.length := by
      intro h
      obtain ⟨c, after, hc⟩ := drop_eq_cons_of_lt doc _ h
      rw [hd] at hc
      exact List.noConfusion hc
    rw [hsucc, if_neg hn]
  have hstep : ∀ k c after, doc.drop (S k).pos = c :: after →
      (S (k + 1)).css_rules
          = (if c = '<' ∧ read_tag after = (true, "style".toList) then
              parse_css_sheet env.str2int (S k).style_buf [] ++ (S k).css_rules
            else (S k).css_rules)
        ∧ (S (k + 1)).style_buf
          = (if c = '<' then
              (if read_tag after = (false, "style".toList) then [] else (S k).style_buf)
            else if c ≠ '>' ∧ (S k).in_style ≠ 0 ∧ (S k).style_buf.length < 2047 then
              (S k).style_buf ++ [c]
            else (S k).style_buf)
        ∧ (S (k + 1)).in_style
          = (if c = '<' ∧ (read_tag after).2 = "style".toList then
              (if (read_tag after).1 = true then 0 else 1)
            else (S k).in_style)
        ∧ (S (k + 1)).in_script
          = (if c = '<' ∧ (read_tag after).2 = "script".toList then
              (if (read_tag after).1 = true then 0 else 1)
            else (S k).in_script)
        ∧ (opens_node c after (S k) →
            ∃ node, (S (k + 1)).opened = (S k).opened ++ [⟨(S k).sp + 1, node⟩]
              ∧ node = (S (k + 1)).stack ((S k).sp + 1)
              ∧ node.style = get_style_for (S k).css_rules (some (read_tag after).2)
                  (if node.cls ≠ [] then some node.cls else none)
                  (tag_defaults (read_tag after).2
                    (inherit_style ((S k).stack (S k).sp).style)))
        ∧ (¬ opens_node c after (S k) → (S (k + 1)).opened = (S k).opened) := by
    intro k c after hd
    rw [hround k c after hd]
    obtain ⟨a1, a2, a3, a4⟩ := render_step_store env doc execute_js draw (S k) c after hd
    obtain ⟨f1, f2⟩ := render_step_flags env doc execute_js draw (S k) c after hd
    exact ⟨a1, a2, f1, f2, a3, a4⟩
  refine ⟨hfinal, ⟨free_rules_nil rules, rfl, rfl, rfl, rfl⟩, hstop, hstep, ?_, ?_⟩
  · intro k
    induction k with
    | zero => exact free_rules_nil rules
    | succ k ih =>
      rw [List.range_succ, List.reverse_append, List.reverse_singleton, List.singleton_append,
        List.map_cons, List.flatten_cons, ← ih]
      cases hd : doc.drop (S k).pos with
      | nil =>
        rw [hstop k hd]
        simp only [closes_style, hd, Bool.false_eq_true, if_false, List.nil_append]
      | cons c after =>
        rw [(hstep k c after hd).1]
        simp only [closes_style, hd, decide_eq_true_eq]
        split_ifs
        · rfl
        · rfl
  · intro n
    induction n with
    | zero =>
      intro e he
      have h0 : (S 0).opened = [] := rfl
      rw [h0] at he
      exact absurd he (List.not_mem_nil e)
    | succ n ih =>
      intro e he
      have hold : e ∈ (S n).opened → ∃ k after, k < n + 1 ∧ doc.drop (S k).pos = '<' :: after
          ∧ opens_node '<' after (S k) ∧ e.sp = (S k).sp + 1
          ∧ e.node.style = get_style_for (S k).css_rules (some (read_tag after).2)
              (if e.node.cls ≠ [] then some e.node.cls else none)
              (tag_defaults (read_tag after).2
                (inherit_style ((S k).stack (S k).sp).style)) := by
        intro h
        obtain ⟨k, after, hk, rest⟩ := ih e h
        exact ⟨k, after, by omega, rest⟩
      cases hd : doc.drop (S n).pos with
      | nil =>
        rw [hstop n hd] at he
        exact hold he
      | cons c after =>
        obtain ⟨_, _, _, _, hopen, hkeep⟩ := hstep n c after hd
        by_cases ho : opens_node c after (S n)
        · obtain ⟨node, hop, _, hstyle⟩ := hopen ho
          rw [hop, List.mem_append, List.mem_singleton] at he
          rcases he with he | he
          · exact hold he
          · have hc : c = '<' := ho.1
            subst hc
            subst he
            exact ⟨n, after, by omega, hd, ho, rfl, hstyle⟩
        · rw [hkeep ho] at he
          exact hold he

end NexShell
